import Mathlib

/-!
# TinyIM: edge routing and presence core

A shallow embedding of the gateway's `SessionManager`, the WebSocket session
lifecycle with its write pump and worker pool, the Redis-backed routing plane,
the Presence (status) service, the Chat service and the Auth service, followed
by the properties proved about them.

Conventions of the embedding
* a `std::string` is a list of bytes, each byte held as a `Char`;
* `int64_t` values are `Int`; the range of `long long` is explicit where the
  source depends on it (`stoll`);
* a `websocket_session*` is a natural number naming the session object;
* the Redis server is an explicit store; every command the code issues is also
  appended to a command log, so that "reads nothing" and "publishes nothing"
  are statements about that log;
* a message is published through the `RedisPubSubClient` instance of the
  process that publishes: the gateway configures its instance with `Init`, the
  status process never does, so its `Publish` finds nothing to connect to;
* work posted to the thread pool is run at the point where it is posted; the
  order in which the pool finishes the tasks of one session is modelled
  separately (`Pool`);
* a MySQL table is the list of its rows in insertion order, a statement whose
  result the code inspects or drops carries a flag saying whether it was
  applied, and a string read back from a result row is the stored one up to
  its first zero byte (`FetchResults`).
-/

namespace TinyIM

/-! ## Strings and numbers -/

/-- A `std::string`: a sequence of bytes. -/
abbrev Str := List Char

/-- The zero byte, which ends a C string. -/
def NUL : Char := Char.ofNat 0

/-- The ASCII digit of a value below ten. -/
def digitChar (d : Nat) : Char := Char.ofNat (48 + d)

/-- Decimal digits of a natural number, most significant first; `fuel` bounds
the number of digits and `n + 1` is always enough. -/
def natDigits : Nat → Nat → Str
  | 0, _ => []
  | fuel + 1, n =>
    if n < 10 then [digitChar n] else natDigits fuel (n / 10) ++ [digitChar (n % 10)]

/-- The function `std::to_string(long long)`. -/
def to_string (n : Int) : Str :=
  if n < 0 then '-' :: natDigits (n.natAbs + 1) n.natAbs
  else natDigits (n.natAbs + 1) n.natAbs

/-- The predicate `isspace` of the C locale. -/
def isspace (c : Char) : Bool :=
  c.toNat = 32 || (9 ≤ c.toNat && c.toNat ≤ 13)

/-- The predicate `isdigit`. -/
def isdigit (c : Char) : Bool :=
  48 ≤ c.toNat && c.toNat ≤ 57

/-- Value of a run of decimal digits. -/
def digitsVal (ds : Str) : Nat :=
  ds.foldl (fun acc c => 10 * acc + (c.toNat - 48)) 0

/-- Smallest `long long`. -/
def LLONG_MIN : Int := -(2 ^ 63)

/-- Largest `long long`. -/
def LLONG_MAX : Int := 2 ^ 63 - 1

/-- The function `std::stoll(s)` in base ten: leading white space is skipped,
one sign is accepted, the longest run of digits is converted and the rest of
the string is ignored. `none` stands for the exception thrown when there is
no digit (`invalid_argument`) or the value does not fit (`out_of_range`). -/
def stoll (s : Str) : Option Int :=
  let s1 := s.dropWhile isspace
  let neg : Bool := s1.head? = some '-'
  let s2 := if s1.head? = some '-' ∨ s1.head? = some '+' then s1.tail else s1
  let ds := s2.takeWhile isdigit
  if ds = [] then none
  else
    let v : Int := if neg then -(digitsVal ds : Int) else (digitsVal ds : Int)
    if LLONG_MIN ≤ v ∧ v ≤ LLONG_MAX then some v else none

/-- The call `s.find(c)` of `std::string`; `none` is `npos`. -/
def find (c : Char) : Str → Option Nat
  | [] => none
  | x :: xs => if x = c then some 0 else (find c xs).map (· + 1)

/-- The call `s.find(pat)` for a string pattern; `none` is `npos`. -/
def findStr (pat : Str) : Str → Option Nat
  | [] => if pat = [] then some 0 else none
  | x :: xs => if pat.isPrefixOf (x :: xs) then some 0 else (findStr pat xs).map (· + 1)

/-- The bytes a `const char*` consumer sees of `s.c_str()`: everything before
the first zero byte. -/
def c_str (s : Str) : Str := s.takeWhile (· ≠ NUL)

/-- A cell of a result row as `MySQLClient::FetchResults` builds it:
`row_data.push_back(row[i] ? row[i] : "NULL")` makes the `std::string` from a
`char*`, so the cell holds the stored bytes up to the first zero byte. -/
def FetchResults.cell (stored : Str) : Str := c_str stored

/-! ## Client frames -/

/-- Modelled from the spec: the enumeration `api::v1::MessageType` of the
generated protobuf header, which is not among the sources (§6.1). -/
inductive MessageType
  | UNKNOWN | CHAT_SEND | CHAT_ACK | CHAT_PUSH | STATUS_UPDATE | HEARTBEAT_PING | HEARTBEAT_PONG
  deriving DecidableEq, Repr

/-- Modelled from the spec: the `chat_data` member of a frame (§6.1); an unset
field has the protobuf default. -/
structure ChatData where
  msg_id : Int := 0
  from_user_id : Int := 0
  to_user_id : Int := 0
  content : Str := []
  timestamp : Int := 0
  deriving DecidableEq, Repr

/-- Modelled from the spec: the `status_data` member of a frame (§6.1). -/
structure StatusData where
  user_id : Int := 0
  status : Int := 0
  timestamp : Int := 0
  deriving DecidableEq, Repr

/-- Modelled from the spec: the frame `api::v1::GatewayMessage` (§6.1). Its
serialisation (`SerializeToString`) is generated code that is not among the
sources; the functions below take it as the parameter `ser`. -/
structure GatewayMessage where
  type : MessageType := MessageType.UNKNOWN
  request_id : Str := []
  error : Str := []
  chat_data : Option ChatData := none
  status_data : Option StatusData := none
  deriving DecidableEq, Repr

/-! ## The Redis store (`redis_client.hpp`) -/

/-- A command issued through `RedisClient` or `RedisPubSubClient`, with the
arguments the caller passed. -/
inductive RedisCmd
  | SET (key value : Str)
  | GET (key : Str)
  | HSET (key field value : Str)
  | HGET (key field : Str)
  | HDEL (key field : Str)
  | PUBLISH (channel message : Str)
  | SETEX (key : Str) (seconds : Int) (value : Str)
  deriving DecidableEq, Repr

/-- The Redis server as the services see it: plain keys, hashes, and the log of
commands issued so far (oldest first). Commands are modelled on a reachable
server, so every command gets its regular reply. -/
structure Redis where
  kv : Str → Option Str
  hash : Str → Str → Option Str
  log : List RedisCmd

/-- A server holding nothing. -/
def Redis.empty : Redis :=
  { kv := fun _ => none, hash := fun _ _ => none, log := [] }

/-- The method `RedisClient::Set`. -/
def Redis.Set (r : Redis) (key value : Str) : Redis :=
  { r with kv := Function.update r.kv key (some value), log := r.log ++ [RedisCmd.SET key value] }

/-- The method `RedisClient::SetEx`. The model has no clock: the key holds the
value until it is written again. -/
def Redis.SetEx (r : Redis) (key value : Str) (seconds : Int) : Redis :=
  { r with
    kv := Function.update r.kv key (some value),
    log := r.log ++ [RedisCmd.SETEX key seconds value] }

/-- The method `RedisClient::Get`: the reply and the server afterwards. -/
def Redis.Get (r : Redis) (key : Str) : Option Str × Redis :=
  (r.kv key, { r with log := r.log ++ [RedisCmd.GET key] })

/-- The method `RedisClient::HSet`. -/
def Redis.HSet (r : Redis) (key field value : Str) : Redis :=
  { r with
    hash := Function.update r.hash key (Function.update (r.hash key) field (some value)),
    log := r.log ++ [RedisCmd.HSET key field value] }

/-- The method `RedisClient::HGet`: the reply and the server afterwards. -/
def Redis.HGet (r : Redis) (key field : Str) : Option Str × Redis :=
  (r.hash key field, { r with log := r.log ++ [RedisCmd.HGET key field] })

/-- The method `RedisClient::HDel`. -/
def Redis.HDel (r : Redis) (key field : Str) : Redis :=
  { r with
    hash := Function.update r.hash key (Function.update (r.hash key) field none),
    log := r.log ++ [RedisCmd.HDEL key field] }

/-- The call `RedisPubSubClient::Publish(channel, message)` as the caller makes
it, through an instance whose connection to the server stands (the gateway
configures its instance with `Init`, `gateway/main.cpp:190`): it changes no
key and is recorded with the arguments passed. -/
def Redis.Publish (r : Redis) (channel message : Str) : Redis :=
  { r with log := r.log ++ [RedisCmd.PUBLISH channel message] }

/-- The `(channel, message)` pairs handed to `Publish` so far, oldest first. -/
def Redis.published (r : Redis) : List (Str × Str) :=
  r.log.filterMap fun c =>
    match c with
    | RedisCmd.PUBLISH ch m => some (ch, m)
    | _ => none

/-- The struct `RedisConfig` of `config.hpp`, as far as `Publish` reads it. The
default value is that of the member `config_` of the static
`RedisPubSubClient` instance before `Init`: the empty host and port 0. -/
structure RedisConfig where
  host : Str := []
  port : Int := 0
  deriving DecidableEq, Repr

/-- The test `ctx && !ctx->err` after `redisConnect(config_.host.c_str(),
config_.port)`: with the empty host name or port 0 no connection is made; any
other address is taken to be that of the server, which is reachable. -/
def redisConnect (config_ : RedisConfig) : Bool :=
  decide (c_str config_.host ≠ [] ∧ config_.port ≠ 0)

/-- The method `RedisPubSubClient::Publish` of a process whose instance holds
`config_`: the command is sent when the connection stands; otherwise the
method logs "Failed to publish to Redis" and returns. -/
def RedisPubSubClient.PublishWith (config_ : RedisConfig) (r : Redis) (channel message : Str) :
    Redis :=
  if redisConnect config_ = true then r.Publish channel message else r

/-- The hash key of the user directory. -/
def user_gateway : Str := "user_gateway".toList

/-- The directory lookup `user_gateway[user_id]`, without issuing a command. -/
def Redis.directory (r : Redis) (user_id : Int) : Option Str :=
  r.hash user_gateway (to_string user_id)

/-! ## The cross-edge bus (`RedisPubSubClient`, callback of `main`) -/

/-- What `RedisPubSubClient::Publish` puts on the wire: the command is built
with `"PUBLISH %s %s"` from `channel.c_str()` and `message.c_str()`, and `%s`
reads a C string. -/
def RedisPubSubClient.Publish (channel message : Str) : Str × Str :=
  (c_str channel, c_str message)

/-- What `RedisPubSubClient::Loop` hands to the callback for a message reply:
both strings are built from the `char*` members of the reply. -/
def RedisPubSubClient.Loop (element1 element2 : Str) : Str × Str :=
  (c_str element1, c_str element2)

/-- The message line 110 of `send_to_user` builds:
`std::to_string(user_id) + "|" + payload`. -/
def pub_msg (user_id : Int) (payload : Str) : Str :=
  to_string user_id ++ '|' :: payload

/-- The parsing half of the callback `main` subscribes: split at the first
`'|'`, read the user id with `stoll`, keep the rest as payload. `none` is the
"no delimiter" return and the `catch (...)` branch. -/
def splitMessage (msg : Str) : Option (Int × Str) :=
  match find '|' msg with
  | none => none
  | some pos =>
    match stoll (msg.take pos) with
    | none => none
    | some user_id => some (user_id, msg.drop (pos + 1))

/-- The path of one bus message from the `Publish` call on the sending side to
the `(user_id, payload)` pair parsed by the receiving edge. -/
def busRoundTrip (user_id : Int) (payload : Str) (channel : Str) : Option (Int × Str) :=
  let wire := RedisPubSubClient.Publish channel (pub_msg user_id payload)
  let got := RedisPubSubClient.Loop wire.1 wire.2
  splitMessage got.2

/-! ## The Presence service (`status/main.cpp`) -/

/-- The key `"user:status:" + std::to_string(user_id)`. -/
def statusKey (user_id : Int) : Str := "user:status:".toList ++ to_string user_id

/-- The frame `NotifyUser` builds: type, `user_id` and `status` are set, the
timestamp is left at its default. -/
def statusNotice (status_user_id status : Int) : GatewayMessage :=
  { type := MessageType.STATUS_UPDATE,
    status_data := some { user_id := status_user_id, status := status } }

/-- The `config_` of `RedisPubSubClient::Instance()` in the status process:
`main` of `status/main.cpp` calls `RedisPool::Instance().Init` and never
`RedisPubSubClient::Instance().Init` (only `gateway/main.cpp` does), so the
member is as constructed. -/
def StatusServiceImpl.pubsub_config : RedisConfig := {}

/-- The method `StatusServiceImpl::NotifyUser`; its `Publish` goes through the
`RedisPubSubClient` instance of the status process. -/
def StatusServiceImpl.NotifyUser (ser : GatewayMessage → Str) (r : Redis)
    (target_user_id status_user_id status : Int) : Redis :=
  let got := r.HGet user_gateway (to_string target_user_id)
  match got.1 with
  | none => got.2
  | some gateway =>
    RedisPubSubClient.PublishWith StatusServiceImpl.pubsub_config got.2
      ("gateway_".toList ++ gateway)
      (pub_msg target_user_id (ser (statusNotice status_user_id status)))

/-- One turn of the loop over `friend_ids` shared by `Login` and `Logout`: the
state is the `online_friend_ids` collected so far and the server. -/
def StatusServiceImpl.friendStep (ser : GatewayMessage → Str) (user_id status : Int)
    (acc : List Int × Redis) (fid : Int) : List Int × Redis :=
  let got := acc.2.Get (statusKey fid)
  if got.1 = some "1".toList then
    (acc.1 ++ [fid], StatusServiceImpl.NotifyUser ser got.2 fid user_id status)
  else (acc.1, got.2)

/-- The reply of `Login` and of `Logout`. -/
structure StatusRes where
  success : Bool
  online_friend_ids : List Int
  deriving DecidableEq, Repr

/-- The method `StatusServiceImpl::Login`; `GetFriendIds` is the friend list
Auth returns to `StatusAuthClient::GetFriendIds`. -/
def StatusServiceImpl.Login (ser : GatewayMessage → Str) (GetFriendIds : Int → List Int)
    (r : Redis) (user_id : Int) : StatusRes × Redis :=
  let r1 := r.Set (statusKey user_id) "1".toList
  let out := (GetFriendIds user_id).foldl (StatusServiceImpl.friendStep ser user_id 1) ([], r1)
  ({ success := true, online_friend_ids := out.1 }, out.2)

/-- The method `StatusServiceImpl::Logout`. -/
def StatusServiceImpl.Logout (ser : GatewayMessage → Str) (GetFriendIds : Int → List Int)
    (r : Redis) (user_id : Int) : StatusRes × Redis :=
  let r1 := r.Set (statusKey user_id) "0".toList
  let out := (GetFriendIds user_id).foldl (StatusServiceImpl.friendStep ser user_id 0) ([], r1)
  ({ success := true, online_friend_ids := out.1 }, out.2)

/-- One turn of the loop of `GetStatus`: the state is the reply map and the
server. -/
def StatusServiceImpl.statusStep (acc : (Int → Option Int) × Redis) (uid : Int) :
    (Int → Option Int) × Redis :=
  let got := acc.2.Get (statusKey uid)
  (Function.update acc.1 uid (some (if got.1 = some "1".toList then 1 else 0)), got.2)

/-- The method `StatusServiceImpl::GetStatus`: the reply's `status_map` and the
server afterwards. -/
def StatusServiceImpl.GetStatus (r : Redis) (user_ids : List Int) :
    (Int → Option Int) × Redis :=
  user_ids.foldl StatusServiceImpl.statusStep (fun _ => none, r)

/-- A request to the Presence service. -/
inductive PresenceOp
  | Login (user_id : Int)
  | Logout (user_id : Int)
  | GetStatus (user_ids : List Int)
  deriving DecidableEq, Repr

/-- The server after the Presence service has handled one request. -/
def PresenceOp.apply (ser : GatewayMessage → Str) (GetFriendIds : Int → List Int)
    (r : Redis) : PresenceOp → Redis
  | PresenceOp.Login u => (StatusServiceImpl.Login ser GetFriendIds r u).2
  | PresenceOp.Logout u => (StatusServiceImpl.Logout ser GetFriendIds r u).2
  | PresenceOp.GetStatus us => (StatusServiceImpl.GetStatus r us).2

/-- The server after a sequence of requests, handled one after the other. -/
def presenceRun (ser : GatewayMessage → Str) (GetFriendIds : Int → List Int)
    (r : Redis) (ops : List PresenceOp) : Redis :=
  ops.foldl (PresenceOp.apply ser GetFriendIds) r

/-! ## The gateway: sessions and the session manager -/

/-- The state of one `websocket_session` object that the properties concern:
`user_id_`, the frames pushed on `queue_` by `on_send` (oldest first), and the
close code given to `ws_.async_close`, if it was called. -/
structure websocket_session where
  user_id_ : Int := 0
  queue_ : List Str := []
  closed : Option Nat := none
  deriving DecidableEq, Repr

/-- The close code `websocket::close_code::policy_error`. -/
def policy_error : Nat := 1008

/-- A call made by the gateway to another service. -/
inductive Rpc
  | VerifyToken (token : Str)
  | StatusLogin (user_id : Int) (token : Str)
  | StatusLogout (user_id : Int) (token : Str)
  | GetOfflineMessages (user_id : Int)
  | SaveMessage (from_id to_id : Int) (content : Str) (timestamp : Int)
  deriving DecidableEq, Repr

/-- The struct `ChatMessage` of `chat_client.hpp`. -/
structure ChatMessage where
  msg_id : Int
  from_id : Int
  to_id : Int
  content : Str
  timestamp : Int
  deriving DecidableEq, Repr

/-- The class `SessionManager`: the table `sessions_` from user id to session
object and the edge's `gateway_id_`. -/
structure SessionManager where
  sessions_ : Int → Option Nat
  gateway_id_ : Str

/-- What a `SessionManager` acts on besides its own table: the session objects,
the Redis server, and the calls made to other services so far. -/
structure Env where
  heap : Nat → websocket_session
  redis : Redis
  rpc : List Rpc

/-- The environment at start: fresh session objects, an empty server. -/
def Env.init : Env :=
  { heap := fun _ => {}, redis := Redis.empty, rpc := [] }

/-- The method `websocket_session::send_message` followed by the `on_send` it
posts: the serialised frame is pushed on `queue_`. -/
def websocket_session.send_message (ser : GatewayMessage → Str) (env : Env) (self : Nat)
    (msg : GatewayMessage) : Env :=
  { env with
    heap := Function.update env.heap self
      { env.heap self with queue_ := (env.heap self).queue_ ++ [ser msg] } }

/-- The method `SessionManager::join`. -/
def SessionManager.join (sm : SessionManager) (env : Env) (user_id : Int) (session : Nat) :
    SessionManager × Env :=
  ({ sm with sessions_ := Function.update sm.sessions_ user_id (some session) },
   { env with redis := env.redis.HSet user_gateway (to_string user_id) sm.gateway_id_ })

/-- The method `SessionManager::leave`. -/
def SessionManager.leave (sm : SessionManager) (env : Env) (user_id : Int) :
    SessionManager × Env :=
  ({ sm with sessions_ := Function.update sm.sessions_ user_id none },
   { env with redis := env.redis.HDel user_gateway (to_string user_id) })

/-- The method `SessionManager::send_to_user`. -/
def SessionManager.send_to_user (ser : GatewayMessage → Str) (sm : SessionManager) (env : Env)
    (user_id : Int) (message : GatewayMessage) : Env :=
  match sm.sessions_ user_id with
  | some session => websocket_session.send_message ser env session message
  | none =>
    let got := env.redis.HGet user_gateway (to_string user_id)
    match got.1 with
    | none => { env with redis := got.2 }
    | some target_gateway =>
      { env with
        redis := got.2.Publish ("gateway_".toList ++ target_gateway)
          (pub_msg user_id (ser message)) }

/-- The method `SessionManager::send_to_local_user`. -/
def SessionManager.send_to_local_user (ser : GatewayMessage → Str) (sm : SessionManager)
    (env : Env) (user_id : Int) (message : GatewayMessage) : Env :=
  match sm.sessions_ user_id with
  | some session => websocket_session.send_message ser env session message
  | none => env

/-- The callback `main` subscribes on `"gateway_" + gateway_id`; `parse` is
`GatewayMessage::ParseFromString`. -/
def subscribeCallback (ser : GatewayMessage → Str) (parse : Str → Option GatewayMessage)
    (sm : SessionManager) (env : Env) (msg : Str) : Env :=
  match splitMessage msg with
  | none => env
  | some (user_id, payload) =>
    match parse payload with
    | some gateway_msg => SessionManager.send_to_local_user ser sm env user_id gateway_msg
    | none => env

/-- The token `websocket_session::run` takes from the request target. -/
def extractToken (target : Str) : Str :=
  match findStr "token=".toList target with
  | some pos => target.drop (pos + 6)
  | none => []

/-- The method `websocket_session::run` up to the call of `on_run`;
`VerifyToken` is `AuthClient::VerifyToken`, `some uid` when it returns true. -/
def websocket_session.run (VerifyToken : Str → Option Int) (env : Env) (self : Nat)
    (target : Str) : Env :=
  let token := extractToken target
  if token = [] then env
  else
    let env1 := { env with rpc := env.rpc ++ [Rpc.VerifyToken token] }
    match VerifyToken token with
    | some uid => { env1 with heap := Function.update env1.heap self { env1.heap self with user_id_ := uid } }
    | none => env1

/-- The STATUS_UPDATE frame the gateway builds for a friend. -/
def statusUpdate (uid status now : Int) : GatewayMessage :=
  { type := MessageType.STATUS_UPDATE,
    status_data := some { user_id := uid, status := status, timestamp := now } }

/-- The CHAT_PUSH frame the gateway builds for an offline message. -/
def offlinePush (msg : ChatMessage) : GatewayMessage :=
  { type := MessageType.CHAT_PUSH,
    chat_data := some (ChatData.mk msg.msg_id msg.from_id msg.to_id msg.content msg.timestamp) }

/-- The services a gateway calls: frame serialisation, Auth's `VerifyToken`,
the friend list Auth gives to the Presence service, Chat's
`GetOfflineMessages`, and the clock reading used for timestamps. -/
structure Services where
  ser : GatewayMessage → Str
  VerifyToken : Str → Option Int
  GetFriendIds : Int → List Int
  GetOfflineMessages : Int → List ChatMessage
  now : Int

/-- The task `on_accept` posts to the thread pool: Presence `Login`, one
STATUS_UPDATE per online friend, then the offline messages. -/
def websocket_session.loginTask (sv : Services) (sm : SessionManager) (env : Env) (uid : Int) :
    Env :=
  let env1 := { env with rpc := env.rpc ++ [Rpc.StatusLogin uid []] }
  let result := StatusServiceImpl.Login sv.ser sv.GetFriendIds env1.redis uid
  let env2 := { env1 with redis := result.2 }
  let env3 :=
    if result.1.success then
      result.1.online_friend_ids.foldl
        (fun e fid => SessionManager.send_to_user sv.ser sm e fid (statusUpdate uid 1 sv.now)) env2
    else env2
  let env4 := { env3 with rpc := env3.rpc ++ [Rpc.GetOfflineMessages uid] }
  (sv.GetOfflineMessages uid).foldl
    (fun e msg => SessionManager.send_to_user sv.ser sm e uid (offlinePush msg)) env4

/-- The method `websocket_session::on_accept`; `ec` is true when the handshake
failed. -/
def websocket_session.on_accept (sv : Services) (sm : SessionManager) (env : Env) (self : Nat)
    (ec : Bool) : SessionManager × Env :=
  if ec then (sm, env)
  else if (env.heap self).user_id_ = 0 then
    (sm, { env with
      heap := Function.update env.heap self { env.heap self with closed := some policy_error } })
  else
    let joined := sm.join env (env.heap self).user_id_ self
    (joined.1, websocket_session.loginTask sv joined.1 joined.2 (env.heap self).user_id_)

/-- The task the destructor posts to the thread pool: Presence `Logout`, then
one STATUS_UPDATE per online friend. -/
def websocket_session.logoutTask (sv : Services) (sm : SessionManager) (env : Env) (uid : Int) :
    Env :=
  let env1 := { env with rpc := env.rpc ++ [Rpc.StatusLogout uid []] }
  let result := StatusServiceImpl.Logout sv.ser sv.GetFriendIds env1.redis uid
  let env2 := { env1 with redis := result.2 }
  if result.1.success then
    result.1.online_friend_ids.foldl
      (fun e fid => SessionManager.send_to_user sv.ser sm e fid (statusUpdate uid 0 sv.now)) env2
  else env2

/-- The destructor `websocket_session::~websocket_session`. -/
def websocket_session.destroy (sv : Services) (sm : SessionManager) (env : Env) (self : Nat) :
    SessionManager × Env :=
  if (env.heap self).user_id_ ≠ 0 then
    let left := sm.leave env (env.heap self).user_id_
    (left.1, websocket_session.logoutTask sv left.1 left.2 (env.heap self).user_id_)
  else (sm, env)

/-- The life of one connection that sends no frame: `run` on the upgrade
request, `on_accept` with the outcome `ec` of the handshake, and, once the
session object is released, its destructor. -/
def websocket_session.connection (sv : Services) (sm : SessionManager) (env : Env) (self : Nat)
    (target : Str) (ec : Bool) : SessionManager × Env :=
  let env1 := websocket_session.run sv.VerifyToken env self target
  let acc := websocket_session.on_accept sv sm env1 self ec
  websocket_session.destroy sv acc.1 acc.2 self

/-! ## The gateway: frames received on a session, and what a connect sends -/

/-- The CHAT_ACK frame `handle_message` builds: the type and the request id of
the frame it answers are set, nothing else. -/
def chatAck (msg : GatewayMessage) : GatewayMessage :=
  { type := MessageType.CHAT_ACK, request_id := msg.request_id }

/-- The CHAT_PUSH frame `handle_message` builds for the recipient. -/
def chatPush (msg_id from_user_id to_user_id : Int) (content : Str) (timestamp : Int) :
    GatewayMessage :=
  { type := MessageType.CHAT_PUSH,
    chat_data := some (ChatData.mk msg_id from_user_id to_user_id content timestamp) }

/-- The frame `handle_message` sends back when the message was not saved. -/
def saveError (msg : GatewayMessage) : GatewayMessage :=
  { type := MessageType.UNKNOWN, request_id := msg.request_id,
    error := "Failed to save message".toList }

/-- The HEARTBEAT_PONG frame. -/
def heartbeatPong : GatewayMessage := { type := MessageType.HEARTBEAT_PONG }

/-- The method `websocket_session::handle_message`. `SaveMessage` is
`ChatClient::SaveMessage`: `some msg_id` when it returns true (the call went
through and the reply says success), `none` otherwise. -/
def websocket_session.handle_message (sv : Services)
    (SaveMessage : Int → Int → Str → Int → Option Int) (sm : SessionManager) (env : Env)
    (self : Nat) (msg : GatewayMessage) : Env :=
  if msg.type = MessageType.CHAT_SEND ∧ msg.chat_data.isSome = true then
    let chat_data := msg.chat_data.getD {}
    let env1 := { env with rpc := env.rpc ++
      [Rpc.SaveMessage (env.heap self).user_id_ chat_data.to_user_id chat_data.content sv.now] }
    match SaveMessage (env.heap self).user_id_ chat_data.to_user_id chat_data.content sv.now with
    | some msg_id =>
      sm.send_to_user sv.ser (websocket_session.send_message sv.ser env1 self (chatAck msg))
        chat_data.to_user_id
        (chatPush msg_id (env.heap self).user_id_ chat_data.to_user_id chat_data.content sv.now)
    | none => websocket_session.send_message sv.ser env1 self (saveError msg)
  else if msg.type = MessageType.HEARTBEAT_PING then
    websocket_session.send_message sv.ser env self heartbeatPong
  else env

/-- The message `send_to_user` hands to `Publish` for user `f`, if any: none
when `f` has a session on this edge or no directory entry. -/
def SessionManager.relay (ser : GatewayMessage → Str) (sm : SessionManager) (r : Redis)
    (msg : GatewayMessage) (f : Int) : Option (Str × Str) :=
  if (sm.sessions_ f).isSome = true then none
  else (r.directory f).map fun G => ("gateway_".toList ++ G, pub_msg f (ser msg))

/-- The bus messages handed to `Publish` between the server states `r0` and
`r1`. -/
def Redis.publishedSince (r1 r0 : Redis) : List (Str × Str) :=
  r1.published.drop r0.published.length

/-- The lambda `parse_query` of `http_session.hpp`, which the HTTP handlers use
to read the token: the value starts after `key=` and ends before the next
`'&'`. -/
def parse_query (target key : Str) : Str :=
  match findStr (key ++ ['=']) target with
  | none => []
  | some pos =>
    match (find '&' (target.drop pos)).map (· + pos) with
    | none => target.drop (pos + key.length + 1)
    | some stop => (target.drop (pos + key.length + 1)).take (stop - pos - key.length - 1)

/-! ## The write pump of a session

`send` posts `on_send` to the strand of the session; `on_send`, `do_write` and
`on_write` of `websocket_session.hpp` run on that strand, one at a time. The
state below is the deque `queue_` together with two observers of the socket:
the buffers passed to `async_write`, in order, and the number of `async_write`
operations whose completion handler has not run yet. -/

/-- The write side of a `websocket_session`. -/
structure WriteQueue where
  queue_ : List Str := []
  written : List Str := []
  inflight : Nat := 0
  deriving DecidableEq, Repr

/-- The method `do_write`: `ws_.async_write(net::buffer(*queue_.front()), on_write)`.
It is only called with a non-empty deque. -/
def WriteQueue.do_write (q : WriteQueue) : WriteQueue :=
  match q.queue_.head? with
  | none => q
  | some front => { q with written := q.written ++ [front], inflight := q.inflight + 1 }

/-- The method `on_send`:
`queue_.push_back(message); if (queue_.size() > 1) return; do_write();`. -/
def WriteQueue.on_send (q : WriteQueue) (message : Str) : WriteQueue :=
  if (q.queue_ ++ [message]).length > 1 then { q with queue_ := q.queue_ ++ [message] }
  else WriteQueue.do_write { q with queue_ := q.queue_ ++ [message] }

/-- The method `on_write`, the completion handler of `async_write`:
`if (ec) return; queue_.erase(queue_.begin()); if (!queue_.empty()) do_write();`.
`ec = true` stands for an error code that is set. -/
def WriteQueue.on_write (q : WriteQueue) (ec : Bool) : WriteQueue :=
  if ec then q
  else if q.queue_.tail = [] then { q with queue_ := q.queue_.tail }
  else WriteQueue.do_write { q with queue_ := q.queue_.tail }

/-- One handler run on the strand of the session. -/
inductive QStep where
  | on_send (message : Str)
  | on_write (ec : Bool)
  deriving DecidableEq, Repr

/-- One step of the write pump. The socket calls `on_write` once for each
`async_write`, so the handler runs only while a write is outstanding, and that
write is then no longer outstanding. -/
def WriteQueue.step (q : WriteQueue) : QStep → WriteQueue
  | QStep.on_send message => q.on_send message
  | QStep.on_write ec =>
    if q.inflight = 0 then q else WriteQueue.on_write { q with inflight := q.inflight - 1 } ec

/-- A run of the write pump from a given state. -/
def WriteQueue.runFrom (q : WriteQueue) (steps : List QStep) : WriteQueue :=
  steps.foldl WriteQueue.step q

/-- A run of the write pump of a fresh session. -/
def WriteQueue.run (steps : List QStep) : WriteQueue :=
  WriteQueue.runFrom {} steps

/-- The frames enqueued by a sequence of steps, in order. -/
def QStep.enqueued (steps : List QStep) : List Str :=
  steps.filterMap (fun s => match s with
    | QStep.on_send message => some message
    | QStep.on_write _ => none)

/-! ## The worker pool behind `handle_message`

`handle_message` posts the blocking `SaveMessage` call of a CHAT_SEND frame to
`context_->thread_pool`, which `main` creates with 4 threads, and the task
dispatches its completion (ACK and push, or the error frame) back to the
strand of the session when the call has returned. Other frames are handled in
`on_read` itself. -/

/-- The test of `handle_message` that sends a frame to the thread pool:
`msg.type() == MessageType::CHAT_SEND && msg.has_chat_data()`. -/
def GatewayMessage.isChatSend (msg : GatewayMessage) : Bool :=
  decide (msg.type = MessageType.CHAT_SEND ∧ msg.chat_data.isSome = true)

/-- The tasks of one session in the thread pool: posted and waiting for a
thread, taken by a thread whose `SaveMessage` call has not returned, and the
frames whose effect on the strand has taken place, in that order. -/
structure Pool where
  pending : List GatewayMessage := []
  running : List GatewayMessage := []
  handled : List GatewayMessage := []
  deriving DecidableEq, Repr

/-- An event of the session and the pool: `on_read` hands a frame to
`handle_message`; a free thread takes the oldest waiting task; the
`SaveMessage` call of the `k`-th running task returns and its completion runs
on the strand. -/
inductive PoolStep where
  | recv (msg : GatewayMessage)
  | start
  | finish (k : Nat)
  deriving DecidableEq, Repr

/-- One event, for a pool of `workers` threads. An event that cannot happen
(no waiting task, no free thread, no such running task) changes nothing. -/
def Pool.step (workers : Nat) (p : Pool) : PoolStep → Pool
  | PoolStep.recv msg =>
    if msg.isChatSend = true then { p with pending := p.pending ++ [msg] }
    else { p with handled := p.handled ++ [msg] }
  | PoolStep.start =>
    match p.pending with
    | [] => p
    | msg :: rest =>
      if p.running.length < workers then { p with pending := rest, running := p.running ++ [msg] }
      else p
  | PoolStep.finish k =>
    match p.running[k]? with
    | none => p
    | some msg => { p with running := p.running.eraseIdx k, handled := p.handled ++ [msg] }

/-- A sequence of events from the idle pool. -/
def Pool.run (workers : Nat) (steps : List PoolStep) : Pool :=
  steps.foldl (Pool.step workers) {}

/-- The frames received in a sequence of events, in order. -/
def PoolStep.received (steps : List PoolStep) : List GatewayMessage :=
  steps.filterMap (fun s => match s with
    | PoolStep.recv msg => some msg
    | _ => none)

/-- The state of the edge after the frames of `handled` had their effect, in
that order, on session `self`. -/
def Pool.env (sv : Services) (SaveMessage : Int → Int → Str → Int → Option Int)
    (sm : SessionManager) (env : Env) (self : Nat) (p : Pool) : Env :=
  p.handled.foldl (fun e msg => websocket_session.handle_message sv SaveMessage sm e self msg) env

/-- The frames a saved CHAT_SEND frame puts on the queue of the sending session
`self` of user `uid`: the ACK, and the push as well when the recipient's
registered session is `self`. -/
def ackFrames (sv : Services) (ids : Int → Int → Str → Int → Int) (sm : SessionManager)
    (uid : Int) (self : Nat) (msg : GatewayMessage) : List Str :=
  sv.ser (chatAck msg) ::
    (if sm.sessions_ (msg.chat_data.getD {}).to_user_id = some self then
      [sv.ser (chatPush
        (ids uid (msg.chat_data.getD {}).to_user_id (msg.chat_data.getD {}).content sv.now)
        uid (msg.chat_data.getD {}).to_user_id (msg.chat_data.getD {}).content sv.now)]
    else [])

/-! ## Accounts and friends (`auth/main.cpp`) -/

/-- Modelled from the spec: a row of table `users`. The SQL schema is not among
the sources; the columns are those the statements of `auth/main.cpp` name. -/
structure UserRow where
  id : Int
  username : Str
  password_hash : Str
  salt : Str
  deriving DecidableEq, Repr

/-- Modelled from the spec: a row of table `friends`, one direction of a
friendship. -/
structure FriendRow where
  user_id : Int
  friend_id : Int
  deriving DecidableEq, Repr

/-- Modelled from the spec: a row of table `friend_requests`; `status` is 0
for pending, 1 for accepted, 2 for rejected. -/
structure FriendRequestRow where
  id : Int
  sender_id : Int
  receiver_id : Int
  status : Int
  deriving DecidableEq, Repr

/-- The three tables of the Auth service, each in insertion order. -/
structure AuthDB where
  users : List UserRow
  friends : List FriendRow
  friend_requests : List FriendRequestRow
  deriving DecidableEq, Repr

/-- The tables with no row. -/
def AuthDB.empty : AuthDB := { users := [], friends := [], friend_requests := [] }

/-- The array `alphanum` of `GenerateToken`, without its final zero byte. -/
def alphanum : Str :=
  "0123456789ABCDEFGHIJKLMNOPQRSTUVWXYZabcdefghijklmnopqrstuvwxyz".toList

/-- The function `GenerateToken`: 32 characters `alphanum[dis(gen)]`; `dis i`
is the `i`-th draw of `uniform_int_distribution<>(0, sizeof(alphanum) - 2)`,
a number from 0 to 61. -/
def GenerateToken (dis : Nat → Fin 62) : Str :=
  (List.range 32).map fun i => alphanum.getD (dis i).val '0'

/-- The reply of `Register`. -/
structure RegisterRes where
  success : Bool
  user_id : Int
  error_msg : Str
  deriving DecidableEq, Repr

/-- The reply of `Login` of the Auth service. -/
structure LoginRes where
  success : Bool
  user_id : Int
  token : Str
  error_msg : Str
  deriving DecidableEq, Repr

/-- The reply of `VerifyToken`. -/
structure VerifyTokenRes where
  valid : Bool
  user_id : Int
  deriving DecidableEq, Repr

/-- The method `AuthServiceImpl::Register`. `Hash` is `Password::Hash`
(SHA-256 of password and salt, in hex), `salt` the value `GenerateSalt`
returns, `ok` tells whether `mysql.Execute` applied the `INSERT`. The id of the
new row is the next AUTO_INCREMENT value, and the name stored and compared is
the name of the request (it is escaped for the statement text and read back by
the server). -/
def AuthServiceImpl.Register (Hash : Str → Str → Str) (salt : Str) (ok : Bool) (db : AuthDB)
    (username password : Str) : RegisterRes × AuthDB :=
  if (db.users.filter fun u => decide (u.username = username)) ≠ [] then
    ({ success := false, user_id := 0, error_msg := "Username already exists".toList }, db)
  else if ok = true then
    ({ success := true, user_id := db.users.length + 1, error_msg := [] },
      { db with
        users := db.users ++
          [UserRow.mk (db.users.length + 1) username (Hash password salt) salt] })
  else ({ success := false, user_id := 0, error_msg := "Database error".toList }, db)

/-- The method `AuthServiceImpl::Login`: the row `result[0]` of the user,
`Password::Verify`, a fresh token, and `SetEx("token:" + token, user_id, 86400)`.
`ok` tells whether `SetEx` went through. The stored hash and salt are hex
strings (`BytesToHex`), which `FetchResults` returns whole. -/
def AuthServiceImpl.Login (Hash : Str → Str → Str) (dis : Nat → Fin 62) (ok : Bool) (db : AuthDB)
    (r : Redis) (username password : Str) : LoginRes × Redis :=
  match db.users.filter fun u => decide (u.username = username) with
  | [] => ({ success := false, user_id := 0, token := [], error_msg := "User not found".toList }, r)
  | row :: _ =>
    if Hash password row.salt ≠ row.password_hash then
      ({ success := false, user_id := 0, token := [], error_msg := "Invalid password".toList }, r)
    else if ok = true then
      ({ success := true, user_id := row.id, token := GenerateToken dis, error_msg := [] },
        r.SetEx ("token:".toList ++ GenerateToken dis) (to_string row.id) 86400)
    else
      ({ success := false, user_id := 0, token := [],
         error_msg := "Internal Redis error".toList }, r)

/-- The method `AuthServiceImpl::VerifyToken`; `none` stands for the exception
`std::stoll` throws on a stored value that is not a number. -/
def AuthServiceImpl.VerifyToken (r : Redis) (token : Str) : Option VerifyTokenRes × Redis :=
  let got := r.Get ("token:".toList ++ token)
  match got.1 with
  | some user_id_str =>
    ((stoll user_id_str).map fun user_id => { valid := true, user_id := user_id }, got.2)
  | none => (some { valid := false, user_id := 0 }, got.2)

/-- A fleet of edges, each with its own session table, on one environment. -/
structure Cluster where
  edges : Str → SessionManager
  env : Env

/-- The fleet at start: every edge `E` has `gateway_id_ = E` and an empty table. -/
def Cluster.init : Cluster :=
  { edges := fun E => { sessions_ := fun _ => none, gateway_id_ := E }, env := Env.init }

/-- A session-manager step taken by one edge. -/
inductive Step
  | join (E : Str) (u : Int) (s : Nat)
  | leave (E : Str) (u : Int)
  deriving DecidableEq, Repr

/-- The user a step concerns. -/
def Step.user : Step → Int
  | Step.join _ u _ => u
  | Step.leave _ u => u

/-- The edge that takes a step. -/
def Step.edge : Step → Str
  | Step.join E _ _ => E
  | Step.leave E _ => E

/-- The fleet after one step. -/
def Cluster.step (c : Cluster) : Step → Cluster
  | Step.join E u s =>
    let out := (c.edges E).join c.env u s
    { edges := Function.update c.edges E out.1, env := out.2 }
  | Step.leave E u =>
    let out := (c.edges E).leave c.env u
    { edges := Function.update c.edges E out.1, env := out.2 }

/-- The fleet after a sequence of steps. -/
def Cluster.run (c : Cluster) (steps : List Step) : Cluster :=
  steps.foldl Cluster.step c

/-- The most recent step of a run that concerns user `u`, if any. -/
def lastTouch (u : Int) (steps : List Step) : Option Step :=
  (steps.filter fun st => st.user = u).getLast?

/-- User `u` has a registered session on edge `E`. -/
def Cluster.registered (c : Cluster) (E : Str) (u : Int) : Prop :=
  ((c.edges E).sessions_ u).isSome = true

/-- The directory value a step on a user leaves behind: the edge of a `join`,
nothing after a `leave` or when no step concerned the user. -/
def Step.entry : Option Step → Option Str
  | some (Step.join F _ _) => some F
  | _ => none

instance (c : Cluster) (E : Str) (u : Int) : Decidable (c.registered E u) := by
  unfold Cluster.registered
  infer_instance

/-- What holds of the fleet after any run from the initial state. -/
def RunInv (c : Cluster) (steps : List Step) : Prop :=
  (∀ E, (c.edges E).gateway_id_ = E) ∧
  (∀ u, c.env.redis.directory u = Step.entry (lastTouch u steps)) ∧
  (∀ u st, lastTouch u steps = some st → st.user = u) ∧
  (∀ E u, c.registered E u → ∃ st, lastTouch u steps = some st ∧ st ≠ Step.leave E u)

/-- The online flag of a user as the Presence service reads it: the stored
value is the string `"1"`. -/
def Redis.online (r : Redis) (u : Int) : Bool :=
  decide (r.kv (statusKey u) = some "1".toList)

/-! ## Chat persistence (`chat/main.cpp`) -/

/-- Modelled from the spec: a row of table `messages`. The SQL schema is not
among the sources; the columns are those the statements of `chat/main.cpp`
name: the AUTO_INCREMENT `id`, `from_id`, `to_id`, `content` and `created_at`,
kept in whole seconds since the epoch (`FROM_UNIXTIME`, `UNIX_TIMESTAMP`). -/
structure MessageRow where
  id : Int
  from_id : Int
  to_id : Int
  content : Str
  created_at : Int
  deriving DecidableEq, Repr

/-- Modelled from the spec: a row of table `sessions`, whose unique key is
`(user_id, peer_id)` (§3, conversation-session row). -/
structure SessionRow where
  user_id : Int
  peer_id : Int
  last_msg_content : Str
  last_msg_timestamp : Int
  unread_count : Int
  deriving DecidableEq, Repr

/-- The two tables of the Chat service, each in insertion order. -/
structure ChatDB where
  messages : List MessageRow
  sessions : List SessionRow
  deriving DecidableEq, Repr

/-- The tables with no row. -/
def ChatDB.empty : ChatDB := { messages := [], sessions := [] }

/-- The row of `sessions` with key `(user_id, peer_id)`, if there is one. -/
def ChatDB.session (db : ChatDB) (user_id peer_id : Int) : Option SessionRow :=
  db.sessions.find? fun r => decide (r.user_id = user_id ∧ r.peer_id = peer_id)

/-- The unread count of `(user_id, peer_id)`: that of its row, 0 without a row. -/
def ChatDB.unread (db : ChatDB) (user_id peer_id : Int) : Int :=
  match db.session user_id peer_id with
  | some r => r.unread_count
  | none => 0

/-- The method `ChatServiceImpl::UpsertSession`: one `INSERT ... ON DUPLICATE
KEY UPDATE` on `sessions`. `ok` tells whether `mysql.Execute` applied the
statement; the method does not look at that result. -/
def ChatServiceImpl.UpsertSession (ok : Bool) (db : ChatDB) (user_id peer_id : Int)
    (content : Str) (timestamp : Int) (inc_unread : Bool) : ChatDB :=
  if ok = false then db
  else if (db.session user_id peer_id).isSome = true then
    { db with
      sessions := db.sessions.map fun r =>
        if r.user_id = user_id ∧ r.peer_id = peer_id then
          SessionRow.mk r.user_id r.peer_id content timestamp
            (if inc_unread = true then r.unread_count + 1 else 0)
        else r }
  else
    { db with
      sessions := db.sessions ++
        [SessionRow.mk user_id peer_id content timestamp (if inc_unread = true then 1 else 0)] }

/-- The reply of `SaveMessage`. -/
structure SaveMessageRes where
  success : Bool
  msg_id : Int
  error_msg : Str
  deriving DecidableEq, Repr

/-- The method `ChatServiceImpl::SaveMessage`. `ok1`, `ok2` and `ok3` tell
whether `mysql.Execute` applied the `INSERT` on `messages` and the two
upserts on `sessions`. The id of the new row is the next AUTO_INCREMENT value,
and the content stored is the content of the request (it is escaped for the
statement text and read back by the server). -/
def ChatServiceImpl.SaveMessage (ok1 ok2 ok3 : Bool) (db : ChatDB) (from_user_id to_user_id : Int)
    (content : Str) (timestamp : Int) : SaveMessageRes × ChatDB :=
  if ok1 = false then
    ({ success := false, msg_id := 0, error_msg := "Database error: Save Message".toList }, db)
  else
    let msg_id : Int := db.messages.length + 1
    let db1 : ChatDB :=
      { db with
        messages := db.messages ++
          [MessageRow.mk msg_id from_user_id to_user_id content (timestamp.tdiv 1000)] }
    let db2 := ChatServiceImpl.UpsertSession ok2 db1 from_user_id to_user_id content timestamp false
    let db3 := ChatServiceImpl.UpsertSession ok3 db2 to_user_id from_user_id content timestamp true
    ({ success := true, msg_id := msg_id, error_msg := [] }, db3)

/-- The rows of `messages` exchanged between two users, in either direction:
the `WHERE` clause of `GetHistory` and of `GetOfflineMessages`. -/
def ChatDB.conversation (db : ChatDB) (u1 u2 : Int) : List MessageRow :=
  db.messages.filter fun m =>
    decide ((m.from_id = u1 ∧ m.to_id = u2) ∨ (m.from_id = u2 ∧ m.to_id = u1))

/-- The message a row of `messages` becomes in a reply: the content is the
cell `FetchResults` returns, the timestamp is
`UNIX_TIMESTAMP(created_at) * 1000`. -/
def MessageRow.toMessage (m : MessageRow) : ChatMessage :=
  ChatMessage.mk m.id m.from_id m.to_id (FetchResults.cell m.content) (m.created_at * 1000)

/-- The clause `ORDER BY created_at DESC`; rows with equal `created_at` keep
their table order. -/
def byCreatedDesc (l : List MessageRow) : List MessageRow :=
  l.insertionSort fun a b => a.created_at ≥ b.created_at

/-- The clause `ORDER BY created_at ASC`; rows with equal `created_at` keep
their table order. -/
def byCreatedAsc (l : List MessageRow) : List MessageRow :=
  l.insertionSort fun a b => a.created_at ≤ b.created_at

/-- The method `ChatServiceImpl::GetHistory`; a negative `limit` makes the
statement fail and the reply empty. -/
def ChatServiceImpl.GetHistory (db : ChatDB) (user_id peer_id limit : Int) : List ChatMessage :=
  if limit < 0 then []
  else ((byCreatedAsc (db.conversation user_id peer_id)).take limit.toNat).map
    MessageRow.toMessage

/-- The struct `Session` of a `GetRecentSessions` reply. -/
structure Session where
  peer_id : Int
  last_msg_content : Str
  last_msg_timestamp : Int
  unread_count : Int
  deriving DecidableEq, Repr

/-- The session of a reply built from a row of `sessions`; the content is the
cell `FetchResults` returns. -/
def SessionRow.toSession (r : SessionRow) : Session :=
  Session.mk r.peer_id (FetchResults.cell r.last_msg_content) r.last_msg_timestamp
    r.unread_count

/-- The method `ChatServiceImpl::GetRecentSessions`: the rows of the user,
`ORDER BY last_msg_timestamp DESC` (rows with equal keys in table order). -/
def ChatServiceImpl.GetRecentSessions (db : ChatDB) (user_id : Int) : List Session :=
  ((db.sessions.filter fun r => decide (r.user_id = user_id)).insertionSort
    fun a b => a.last_msg_timestamp ≥ b.last_msg_timestamp).map SessionRow.toSession

/-- The rows `GetOfflineMessages` selects first: those of the user with
`unread_count > 0`, in table order. -/
def ChatDB.unreadRows (db : ChatDB) (user_id : Int) : List SessionRow :=
  db.sessions.filter fun r => decide (r.user_id = user_id ∧ r.unread_count > 0)

/-- The rows of `messages` the loop of `GetOfflineMessages` adds for one
session row: the conversation `ORDER BY created_at DESC LIMIT unread_count`,
walked from the last row to the first. -/
def ChatDB.unreadBlock (db : ChatDB) (user_id : Int) (r : SessionRow) : List MessageRow :=
  ((byCreatedDesc (db.conversation user_id r.peer_id)).take r.unread_count.toNat).reverse

/-- The method `ChatServiceImpl::GetOfflineMessages`. -/
def ChatServiceImpl.GetOfflineMessages (db : ChatDB) (user_id : Int) : List ChatMessage :=
  (db.unreadRows user_id).flatMap fun r => (db.unreadBlock user_id r).map MessageRow.toMessage

/-- Modelled from the spec: the method `AckMessages` of the Chat service, which
`test_features.cpp` calls and `chat/main.cpp` does not define. §4.4:
"`AckMessages(user, peer)` → set `unread_count = 0` on `(user, peer)`"; the
reply carries a `success` flag (§6.6). -/
def ChatServiceImpl.AckMessages (db : ChatDB) (user_id peer_id : Int) : Bool × ChatDB :=
  (true,
    { db with
      sessions := db.sessions.map fun r =>
        if r.user_id = user_id ∧ r.peer_id = peer_id then
          SessionRow.mk r.user_id r.peer_id r.last_msg_content r.last_msg_timestamp 0
        else r })

/-- A request to the Chat service whose method is in `chat/main.cpp`; for
`SaveMessage` the three flags say which of its statements are applied. -/
inductive ChatOp
  | SaveMessage (ok1 ok2 ok3 : Bool) (from_user_id to_user_id : Int) (content : Str)
      (timestamp : Int)
  | GetHistory (user_id peer_id limit : Int)
  | GetRecentSessions (user_id : Int)
  | GetOfflineMessages (user_id : Int)
  deriving DecidableEq, Repr

/-- The tables after the Chat service has handled one request: the three read
methods issue `SELECT` statements only. -/
def ChatOp.apply (db : ChatDB) : ChatOp → ChatDB
  | ChatOp.SaveMessage ok1 ok2 ok3 f t c ts => (ChatServiceImpl.SaveMessage ok1 ok2 ok3 db f t c ts).2
  | ChatOp.GetHistory _ _ _ => db
  | ChatOp.GetRecentSessions _ => db
  | ChatOp.GetOfflineMessages _ => db

/-- The tables after a sequence of requests, handled one after the other. -/
def chatRun (db : ChatDB) (ops : List ChatOp) : ChatDB :=
  ops.foldl ChatOp.apply db

/-- The request is a `SaveMessage` sent by `user_id` to `peer_id`. -/
def ChatOp.sendsFrom (user_id peer_id : Int) : ChatOp → Bool
  | ChatOp.SaveMessage _ _ _ f t _ _ => decide (f = user_id ∧ t = peer_id)
  | _ => false

/-- The entry of a `GetRecentSessions` reply with its unread count set to 0
when it is the entry of `peer_id`, and unchanged otherwise. -/
def Session.acked (peer_id : Int) (s : Session) : Session :=
  if s.peer_id = peer_id then Session.mk s.peer_id s.last_msg_content s.last_msg_timestamp 0
  else s

/-! ## Concrete values used to instantiate the theorems -/

/-- A toy serialisation: one tag byte for the frame type, then the fields of
the member the frame carries. -/
def demoSer (m : GatewayMessage) : Str :=
  match m.type with
  | MessageType.STATUS_UPDATE =>
    'S' :: (match m.status_data with
      | some d => to_string d.user_id ++ ',' :: to_string d.status
      | none => [])
  | MessageType.CHAT_PUSH =>
    'P' :: (match m.chat_data with
      | some d => d.content
      | none => [])
  | _ => 'X' :: m.request_id

/-- A heartbeat frame. -/
def demoFrame : GatewayMessage := { type := MessageType.HEARTBEAT_PONG, request_id := "r1".toList }

/-- An edge named `"1"` whose table holds session 1 for user 5. -/
def demoEdge : SessionManager :=
  { sessions_ := Function.update (fun _ => none) 5 (some 1), gateway_id_ := "1".toList }

/-- An environment whose directory says that user 9 is on edge `"2"`. -/
def demoEnv : Env :=
  { Env.init with redis := Redis.empty.HSet user_gateway (to_string 9) "2".toList }

/-- Services for the examples: the token `"good"` belongs to user 5, user 5
has the friends 6 and 7, and nobody has offline messages. -/
def demoServices : Services :=
  { ser := demoSer,
    VerifyToken := fun t => if t = "good".toList then some 5 else none,
    GetFriendIds := fun u => if u = 5 then [6, 7] else [],
    GetOfflineMessages := fun _ => [],
    now := 1000 }

/-- An edge named `"1"` with an empty session table. -/
def demoEdgeEmpty : SessionManager :=
  { sessions_ := fun _ => none, gateway_id_ := "1".toList }

/-- An edge named `"2"` with an empty session table. -/
def demoEdgeTwo : SessionManager :=
  { sessions_ := fun _ => none, gateway_id_ := "2".toList }

/-- An environment in which user 6 is online and the directory says that user 6
is on edge `"2"`. -/
def demoFriendEnv : Env :=
  { Env.init with
    redis := (Redis.empty.Set (statusKey 6) "1".toList).HSet user_gateway (to_string 6)
      "2".toList }

/-- User 5 connects with a valid token to edge `"1"` (session object 1) and
then to edge `"2"` (session object 2): the two session tables and the
environment afterwards. -/
def demoTwoSessions : SessionManager × SessionManager × Env :=
  let first := websocket_session.on_accept demoServices demoEdgeEmpty
    (websocket_session.run demoServices.VerifyToken Env.init 1 "/ws?token=good".toList) 1 false
  let second := websocket_session.on_accept demoServices demoEdgeTwo
    (websocket_session.run demoServices.VerifyToken first.2 2 "/ws?token=good".toList) 2 false
  (first.1, second.1, second.2)

instance : IsTotal MessageRow (fun a b => a.created_at ≥ b.created_at) :=
  ⟨fun a b => le_total b.created_at a.created_at⟩

instance : IsTrans MessageRow (fun a b => a.created_at ≥ b.created_at) :=
  ⟨fun _ _ _ hab hbc => le_trans hbc hab⟩

instance : IsTotal SessionRow (fun a b => a.last_msg_timestamp ≥ b.last_msg_timestamp) :=
  ⟨fun a b => le_total b.last_msg_timestamp a.last_msg_timestamp⟩

instance : IsTrans SessionRow (fun a b => a.last_msg_timestamp ≥ b.last_msg_timestamp) :=
  ⟨fun _ _ _ hab hbc => le_trans hbc hab⟩

/-- The tables after user 1 wrote to user 2 with timestamp 5000 ms and user 2
then wrote to user 1 with timestamp 1000 ms. -/
def demoSkewDB : ChatDB :=
  chatRun ChatDB.empty
    [ChatOp.SaveMessage true true true 1 2 "a".toList 5000,
     ChatOp.SaveMessage true true true 2 1 "b".toList 1000]

/-- The tables after user 1 got a message of user 2 (1000 ms), one of user 3
(5000 ms) and another one of user 2 (9000 ms). -/
def demoTwoPeersDB : ChatDB :=
  chatRun ChatDB.empty
    [ChatOp.SaveMessage true true true 2 1 "a".toList 1000,
     ChatOp.SaveMessage true true true 3 1 "b".toList 5000,
     ChatOp.SaveMessage true true true 2 1 "c".toList 9000]

/-- A CHAT_SEND frame with request id `"r7"` for user 9, content `"hi"`. -/
def demoSend : GatewayMessage :=
  { type := MessageType.CHAT_SEND, request_id := "r7".toList,
    chat_data := some (ChatData.mk 0 0 9 "hi".toList 0) }

/-- The environment `demoEnv` in which session object 1 belongs to user 5. -/
def demoSenderEnv : Env :=
  { demoEnv with heap := Function.update demoEnv.heap 1 { user_id_ := 5 } }

/-- A second CHAT_SEND frame, with request id `"r8"`, for user 9. -/
def demoSendNext : GatewayMessage :=
  { type := MessageType.CHAT_SEND, request_id := "r8".toList,
    chat_data := some (ChatData.mk 0 0 9 "yo".toList 0) }

/-- The frame `demoSend` with other values in the fields a client could forge:
`msg_id`, `from_user_id` and `timestamp` of its `chat_data`. -/
def demoSendForged : GatewayMessage :=
  { type := MessageType.CHAT_SEND, request_id := "r7".toList,
    chat_data := some (ChatData.mk 77 6 9 "hi".toList 123) }

/-- User 5 connects twice to edge `"1"` with a valid token, first with session
object 1 and then with session object 2: the session table and the
environment afterwards. -/
def demoDisplaced : SessionManager × Env :=
  let first := websocket_session.on_accept demoServices demoEdgeEmpty
    (websocket_session.run demoServices.VerifyToken Env.init 1 "/ws?token=good".toList) 1 false
  websocket_session.on_accept demoServices first.1
    (websocket_session.run demoServices.VerifyToken first.2 2 "/ws?token=good".toList) 2 false

/-- The frames `demoSend` and `demoSendNext` arrive and are taken and finished
one after the other. -/
def demoPoolSteps : List PoolStep :=
  [PoolStep.recv demoSend, PoolStep.recv demoSendNext, PoolStep.start, PoolStep.finish 0,
    PoolStep.start, PoolStep.finish 0]

/-- A stand-in for `Password::Hash` in the examples: the password followed by
the salt. -/
def demoHash (password salt : Str) : Str := password ++ salt

/-- The draws of the examples: always index 10, the letter `A`. -/
def demoDis : Nat → Fin 62 := fun _ => 10

theorem digitChar_toNat (d : Nat) (h : d < 10) : (digitChar d).toNat = 48 + d := by
  interval_cases d <;> rfl

theorem digitsVal_append (xs : Str) (c : Char) :
    digitsVal (xs ++ [c]) = 10 * digitsVal xs + (c.toNat - 48) := by
  simp [digitsVal, List.foldl_append]

theorem digitsVal_natDigits (fuel n : Nat) (h : n < fuel) :
    digitsVal (natDigits fuel n) = n := by
  induction fuel generalizing n with
  | zero => omega
  | succ k ih =>
    unfold natDigits
    split
    · rename_i h10
      simp [digitsVal, digitChar_toNat n h10]
    · rename_i h10
      rw [digitsVal_append, ih (n / 10) (by omega), digitChar_toNat _ (Nat.mod_lt _ (by omega))]
      omega

theorem natDigits_isdigit (fuel n : Nat) : ∀ c ∈ natDigits fuel n, isdigit c = true := by
  induction fuel generalizing n with
  | zero => intro c hc; simp [natDigits] at hc
  | succ k ih =>
    intro c hc
    unfold natDigits at hc
    split at hc
    · rename_i h10
      simp at hc
      subst hc
      simp [isdigit, digitChar_toNat n h10]; omega
    · rename_i h10
      simp at hc
      rcases hc with hc | hc
      · exact ih _ c hc
      · subst hc
        have := digitChar_toNat (n % 10) (Nat.mod_lt _ (by omega))
        simp [isdigit, this]; omega

theorem natDigits_ne_nil (fuel n : Nat) (h : n < fuel) : natDigits fuel n ≠ [] := by
  cases fuel with
  | zero => omega
  | succ k =>
    unfold natDigits
    split <;> simp

theorem isdigit_not_isspace (c : Char) (h : isdigit c = true) : isspace c = false := by
  simp only [isdigit, Bool.and_eq_true, decide_eq_true_eq] at h
  simp only [isspace, Bool.or_eq_false_iff, decide_eq_false_iff_not, Bool.and_eq_false_iff]
  omega

theorem isdigit_ne_sign (c : Char) (h : isdigit c = true) : c ≠ '-' ∧ c ≠ '+' := by
  simp only [isdigit, Bool.and_eq_true, decide_eq_true_eq] at h
  constructor <;> (rintro rfl; revert h; decide)

theorem stoll_digits (ds : Str) (hne : ds ≠ []) (hd : ∀ c ∈ ds, isdigit c = true)
    (hr : (digitsVal ds : Int) ≤ LLONG_MAX) : stoll ds = some (digitsVal ds : Int) := by
  obtain ⟨c, cs, rfl⟩ := List.exists_cons_of_ne_nil hne
  have hc := hd c (by simp)
  have hsp := isdigit_not_isspace c hc
  have hsg := isdigit_ne_sign c hc
  have htw : List.takeWhile isdigit (c :: cs) = c :: cs :=
    List.takeWhile_eq_self_iff.mpr hd
  have hmin : LLONG_MIN ≤ (digitsVal (c :: cs) : Int) := by
    have : (0 : Int) ≤ (digitsVal (c :: cs) : Int) := Int.natCast_nonneg _
    simp only [LLONG_MIN]; omega
  simp only [stoll, List.dropWhile_cons, hsp, List.head?_cons, Option.some.injEq, hsg.1, hsg.2,
    or_self, if_false, htw, decide_False, Bool.false_eq_true, reduceCtorEq]
  simp [hmin, hr]

theorem stoll_neg_digits (ds : Str) (hne : ds ≠ []) (hd : ∀ c ∈ ds, isdigit c = true)
    (hr : LLONG_MIN ≤ -(digitsVal ds : Int)) : stoll ('-' :: ds) = some (-(digitsVal ds : Int)) := by
  have htw : List.takeWhile isdigit ds = ds := List.takeWhile_eq_self_iff.mpr hd
  have hsp : isspace '-' = false := by decide
  have hmax : -(digitsVal ds : Int) ≤ LLONG_MAX := by
    have : (0 : Int) ≤ (digitsVal ds : Int) := Int.natCast_nonneg _
    simp only [LLONG_MAX]; omega
  simp only [stoll, List.dropWhile_cons, hsp, List.head?_cons, true_or, if_true, List.tail_cons,
    htw, decide_True, Bool.false_eq_true, if_false]
  simp [hne, hmax, hr]

/-- Helper: `stoll` reads back what `to_string` wrote, for every `long long`. -/
theorem stoll_to_string (n : Int) (hlo : LLONG_MIN ≤ n) (hhi : n ≤ LLONG_MAX) :
    stoll (to_string n) = some n := by
  unfold to_string
  have hv := digitsVal_natDigits (n.natAbs + 1) n.natAbs (by omega)
  have hd := natDigits_isdigit (n.natAbs + 1) n.natAbs
  have hne := natDigits_ne_nil (n.natAbs + 1) n.natAbs (by omega)
  split
  · rename_i hneg
    rw [stoll_neg_digits _ hne hd (by rw [hv]; omega), hv]
    congr 1; omega
  · rename_i hneg
    rw [stoll_digits _ hne hd (by rw [hv]; omega), hv]
    congr 1; omega

/-! ## Keys derived from user ids are distinct -/

theorem to_string_value (n : Int) :
    (if (to_string n).head? = some '-' then -((digitsVal (to_string n).tail : Nat) : Int)
      else ((digitsVal (to_string n) : Nat) : Int)) = n := by
  have hv := digitsVal_natDigits (n.natAbs + 1) n.natAbs (by omega)
  have hd := natDigits_isdigit (n.natAbs + 1) n.natAbs
  have hne := natDigits_ne_nil (n.natAbs + 1) n.natAbs (by omega)
  unfold to_string
  split
  · rename_i hneg
    simp only [List.head?_cons, List.tail_cons, if_true, hv]
    omega
  · rename_i hneg
    obtain ⟨c, cs, hcs⟩ := List.exists_cons_of_ne_nil hne
    have hc : c ≠ '-' := (isdigit_ne_sign c (hd c (by simp [hcs]))).1
    have hh : (natDigits (n.natAbs + 1) n.natAbs).head? ≠ some '-' := by
      simp [hcs, hc]
    rw [if_neg hh, hv]
    omega

theorem to_string_injective (a b : Int) (h : to_string a = to_string b) : a = b := by
  have ha := to_string_value a
  have hb := to_string_value b
  rw [h] at ha
  exact ha.symm.trans hb

theorem statusKey_injective (a b : Int) (h : statusKey a = statusKey b) : a = b :=
  to_string_injective a b (List.append_cancel_left h)

/-! ## Fan-out: `send_to_user` -/

/-- C1: when `user_id` has a registered local session `s`, `send_to_user`
pushes the serialised frame on the queue of `s`, leaves every other session
object as it was, and issues no Redis command at all: the server, its command
log (so no `HGET` on `user_gateway`) and the list of published messages are
unchanged. -/
theorem C1_send_to_user_local (ser : GatewayMessage → Str) (sm : SessionManager) (env : Env)
    (u : Int) (s : Nat) (m : GatewayMessage) (h : sm.sessions_ u = some s) :
    ((sm.send_to_user ser env u m).heap s).queue_ = (env.heap s).queue_ ++ [ser m] ∧
    (∀ s', s' ≠ s → (sm.send_to_user ser env u m).heap s' = env.heap s') ∧
    (sm.send_to_user ser env u m).redis = env.redis ∧
    (sm.send_to_user ser env u m).redis.log = env.redis.log ∧
    (sm.send_to_user ser env u m).redis.published = env.redis.published := by
  have hs : sm.send_to_user ser env u m = websocket_session.send_message ser env s m := by
    simp only [SessionManager.send_to_user, h]
  rw [hs]
  refine ⟨by simp [websocket_session.send_message], ?_, rfl, rfl, rfl⟩
  intro s' hs'
  simp [websocket_session.send_message, Function.update_noteq hs']

theorem C1_send_to_user_local_witness :
    demoEdge.sessions_ 5 = some 1 ∧
    ((demoEdge.send_to_user demoSer Env.init 5 demoFrame).heap 1).queue_ =
      (Env.init.heap 1).queue_ ++ [demoSer demoFrame] :=
  ⟨by decide, (C1_send_to_user_local demoSer demoEdge Env.init 5 1 demoFrame (by decide)).1⟩

/-- C2: when `user_id` has no local session and the directory holds
`user_gateway[user_id] = G`, `send_to_user` touches no session object and
hands exactly one message to `Publish`: channel `"gateway_" ++ G`, payload the
decimal `user_id`, one `'|'`, then the serialised frame. The only other command
is the `HGET` of the lookup, and no key of the server changes. -/
theorem C2_send_to_user_remote (ser : GatewayMessage → Str) (sm : SessionManager) (env : Env)
    (u : Int) (G : Str) (m : GatewayMessage) (hloc : sm.sessions_ u = none)
    (hdir : env.redis.directory u = some G) :
    (sm.send_to_user ser env u m).heap = env.heap ∧
    (sm.send_to_user ser env u m).redis.published =
      env.redis.published ++ [("gateway_".toList ++ G, to_string u ++ '|' :: ser m)] ∧
    (sm.send_to_user ser env u m).redis.log =
      env.redis.log ++ [RedisCmd.HGET user_gateway (to_string u),
        RedisCmd.PUBLISH ("gateway_".toList ++ G) (to_string u ++ '|' :: ser m)] ∧
    (sm.send_to_user ser env u m).redis.hash = env.redis.hash ∧
    (sm.send_to_user ser env u m).redis.kv = env.redis.kv := by
  have hg : env.redis.hash user_gateway (to_string u) = some G := hdir
  simp [SessionManager.send_to_user, hloc, Redis.HGet, hg, Redis.Publish, pub_msg,
    Redis.published, List.filterMap_append]

theorem C2_send_to_user_remote_witness :
    demoEdge.sessions_ 9 = none ∧ demoEnv.redis.directory 9 = some "2".toList ∧
    (demoEdge.send_to_user demoSer demoEnv 9 demoFrame).redis.published =
      demoEnv.redis.published ++
        [("gateway_".toList ++ "2".toList, to_string 9 ++ '|' :: demoSer demoFrame)] :=
  ⟨by decide, by decide,
    (C2_send_to_user_remote demoSer demoEdge demoEnv 9 "2".toList demoFrame
      (by decide) (by decide)).2.1⟩

/-- C3: when `user_id` has no local session and no directory entry,
`send_to_user` touches no session object, hands nothing to `Publish` and
changes no key of the server (the directory included); its only command is the
`HGET` of the lookup. The session table is not among its results: the method
cannot change it. -/
theorem C3_send_to_user_offline (ser : GatewayMessage → Str) (sm : SessionManager) (env : Env)
    (u : Int) (m : GatewayMessage) (hloc : sm.sessions_ u = none)
    (hdir : env.redis.directory u = none) :
    (sm.send_to_user ser env u m).heap = env.heap ∧
    (sm.send_to_user ser env u m).redis.published = env.redis.published ∧
    (sm.send_to_user ser env u m).redis.hash = env.redis.hash ∧
    (sm.send_to_user ser env u m).redis.kv = env.redis.kv ∧
    (sm.send_to_user ser env u m).redis.log =
      env.redis.log ++ [RedisCmd.HGET user_gateway (to_string u)] ∧
    (sm.send_to_user ser env u m).rpc = env.rpc := by
  have hg : env.redis.hash user_gateway (to_string u) = none := hdir
  simp [SessionManager.send_to_user, hloc, Redis.HGet, hg, Redis.published,
    List.filterMap_append]

theorem C3_send_to_user_offline_witness :
    demoEdge.sessions_ 7 = none ∧ demoEnv.redis.directory 7 = none ∧
    (demoEdge.send_to_user demoSer demoEnv 7 demoFrame).redis.published =
      demoEnv.redis.published :=
  ⟨by decide, by decide,
    (C3_send_to_user_offline demoSer demoEdge demoEnv 7 demoFrame (by decide) (by decide)).2.1⟩

/-! ## The cross-edge bus -/

theorem to_string_chars (n : Int) : ∀ c ∈ to_string n, isdigit c = true ∨ c = '-' := by
  intro c hc
  unfold to_string at hc
  split at hc
  · rcases List.mem_cons.mp hc with h | h
    · exact Or.inr h
    · exact Or.inl (natDigits_isdigit _ _ c h)
  · exact Or.inl (natDigits_isdigit _ _ c hc)

theorem to_string_no_bar (n : Int) : '|' ∉ to_string n := by
  intro h
  rcases to_string_chars n _ h with h | h
  · revert h; decide
  · revert h; decide

theorem to_string_no_NUL (n : Int) : NUL ∉ to_string n := by
  intro h
  rcases to_string_chars n _ h with h | h
  · revert h; decide
  · revert h; decide

theorem c_str_of_no_NUL (s : Str) (h : NUL ∉ s) : c_str s = s := by
  unfold c_str
  apply List.takeWhile_eq_self_iff.mpr
  intro c hc
  have : c ≠ NUL := fun e => h (e ▸ hc)
  simpa using this

theorem find_append_of_not_mem (c : Char) (xs ys : Str) (h : c ∉ xs) :
    find c (xs ++ c :: ys) = some xs.length := by
  induction xs with
  | nil => simp [find]
  | cons x xs ih =>
    have hx : x ≠ c := fun e => h (by simp [e])
    have hxs : c ∉ xs := fun e => h (by simp [e])
    simp [find, hx, ih hxs]

theorem splitMessage_pub_msg (u : Int) (b : Str) (hlo : LLONG_MIN ≤ u) (hhi : u ≤ LLONG_MAX) :
    splitMessage (pub_msg u b) = some (u, b) := by
  unfold splitMessage pub_msg
  rw [find_append_of_not_mem '|' (to_string u) b (to_string_no_bar u)]
  simp [stoll_to_string u hlo hhi]

/-- Helper for C4: a payload without a zero byte crosses the bus unchanged,
for every `long long` user id and whatever `'|'` bytes the payload holds. -/
theorem busRoundTrip_of_no_NUL (u : Int) (b channel : Str) (hlo : LLONG_MIN ≤ u)
    (hhi : u ≤ LLONG_MAX) (hb : NUL ∉ b) : busRoundTrip u b channel = some (u, b) := by
  have hn : NUL ∉ pub_msg u b := by
    unfold pub_msg
    intro h
    rcases List.mem_append.mp h with h | h
    · exact to_string_no_NUL u h
    · rcases List.mem_cons.mp h with h | h
      · revert h; decide
      · exact hb h
  simp only [busRoundTrip, RedisPubSubClient.Publish, RedisPubSubClient.Loop]
  rw [c_str_of_no_NUL _ hn, c_str_of_no_NUL _ hn]
  exact splitMessage_pub_msg u b hlo hhi

/-- C4, evaluated at a payload that holds a zero byte: for user 7 and the
frame bytes `A`, zero, `B`, the receiving edge parses user 7 but only the
payload `A`; the bytes from the zero byte on are lost in `Publish`. -/
theorem C4_bus_round_trip_loses_bytes_after_NUL :
    busRoundTrip 7 ['A', NUL, 'B'] "gateway_2".toList = some (7, ['A']) ∧
    busRoundTrip 7 ['A', NUL, 'B'] "gateway_2".toList ≠ some (7, ['A', NUL, 'B']) ∧
    RedisPubSubClient.Publish "gateway_2".toList (pub_msg 7 ['A', NUL, 'B']) =
      ("gateway_2".toList, ['7', '|', 'A']) := by
  decide

/-! ## Directory soundness over join and leave steps -/

theorem directory_HSet (r : Redis) (u v : Int) (g : Str) :
    (r.HSet user_gateway (to_string v) g).directory u =
      if u = v then some g else r.directory u := by
  by_cases h : u = v
  · subst h; simp [Redis.directory, Redis.HSet]
  · have hk : to_string u ≠ to_string v := fun e => h (to_string_injective u v e)
    simp [Redis.directory, Redis.HSet, h, Function.update_noteq hk]

theorem directory_HDel (r : Redis) (u v : Int) :
    (r.HDel user_gateway (to_string v)).directory u =
      if u = v then none else r.directory u := by
  by_cases h : u = v
  · subst h; simp [Redis.directory, Redis.HDel]
  · have hk : to_string u ≠ to_string v := fun e => h (to_string_injective u v e)
    simp [Redis.directory, Redis.HDel, h, Function.update_noteq hk]

theorem run_snoc (c : Cluster) (steps : List Step) (st : Step) :
    c.run (steps ++ [st]) = (c.run steps).step st := by
  simp [Cluster.run, List.foldl_append]

theorem lastTouch_snoc (u : Int) (steps : List Step) (st : Step) :
    lastTouch u (steps ++ [st]) = if st.user = u then some st else lastTouch u steps := by
  by_cases h : st.user = u
  · simp [lastTouch, List.filter_append, h]
  · simp [lastTouch, List.filter_append, h]

theorem runInv_init : RunInv Cluster.init [] := by
  refine ⟨fun E => rfl, fun u => rfl, ?_, ?_⟩
  · intro u st h; simp [lastTouch] at h
  · intro E u h; simp [Cluster.registered, Cluster.init] at h

theorem runInv_step (c : Cluster) (steps : List Step) (st : Step) (h : RunInv c steps) :
    RunInv (c.step st) (steps ++ [st]) := by
  obtain ⟨hg, hd, hu, hr⟩ := h
  cases st with
  | join F v s =>
    refine ⟨?_, ?_, ?_, ?_⟩
    · intro E
      by_cases hE : E = F
      · subst hE; simp [Cluster.step, SessionManager.join, hg]
      · simp [Cluster.step, Function.update_noteq hE, hg]
    · intro u
      rw [lastTouch_snoc]
      simp only [Cluster.step, SessionManager.join, directory_HSet, hg, Step.user]
      by_cases huv : u = v
      · subst huv; simp [Step.entry]
      · have hvu : ¬ v = u := fun e => huv e.symm
        simp [huv, hvu, hd]
    · intro u st hst
      rw [lastTouch_snoc] at hst
      split at hst
      · rename_i hv
        cases hst; exact hv
      · exact hu u st hst
    · intro E u hreg
      rw [lastTouch_snoc]
      by_cases hv : v = u
      · exact ⟨Step.join F v s, by simp [Step.user, hv], by simp⟩
      · simp only [Step.user, hv, if_false]
        apply hr E u
        by_cases hE : E = F
        · subst hE
          have hne : u ≠ v := fun e => hv e.symm
          simpa [Cluster.registered, Cluster.step, SessionManager.join,
            Function.update_noteq hne] using hreg
        · simpa [Cluster.registered, Cluster.step, Function.update_noteq hE] using hreg
  | leave F v =>
    refine ⟨?_, ?_, ?_, ?_⟩
    · intro E
      by_cases hE : E = F
      · subst hE; simp [Cluster.step, SessionManager.leave, hg]
      · simp [Cluster.step, Function.update_noteq hE, hg]
    · intro u
      rw [lastTouch_snoc]
      simp only [Cluster.step, SessionManager.leave, directory_HDel, Step.user]
      by_cases huv : u = v
      · subst huv; simp [Step.entry]
      · have hvu : ¬ v = u := fun e => huv e.symm
        simp [huv, hvu, hd]
    · intro u st hst
      rw [lastTouch_snoc] at hst
      split at hst
      · rename_i hv
        cases hst; exact hv
      · exact hu u st hst
    · intro E u hreg
      rw [lastTouch_snoc]
      by_cases hv : v = u
      · subst hv
        refine ⟨Step.leave F v, by simp [Step.user], ?_⟩
        intro e
        cases e
        simp [Cluster.registered, Cluster.step, SessionManager.leave] at hreg
      · simp only [Step.user, hv, if_false]
        apply hr E u
        by_cases hE : E = F
        · subst hE
          have hne : u ≠ v := fun e => hv e.symm
          simpa [Cluster.registered, Cluster.step, SessionManager.leave,
            Function.update_noteq hne] using hreg
        · simpa [Cluster.registered, Cluster.step, Function.update_noteq hE] using hreg

theorem runInv_run (steps : List Step) : RunInv (Cluster.init.run steps) steps := by
  induction steps using List.reverseRecOn with
  | nil => exact runInv_init
  | append_singleton xs x ih =>
    rw [run_snoc]
    exact runInv_step _ _ _ ih

/-- C5, as stated, fails: after edge `"1"` and then edge `"2"` joined user 5
the directory names `"2"`; when edge `"1"` then runs `leave(5)` the entry is
gone, although its value was not `"1"`. User 5 is then registered on edge
`"2"` with no directory entry at all. -/
theorem C5_leave_removes_entry_of_other_edge :
    (Cluster.init.run [Step.join "1".toList 5 1, Step.join "2".toList 5 2]).env.redis.directory 5
      = some "2".toList ∧
    (Cluster.init.run [Step.join "1".toList 5 1, Step.join "2".toList 5 2,
      Step.leave "1".toList 5]).env.redis.directory 5 = none ∧
    (Cluster.init.run [Step.join "1".toList 5 1, Step.join "2".toList 5 2,
      Step.leave "1".toList 5]).registered "2".toList 5 := by
  decide

/-- C5, amended: in every state reached from the initial fleet by join and
leave steps, if user `u` has a registered session on edge `E` then either
`user_gateway[u] = E`, or the most recent step on `u` was taken by another
edge `F`: the entry is `F` when that step was `join(u)` and absent when it was
`leave(u)`. And `leave(u)` on `E` removes the entry of `u` in every state,
whatever edge it names. -/
theorem C5_directory_soundness_amended (steps : List Step) (E : Str) (u : Int)
    (h : (Cluster.init.run steps).registered E u) :
    ((Cluster.init.run steps).env.redis.directory u = some E ∨
      ∃ F, F ≠ E ∧
        (((∃ s, lastTouch u steps = some (Step.join F u s)) ∧
            (Cluster.init.run steps).env.redis.directory u = some F) ∨
         (lastTouch u steps = some (Step.leave F u) ∧
            (Cluster.init.run steps).env.redis.directory u = none))) ∧
    (∀ c : Cluster, (c.step (Step.leave E u)).env.redis.directory u = none) := by
  obtain ⟨_, hd, hu, hr⟩ := runInv_run steps
  constructor
  · obtain ⟨st, hst, hne⟩ := hr E u h
    have hus := hu u st hst
    have hdu := hd u
    rw [hst] at hdu
    cases st with
    | join F v s =>
      simp only [Step.user] at hus
      subst hus
      by_cases hF : F = E
      · left; rw [hdu, hF]; rfl
      · right
        exact ⟨F, hF, Or.inl ⟨⟨s, hst⟩, hdu⟩⟩
    | leave F v =>
      simp only [Step.user] at hus
      subst hus
      have hF : F ≠ E := fun e => hne (by rw [e])
      right
      exact ⟨F, hF, Or.inr ⟨hst, hdu⟩⟩
  · intro c
    simp [Cluster.step, SessionManager.leave, directory_HDel]

theorem C5_directory_soundness_amended_witness :
    (Cluster.init.run [Step.join "1".toList 5 1, Step.join "2".toList 5 2]).registered
      "1".toList 5 ∧
    ((Cluster.init.run [Step.join "1".toList 5 1, Step.join "2".toList 5 2]).env.redis.directory 5
        = some "1".toList ∨
      ∃ F, F ≠ "1".toList ∧
        (((∃ s, lastTouch 5 [Step.join "1".toList 5 1, Step.join "2".toList 5 2]
              = some (Step.join F 5 s)) ∧
            (Cluster.init.run [Step.join "1".toList 5 1,
              Step.join "2".toList 5 2]).env.redis.directory 5 = some F) ∨
         (lastTouch 5 [Step.join "1".toList 5 1, Step.join "2".toList 5 2]
              = some (Step.leave F 5) ∧
            (Cluster.init.run [Step.join "1".toList 5 1,
              Step.join "2".toList 5 2]).env.redis.directory 5 = none))) :=
  ⟨by decide,
    (C5_directory_soundness_amended [Step.join "1".toList 5 1, Step.join "2".toList 5 2]
      "1".toList 5 (by decide)).1⟩

/-! ## Registration: `join` -/

/-- C6: after `join(u, s1)` and then `join(u, s2)` on one edge, the table maps
`u` to `s2` and to nothing else, and maps every other user as before the two
calls. While the table stays so, in every environment, `send_to_user(u, m)`
and `send_to_local_user(u, m)` push the serialised frame on the queue of `s2`
and leave `s1` as it was. -/
theorem C6_join_displaces (ser : GatewayMessage → Str) (sm : SessionManager) (env : Env)
    (u : Int) (s1 s2 : Nat) (hs : s1 ≠ s2) :
    ((sm.join env u s1).1.join (sm.join env u s1).2 u s2).1.sessions_ u = some s2 ∧
    (∀ s, ((sm.join env u s1).1.join (sm.join env u s1).2 u s2).1.sessions_ u = some s →
      s = s2) ∧
    (∀ v, v ≠ u →
      ((sm.join env u s1).1.join (sm.join env u s1).2 u s2).1.sessions_ v = sm.sessions_ v) ∧
    (∀ (e : Env) (m : GatewayMessage),
      ((((sm.join env u s1).1.join (sm.join env u s1).2 u s2).1.send_to_user ser e u m).heap
          s2).queue_ = (e.heap s2).queue_ ++ [ser m] ∧
      (((sm.join env u s1).1.join (sm.join env u s1).2 u s2).1.send_to_user ser e u m).heap s1
        = e.heap s1 ∧
      ((((sm.join env u s1).1.join (sm.join env u s1).2 u s2).1.send_to_local_user ser e u
          m).heap s2).queue_ = (e.heap s2).queue_ ++ [ser m] ∧
      (((sm.join env u s1).1.join (sm.join env u s1).2 u s2).1.send_to_local_user ser e u
          m).heap s1 = e.heap s1) := by
  have ht : ((sm.join env u s1).1.join (sm.join env u s1).2 u s2).1.sessions_ u = some s2 := by
    simp [SessionManager.join]
  refine ⟨ht, ?_, ?_, ?_⟩
  · intro s h
    rw [ht] at h
    exact (Option.some.inj h).symm
  · intro v hv
    simp [SessionManager.join, Function.update_noteq hv]
  · intro e m
    simp only [SessionManager.send_to_user, SessionManager.send_to_local_user, ht,
      websocket_session.send_message]
    refine ⟨by simp, ?_, by simp, ?_⟩ <;> simp [Function.update_noteq hs]

theorem C6_join_displaces_witness :
    (1 : Nat) ≠ 2 ∧
    ((demoEdge.join Env.init 5 1).1.join (demoEdge.join Env.init 5 1).2 5 2).1.sessions_ 5
      = some 2 :=
  ⟨by decide, (C6_join_displaces demoSer demoEdge Env.init 5 1 2 (by decide)).1⟩

/-- C7, as stated, fails: after `join(5, 1)` and `join(5, 2)` on one edge the
table maps user 5 to session 2, and session 1 has not been closed: no close
code was ever given to its `async_close`. -/
theorem C7_displaced_session_not_closed :
    ((demoEdge.join Env.init 5 1).1.join (demoEdge.join Env.init 5 1).2 5 2).1.sessions_ 5
      = some 2 ∧
    (((demoEdge.join Env.init 5 1).1.join (demoEdge.join Env.init 5 1).2 5 2).2.heap 1).closed
      = none := by
  decide

/-- C7, amended: `join(u, s2)` puts `s2` in the table in place of whatever
session was registered for `u`, and closes no session: every session object,
the displaced one included, is exactly as before (not closed by the call, its
queue unchanged), and no call to another service is made. -/
theorem C7_join_closes_nothing (sm : SessionManager) (env : Env) (u : Int) (s2 : Nat) :
    (sm.join env u s2).1.sessions_ u = some s2 ∧
    (sm.join env u s2).2.heap = env.heap ∧
    (∀ s, ((sm.join env u s2).2.heap s).closed = (env.heap s).closed) ∧
    (sm.join env u s2).2.rpc = env.rpc := by
  simp [SessionManager.join]

/-! ## Connections that fail authentication -/

theorem extractToken_of_not_found (target : Str)
    (h : findStr "token=".toList target = none) : extractToken target = [] := by
  unfold extractToken
  rw [h]

theorem run_of_bad_token (VerifyToken : Str → Option Int) (env : Env) (self : Nat)
    (target : Str)
    (hbad : extractToken target = [] ∨ VerifyToken (extractToken target) = none) :
    (websocket_session.run VerifyToken env self target).heap = env.heap ∧
    (websocket_session.run VerifyToken env self target).redis = env.redis ∧
    (websocket_session.run VerifyToken env self target).rpc =
      env.rpc ++ (if extractToken target = [] then [] else [Rpc.VerifyToken (extractToken target)])
    := by
  unfold websocket_session.run
  by_cases he : extractToken target = []
  · simp [he]
  · have hv : VerifyToken (extractToken target) = none := hbad.resolve_left he
    simp [he, hv]

/-- C8: take a fresh session object (`user_id_ = 0`) and an upgrade request
whose target has no `token=`, or an empty token, or a token `VerifyToken`
rejects. Whether the handshake completes or not (`ec`), `on_accept` leaves the
session table unchanged (the session is not registered) and the Redis server
unchanged (no `user_gateway` entry is written), and the only call to another
service is the `VerifyToken` of a non-empty token (no Presence `Login`, no
`GetOfflineMessages`). When the handshake completes, the connection is closed
with the policy-error code. The destructor then changes nothing at all (no
`leave`, no Presence `Logout`). -/
theorem C8_unauthenticated_connection (sv : Services) (sm : SessionManager) (env : Env)
    (self : Nat) (target : Str) (ec : Bool) (hfresh : (env.heap self).user_id_ = 0)
    (hbad : findStr "token=".toList target = none ∨ extractToken target = [] ∨
      sv.VerifyToken (extractToken target) = none) :
    (websocket_session.on_accept sv sm
        (websocket_session.run sv.VerifyToken env self target) self ec).1 = sm ∧
    (websocket_session.on_accept sv sm
        (websocket_session.run sv.VerifyToken env self target) self ec).2.redis = env.redis ∧
    (ec = false → ((websocket_session.on_accept sv sm
        (websocket_session.run sv.VerifyToken env self target) self ec).2.heap self).closed
      = some policy_error) ∧
    ((websocket_session.on_accept sv sm
        (websocket_session.run sv.VerifyToken env self target) self ec).2.heap self).user_id_
      = 0 ∧
    (∀ s, s ≠ self → (websocket_session.on_accept sv sm
        (websocket_session.run sv.VerifyToken env self target) self ec).2.heap s
      = env.heap s) ∧
    (websocket_session.on_accept sv sm
        (websocket_session.run sv.VerifyToken env self target) self ec).2.rpc =
      env.rpc ++
        (if extractToken target = [] then [] else [Rpc.VerifyToken (extractToken target)]) ∧
    websocket_session.connection sv sm env self target ec =
      websocket_session.on_accept sv sm
        (websocket_session.run sv.VerifyToken env self target) self ec := by
  have hbad' : extractToken target = [] ∨ sv.VerifyToken (extractToken target) = none := by
    rcases hbad with h | h | h
    · exact Or.inl (extractToken_of_not_found target h)
    · exact Or.inl h
    · exact Or.inr h
  obtain ⟨hheap, hredis, hrpc⟩ := run_of_bad_token sv.VerifyToken env self target hbad'
  have hid : ((websocket_session.run sv.VerifyToken env self target).heap self).user_id_ = 0 := by
    rw [hheap]; exact hfresh
  cases ec with
  | true =>
    have hacc : websocket_session.on_accept sv sm
        (websocket_session.run sv.VerifyToken env self target) self true =
        (sm, websocket_session.run sv.VerifyToken env self target) := by
      simp [websocket_session.on_accept]
    refine ⟨?_, ?_, ?_, ?_, ?_, ?_, ?_⟩
    · rw [hacc]
    · rw [hacc]; exact hredis
    · intro h; cases h
    · rw [hacc]; exact hid
    · intro s _
      rw [hacc]
      simp [hheap]
    · rw [hacc]; exact hrpc
    · have hid2 : ((websocket_session.on_accept sv sm
          (websocket_session.run sv.VerifyToken env self target) self true).2.heap self).user_id_
          = 0 := by
        rw [hacc]; exact hid
      unfold websocket_session.connection
      simp only [websocket_session.destroy, hid2]
      simp
  | false =>
    have hacc : websocket_session.on_accept sv sm
        (websocket_session.run sv.VerifyToken env self target) self false =
        (sm, { websocket_session.run sv.VerifyToken env self target with
          heap := Function.update (websocket_session.run sv.VerifyToken env self target).heap self
            { (websocket_session.run sv.VerifyToken env self target).heap self with
              closed := some policy_error } }) := by
      simp [websocket_session.on_accept, hid]
    have hid2 : ((websocket_session.on_accept sv sm
        (websocket_session.run sv.VerifyToken env self target) self false).2.heap self).user_id_
        = 0 := by
      rw [hacc]; simpa using hid
    refine ⟨?_, ?_, ?_, hid2, ?_, ?_, ?_⟩
    · rw [hacc]
    · rw [hacc]; exact hredis
    · intro _; rw [hacc]; simp
    · intro s hs
      rw [hacc]
      simp [Function.update_noteq hs, hheap]
    · rw [hacc]; exact hrpc
    · unfold websocket_session.connection
      simp only [websocket_session.destroy, hid2]
      simp

theorem C8_unauthenticated_connection_witness :
    (Env.init.heap 3).user_id_ = 0 ∧
    demoServices.VerifyToken (extractToken "/ws?token=bad".toList) = none ∧
    ((websocket_session.on_accept demoServices demoEdge
        (websocket_session.run demoServices.VerifyToken Env.init 3 "/ws?token=bad".toList)
        3 false).2.heap 3).closed = some policy_error :=
  ⟨by decide, by decide,
    (C8_unauthenticated_connection demoServices demoEdge Env.init 3 "/ws?token=bad".toList
      false (by decide) (Or.inr (Or.inr (by decide)))).2.2.1 rfl⟩

/-! ## The Presence service -/

theorem NotifyUser_keys (ser : GatewayMessage → Str) (r : Redis) (t u st : Int) :
    (StatusServiceImpl.NotifyUser ser r t u st).kv = r.kv ∧
    (StatusServiceImpl.NotifyUser ser r t u st).hash = r.hash ∧
    (StatusServiceImpl.NotifyUser ser r t u st).published = r.published := by
  unfold StatusServiceImpl.NotifyUser
  cases h : r.hash user_gateway (to_string t) <;>
    simp [Redis.HGet, h, RedisPubSubClient.PublishWith, redisConnect,
      StatusServiceImpl.pubsub_config, c_str, Redis.published, List.filterMap_append]

theorem friendStep_keys (ser : GatewayMessage → Str) (u st : Int) (acc : List Int × Redis)
    (f : Int) :
    (StatusServiceImpl.friendStep ser u st acc f).2.kv = acc.2.kv ∧
    (StatusServiceImpl.friendStep ser u st acc f).2.hash = acc.2.hash ∧
    (StatusServiceImpl.friendStep ser u st acc f).1 =
      acc.1 ++ (if acc.2.online f then [f] else []) ∧
    (StatusServiceImpl.friendStep ser u st acc f).2.published = acc.2.published := by
  unfold StatusServiceImpl.friendStep
  by_cases h : acc.2.kv (statusKey f) = some "1".toList
  · have hn := NotifyUser_keys ser (acc.2.Get (statusKey f)).2 f u st
    have ho : acc.2.online f = true := decide_eq_true h
    have hg : (acc.2.Get (statusKey f)).1 = some "1".toList := h
    rw [if_pos hg]
    refine ⟨hn.1, hn.2.1, by simp [ho], ?_⟩
    rw [hn.2.2]
    simp [Redis.Get, Redis.published, List.filterMap_append]
  · have ho : acc.2.online f = false := decide_eq_false h
    have hg : ¬ (acc.2.Get (statusKey f)).1 = some "1".toList := h
    rw [if_neg hg]
    simp [ho, Redis.Get, Redis.published, List.filterMap_append]

theorem online_congr (r r' : Redis) (h : r'.kv = r.kv) : r'.online = r.online := by
  funext f
  simp [Redis.online, h]

theorem friendLoop_keys (ser : GatewayMessage → Str) (u st : Int) (fs : List Int)
    (acc : List Int × Redis) :
    (fs.foldl (StatusServiceImpl.friendStep ser u st) acc).2.kv = acc.2.kv ∧
    (fs.foldl (StatusServiceImpl.friendStep ser u st) acc).2.hash = acc.2.hash ∧
    (fs.foldl (StatusServiceImpl.friendStep ser u st) acc).1 =
      acc.1 ++ fs.filter acc.2.online ∧
    (fs.foldl (StatusServiceImpl.friendStep ser u st) acc).2.published = acc.2.published := by
  induction fs generalizing acc with
  | nil => simp
  | cons f fs ih =>
    obtain ⟨hk, hh, hl, hp⟩ := friendStep_keys ser u st acc f
    obtain ⟨ik, ih2, il, ip⟩ := ih (StatusServiceImpl.friendStep ser u st acc f)
    rw [online_congr _ _ hk] at il
    simp only [List.foldl_cons]
    refine ⟨ik.trans hk, ih2.trans hh, ?_, ip.trans hp⟩
    rw [il, hl]
    cases ho : acc.2.online f <;> simp [List.filter_cons, ho]

theorem Login_kv (ser : GatewayMessage → Str) (GF : Int → List Int) (r : Redis) (u : Int) :
    (StatusServiceImpl.Login ser GF r u).2.kv =
      Function.update r.kv (statusKey u) (some "1".toList) := by
  unfold StatusServiceImpl.Login
  exact (friendLoop_keys ser u 1 (GF u) _).1

theorem Logout_kv (ser : GatewayMessage → Str) (GF : Int → List Int) (r : Redis) (u : Int) :
    (StatusServiceImpl.Logout ser GF r u).2.kv =
      Function.update r.kv (statusKey u) (some "0".toList) := by
  unfold StatusServiceImpl.Logout
  exact (friendLoop_keys ser u 0 (GF u) _).1

theorem statusLoop (us : List Int) (acc : (Int → Option Int) × Redis) (u : Int) :
    (us.foldl StatusServiceImpl.statusStep acc).2.kv = acc.2.kv ∧
    (us.foldl StatusServiceImpl.statusStep acc).1 u =
      if u ∈ us then some (if acc.2.online u then 1 else 0) else acc.1 u := by
  induction us generalizing acc with
  | nil => simp
  | cons v vs ih =>
    obtain ⟨ik, iv⟩ := ih (StatusServiceImpl.statusStep acc v)
    have hk : (StatusServiceImpl.statusStep acc v).2.kv = acc.2.kv := rfl
    rw [online_congr _ _ hk] at iv
    simp only [List.foldl_cons]
    refine ⟨ik.trans hk, ?_⟩
    rw [iv]
    by_cases hvs : u ∈ vs
    · simp [hvs]
    · by_cases huv : u = v
      · subst huv
        simp [hvs, StatusServiceImpl.statusStep, Redis.Get, Redis.online]
      · simp [hvs, huv, StatusServiceImpl.statusStep, Function.update_noteq huv]

theorem GetStatus_reports (r : Redis) (us : List Int) (u : Int) (h : u ∈ us) :
    (StatusServiceImpl.GetStatus r us).1 u = some (if r.online u then 1 else 0) := by
  unfold StatusServiceImpl.GetStatus
  rw [(statusLoop us _ u).2]
  simp [h]

theorem GetStatus_kv (r : Redis) (us : List Int) :
    (StatusServiceImpl.GetStatus r us).2.kv = r.kv :=
  (statusLoop us _ 0).1

theorem presenceRun_stays_online (ser : GatewayMessage → Str) (GF : Int → List Int) (u : Int)
    (ops : List PresenceOp) (r : Redis) (h : ∀ op ∈ ops, op ≠ PresenceOp.Logout u)
    (hv : r.kv (statusKey u) = some "1".toList) :
    (presenceRun ser GF r ops).kv (statusKey u) = some "1".toList := by
  induction ops generalizing r with
  | nil => exact hv
  | cons op ops ih =>
    have hop : op ≠ PresenceOp.Logout u := h op (by simp)
    have hrest : ∀ o ∈ ops, o ≠ PresenceOp.Logout u := fun o ho => h o (by simp [ho])
    simp only [presenceRun, List.foldl_cons]
    apply ih _ hrest
    cases op with
    | Login w =>
      simp only [PresenceOp.apply, Login_kv]
      by_cases hw : w = u
      · subst hw
        exact Function.update_same _ _ _
      · have hk : statusKey u ≠ statusKey w := fun e => hw (statusKey_injective u w e).symm
        rw [Function.update_noteq hk]
        exact hv
    | Logout w =>
      simp only [PresenceOp.apply, Logout_kv]
      have hw : w ≠ u := fun e => hop (by rw [e])
      have hk : statusKey u ≠ statusKey w := fun e => hw (statusKey_injective u w e).symm
      rw [Function.update_noteq hk]
      exact hv
    | GetStatus us =>
      simp only [PresenceOp.apply, GetStatus_kv]
      exact hv

theorem presenceRun_stays_offline (ser : GatewayMessage → Str) (GF : Int → List Int) (u : Int)
    (ops : List PresenceOp) (r : Redis) (h : ∀ op ∈ ops, op ≠ PresenceOp.Login u)
    (hv : r.kv (statusKey u) = some "0".toList) :
    (presenceRun ser GF r ops).kv (statusKey u) = some "0".toList := by
  induction ops generalizing r with
  | nil => exact hv
  | cons op ops ih =>
    have hop : op ≠ PresenceOp.Login u := h op (by simp)
    have hrest : ∀ o ∈ ops, o ≠ PresenceOp.Login u := fun o ho => h o (by simp [ho])
    simp only [presenceRun, List.foldl_cons]
    apply ih _ hrest
    cases op with
    | Login w =>
      simp only [PresenceOp.apply, Login_kv]
      have hw : w ≠ u := fun e => hop (by rw [e])
      have hk : statusKey u ≠ statusKey w := fun e => hw (statusKey_injective u w e).symm
      rw [Function.update_noteq hk]
      exact hv
    | Logout w =>
      simp only [PresenceOp.apply, Logout_kv]
      by_cases hw : w = u
      · subst hw
        exact Function.update_same _ _ _
      · have hk : statusKey u ≠ statusKey w := fun e => hw (statusKey_injective u w e).symm
        rw [Function.update_noteq hk]
        exact hv
    | GetStatus us =>
      simp only [PresenceOp.apply, GetStatus_kv]
      exact hv

/-- C9: `Login(u)` replies success. After it, and after any further sequence
of Presence requests (`Login`, `Logout`, `GetStatus`, on any users) that holds
no `Logout(u)`, every `GetStatus` that asks for `u` reports 1. After a
`Logout(u)` that follows, and any further requests that hold no `Login(u)`,
it reports 0. And it reports 0 for a user whose status key holds nothing. -/
theorem C9_presence_reflects_reality (ser : GatewayMessage → Str) (GF : Int → List Int)
    (r : Redis) (u : Int) (ops : List PresenceOp)
    (h : ∀ op ∈ ops, op ≠ PresenceOp.Logout u) :
    (StatusServiceImpl.Login ser GF r u).1.success = true ∧
    (∀ us, u ∈ us →
      (StatusServiceImpl.GetStatus
        (presenceRun ser GF (StatusServiceImpl.Login ser GF r u).2 ops) us).1 u = some 1) ∧
    (∀ ops2 : List PresenceOp, (∀ op ∈ ops2, op ≠ PresenceOp.Login u) → ∀ us, u ∈ us →
      (StatusServiceImpl.GetStatus
        (presenceRun ser GF
          (StatusServiceImpl.Logout ser GF
            (presenceRun ser GF (StatusServiceImpl.Login ser GF r u).2 ops) u).2 ops2)
        us).1 u = some 0) ∧
    (∀ (r0 : Redis) us, r0.kv (statusKey u) = none → u ∈ us →
      (StatusServiceImpl.GetStatus r0 us).1 u = some 0) := by
  refine ⟨rfl, ?_, ?_, ?_⟩
  · intro us hu
    have hk := presenceRun_stays_online ser GF u ops (StatusServiceImpl.Login ser GF r u).2 h
      (by rw [Login_kv]; exact Function.update_same _ _ _)
    rw [GetStatus_reports _ us u hu]
    have ho : (presenceRun ser GF (StatusServiceImpl.Login ser GF r u).2 ops).online u = true :=
      decide_eq_true hk
    simp [ho]
  · intro ops2 h2 us hu
    have hk := presenceRun_stays_offline ser GF u ops2
      (StatusServiceImpl.Logout ser GF
        (presenceRun ser GF (StatusServiceImpl.Login ser GF r u).2 ops) u).2 h2
      (by rw [Logout_kv]; exact Function.update_same _ _ _)
    rw [GetStatus_reports _ us u hu]
    have ho : (presenceRun ser GF
        (StatusServiceImpl.Logout ser GF
          (presenceRun ser GF (StatusServiceImpl.Login ser GF r u).2 ops) u).2 ops2).online u
        = false := by
      unfold Redis.online
      rw [hk]
      decide
    simp [ho]
  · intro r0 us hn hu
    rw [GetStatus_reports _ us u hu]
    have ho : r0.online u = false := by
      unfold Redis.online
      rw [hn]
      decide
    simp [ho]

theorem C9_presence_reflects_reality_witness :
    (∀ op ∈ [PresenceOp.Login 6, PresenceOp.GetStatus [5, 6], PresenceOp.Logout 6],
      op ≠ PresenceOp.Logout 5) ∧
    (StatusServiceImpl.GetStatus
      (presenceRun demoSer demoServices.GetFriendIds
        (StatusServiceImpl.Login demoSer demoServices.GetFriendIds Redis.empty 5).2
        [PresenceOp.Login 6, PresenceOp.GetStatus [5, 6], PresenceOp.Logout 6]) [5]).1 5
      = some 1 :=
  ⟨by decide,
    (C9_presence_reflects_reality demoSer demoServices.GetFriendIds Redis.empty 5
      [PresenceOp.Login 6, PresenceOp.GetStatus [5, 6], PresenceOp.Logout 6] (by decide)).2.1
      [5] (by simp)⟩

theorem online_after_Set_one (r : Redis) (u : Int) :
    (r.Set (statusKey u) "1".toList).online = fun f => decide (f = u) || r.online f := by
  funext f
  by_cases h : f = u
  · subst h
    simp [Redis.online, Redis.Set]
  · have hk : statusKey f ≠ statusKey u := fun e => h (statusKey_injective f u e)
    simp [Redis.online, Redis.Set, Function.update_noteq hk, h]

theorem Login_effect (ser : GatewayMessage → Str) (GF : Int → List Int) (r : Redis) (u : Int) :
    (StatusServiceImpl.Login ser GF r u).1.success = true ∧
    (StatusServiceImpl.Login ser GF r u).1.online_friend_ids =
      (GF u).filter (fun f => decide (f = u) || r.online f) ∧
    (StatusServiceImpl.Login ser GF r u).2.published = r.published ∧
    (StatusServiceImpl.Login ser GF r u).2.hash = r.hash ∧
    (StatusServiceImpl.Login ser GF r u).2.kv =
      Function.update r.kv (statusKey u) (some "1".toList) := by
  obtain ⟨hk, hh, hl, hp⟩ :=
    friendLoop_keys ser u 1 (GF u) ([], r.Set (statusKey u) "1".toList)
  rw [online_after_Set_one] at hl
  refine ⟨rfl, ?_, ?_, ?_, ?_⟩
  · unfold StatusServiceImpl.Login
    simpa using hl
  · unfold StatusServiceImpl.Login
    rw [hp]
    simp [Redis.Set, Redis.published, List.filterMap_append]
  · unfold StatusServiceImpl.Login
    exact hh
  · unfold StatusServiceImpl.Login
    exact hk

/-- C10: `Login(u)` replies success with `online_friend_ids` equal to the
friend list Auth returned, in its order, restricted to the friends whose online
flag is 1 when the loop reads it; but it publishes nothing, for no server
state and no friend list. At the input of the example, user 5 with the online
friend 6 whose directory entry names edge `"2"`, `Login(5)` returns `[6]`,
looks the entry up (`HGET user_gateway 6`) and hands no message to the server:
the `Publish` of `NotifyUser` goes through an instance whose `config_` was
never set, so `redisConnect` fails. -/
theorem C10_Login_publishes_nothing :
    (∀ (ser : GatewayMessage → Str) (GF : Int → List Int) (r : Redis) (u : Int),
      (StatusServiceImpl.Login ser GF r u).1.success = true ∧
      (StatusServiceImpl.Login ser GF r u).1.online_friend_ids =
        (GF u).filter (fun f => decide (f = u) || r.online f) ∧
      (StatusServiceImpl.Login ser GF r u).2.published = r.published) ∧
    redisConnect StatusServiceImpl.pubsub_config = false ∧
    demoFriendEnv.redis.online 6 = true ∧
    demoFriendEnv.redis.directory 6 = some "2".toList ∧
    (StatusServiceImpl.Login demoSer demoServices.GetFriendIds demoFriendEnv.redis
      5).1.online_friend_ids = [6] ∧
    (StatusServiceImpl.Login demoSer demoServices.GetFriendIds demoFriendEnv.redis
      5).2.log.drop demoFriendEnv.redis.log.length =
      [RedisCmd.SET (statusKey 5) "1".toList, RedisCmd.GET (statusKey 6),
       RedisCmd.HGET user_gateway (to_string 6), RedisCmd.GET (statusKey 7)] ∧
    (StatusServiceImpl.Login demoSer demoServices.GetFriendIds demoFriendEnv.redis
      5).2.publishedSince demoFriendEnv.redis = [] := by
  refine ⟨?_, by decide, by decide, by decide, by decide, by decide, by decide⟩
  intro ser GF r u
  obtain ⟨h1, h2, h3, _, _⟩ := Login_effect ser GF r u
  exact ⟨h1, h2, h3⟩

/-! ## What a connect sends toward a friend -/

theorem send_to_user_local (ser : GatewayMessage → Str) (sm : SessionManager) (env : Env)
    (u : Int) (s : Nat) (m : GatewayMessage) (h : sm.sessions_ u = some s) :
    (sm.send_to_user ser env u m).heap =
      Function.update env.heap s { env.heap s with queue_ := (env.heap s).queue_ ++ [ser m] } ∧
    (sm.send_to_user ser env u m).redis = env.redis ∧
    (sm.send_to_user ser env u m).rpc = env.rpc := by
  simp [SessionManager.send_to_user, h, websocket_session.send_message]

theorem send_to_user_effect (ser : GatewayMessage → Str) (sm : SessionManager) (env : Env)
    (u : Int) (m : GatewayMessage) :
    (sm.send_to_user ser env u m).redis.kv = env.redis.kv ∧
    (sm.send_to_user ser env u m).redis.hash = env.redis.hash ∧
    (sm.send_to_user ser env u m).rpc = env.rpc ∧
    (sm.send_to_user ser env u m).redis.published =
      env.redis.published ++ (sm.relay ser env.redis m u).toList ∧
    (∀ s, (sm.send_to_user ser env u m).heap s =
      if sm.sessions_ u = some s then
        { env.heap s with queue_ := (env.heap s).queue_ ++ [ser m] }
      else env.heap s) := by
  unfold SessionManager.send_to_user SessionManager.relay Redis.directory
  cases hs : sm.sessions_ u with
  | some s0 =>
    refine ⟨rfl, rfl, rfl, by simp [websocket_session.send_message], ?_⟩
    intro s
    by_cases h : s0 = s
    · subst h
      simp [websocket_session.send_message]
    · have h2 : s ≠ s0 := fun e => h e.symm
      simp [websocket_session.send_message, h, Function.update_noteq h2]
  | none =>
    cases hg : env.redis.hash user_gateway (to_string u) <;>
      simp [Redis.HGet, hg, Redis.Publish, Redis.published, List.filterMap_append]

theorem relay_congr (ser : GatewayMessage → Str) (sm : SessionManager) (r r2 : Redis)
    (h : r2.hash = r.hash) (m : GatewayMessage) : sm.relay ser r2 m = sm.relay ser r m := by
  funext f
  simp [SessionManager.relay, Redis.directory, h]

theorem relayLoop_effect (ser : GatewayMessage → Str) (sm : SessionManager)
    (m : GatewayMessage) (ids : List Int) (env : Env) :
    (ids.foldl (fun e fid => sm.send_to_user ser e fid m) env).redis.kv = env.redis.kv ∧
    (ids.foldl (fun e fid => sm.send_to_user ser e fid m) env).redis.hash = env.redis.hash ∧
    (ids.foldl (fun e fid => sm.send_to_user ser e fid m) env).rpc = env.rpc ∧
    (ids.foldl (fun e fid => sm.send_to_user ser e fid m) env).redis.published =
      env.redis.published ++ ids.filterMap (sm.relay ser env.redis m) ∧
    (∀ s, (ids.foldl (fun e fid => sm.send_to_user ser e fid m) env).heap s =
      { env.heap s with queue_ := (env.heap s).queue_ ++
          (ids.filter fun f => decide (sm.sessions_ f = some s)).map fun _ => ser m }) := by
  induction ids generalizing env with
  | nil => simp
  | cons f fs ih =>
    obtain ⟨hk, hh, hr, hp, hq⟩ := send_to_user_effect ser sm env f m
    obtain ⟨ik, ih2, ir, ip, iq⟩ := ih (sm.send_to_user ser env f m)
    rw [relay_congr ser sm _ _ hh] at ip
    simp only [List.foldl_cons]
    refine ⟨ik.trans hk, ih2.trans hh, ir.trans hr, ?_, ?_⟩
    · rw [ip, hp]
      cases hrel : sm.relay ser env.redis m f <;> simp [hrel]
    · intro s
      rw [iq s, hq s]
      by_cases hs : sm.sessions_ f = some s
      · simp [hs, List.filter_cons]
      · simp [hs, List.filter_cons]

theorem drainLoop_effect (ser : GatewayMessage → Str) (sm : SessionManager) (uid : Int)
    (self : Nat) (hself : sm.sessions_ uid = some self) (msgs : List ChatMessage) (env : Env) :
    (msgs.foldl (fun e msg => sm.send_to_user ser e uid (offlinePush msg)) env).redis
      = env.redis ∧
    (msgs.foldl (fun e msg => sm.send_to_user ser e uid (offlinePush msg)) env).rpc = env.rpc ∧
    (∀ s, (msgs.foldl (fun e msg => sm.send_to_user ser e uid (offlinePush msg)) env).heap s =
      if s = self then
        { env.heap s with
          queue_ := (env.heap s).queue_ ++ msgs.map (fun msg => ser (offlinePush msg)) }
      else env.heap s) := by
  induction msgs generalizing env with
  | nil =>
    refine ⟨rfl, rfl, ?_⟩
    intro s
    by_cases h : s = self <;> simp [h]
  | cons x xs ih =>
    obtain ⟨ir, irp, iq⟩ := ih (sm.send_to_user ser env uid (offlinePush x))
    have hstep := send_to_user_local ser sm env uid self (offlinePush x) hself
    simp only [List.foldl_cons]
    refine ⟨ir.trans hstep.2.1, irp.trans hstep.2.2, ?_⟩
    intro s
    rw [iq s]
    by_cases h : s = self
    · subst h
      simp [hstep.1]
    · simp [h, hstep.1, Function.update_noteq h]

theorem run_of_good_token (VerifyToken : Str → Option Int) (env : Env) (self : Nat)
    (target : Str) (u : Int) (htok : extractToken target ≠ [])
    (hver : VerifyToken (extractToken target) = some u) :
    websocket_session.run VerifyToken env self target =
      { heap := Function.update env.heap self { env.heap self with user_id_ := u },
        redis := env.redis,
        rpc := env.rpc ++ [Rpc.VerifyToken (extractToken target)] } := by
  unfold websocket_session.run
  simp [htok, hver]

theorem logoutTask_unfold (sv : Services) (sm : SessionManager) (env : Env) (uid : Int) :
    websocket_session.logoutTask sv sm env uid =
      (StatusServiceImpl.Logout sv.ser sv.GetFriendIds env.redis uid).1.online_friend_ids.foldl
        (fun e fid => SessionManager.send_to_user sv.ser sm e fid (statusUpdate uid 0 sv.now))
        { heap := env.heap,
          redis := (StatusServiceImpl.Logout sv.ser sv.GetFriendIds env.redis uid).2,
          rpc := env.rpc ++ [Rpc.StatusLogout uid []] } := by
  rfl

theorem logoutTask_kv (sv : Services) (sm : SessionManager) (env : Env) (uid : Int) :
    (websocket_session.logoutTask sv sm env uid).redis.kv =
      Function.update env.redis.kv (statusKey uid) (some "0".toList) ∧
    (websocket_session.logoutTask sv sm env uid).rpc = env.rpc ++ [Rpc.StatusLogout uid []] := by
  rw [logoutTask_unfold]
  obtain ⟨hk, _, hr, _, _⟩ := relayLoop_effect sv.ser sm (statusUpdate uid 0 sv.now)
    (StatusServiceImpl.Logout sv.ser sv.GetFriendIds env.redis uid).1.online_friend_ids
    { heap := env.heap,
      redis := (StatusServiceImpl.Logout sv.ser sv.GetFriendIds env.redis uid).2,
      rpc := env.rpc ++ [Rpc.StatusLogout uid []] }
  exact ⟨hk.trans (Logout_kv sv.ser sv.GetFriendIds env.redis uid), hr⟩

/-- C12, as stated, fails: user 5 has a registered session on edge `"1"` and
one on edge `"2"`, and is online. When the session on edge `"1"` is destroyed
the flag of user 5 is no longer 1, although the session on edge `"2"` is still
registered. -/
theorem C12_close_of_one_session_sets_offline :
    demoTwoSessions.1.sessions_ 5 = some 1 ∧
    demoTwoSessions.2.1.sessions_ 5 = some 2 ∧
    demoTwoSessions.2.2.redis.online 5 = true ∧
    (websocket_session.destroy demoServices demoTwoSessions.1 demoTwoSessions.2.2
      1).2.redis.online 5 = false ∧
    (websocket_session.destroy demoServices demoTwoSessions.1 demoTwoSessions.2.2
      1).2.redis.kv (statusKey 5) = some "0".toList := by
  decide

/-- C12, amended: the destructor of every authenticated session of user `u`
calls Presence `Logout(u)`, and afterwards the status key of `u` holds `"0"`,
so the flag is not 1. This holds in every state of the session table and of
the store, hence whether or not `u` has another registered session, on this
edge or on another one. -/
theorem C12_every_close_sets_offline (sv : Services) (sm : SessionManager) (env : Env)
    (self : Nat) (h : (env.heap self).user_id_ ≠ 0) :
    (websocket_session.destroy sv sm env self).2.redis.kv (statusKey (env.heap self).user_id_)
      = some "0".toList ∧
    (websocket_session.destroy sv sm env self).2.redis.online (env.heap self).user_id_ = false ∧
    (websocket_session.destroy sv sm env self).2.rpc =
      env.rpc ++ [Rpc.StatusLogout (env.heap self).user_id_ []] := by
  have hd : websocket_session.destroy sv sm env self =
      ((sm.leave env (env.heap self).user_id_).1,
        websocket_session.logoutTask sv (sm.leave env (env.heap self).user_id_).1
          (sm.leave env (env.heap self).user_id_).2 (env.heap self).user_id_) := by
    unfold websocket_session.destroy
    simp [h]
  obtain ⟨hk, hr⟩ := logoutTask_kv sv (sm.leave env (env.heap self).user_id_).1
    (sm.leave env (env.heap self).user_id_).2 (env.heap self).user_id_
  have hkv : (websocket_session.destroy sv sm env self).2.redis.kv
      (statusKey (env.heap self).user_id_) = some "0".toList := by
    rw [hd]
    simp only []
    rw [hk]
    exact Function.update_same _ _ _
  refine ⟨hkv, ?_, ?_⟩
  · unfold Redis.online
    rw [hkv]
    decide
  · rw [hd]
    simp only []
    rw [hr]
    rfl

theorem C12_every_close_sets_offline_witness :
    (demoTwoSessions.2.2.heap 1).user_id_ ≠ 0 ∧
    (websocket_session.destroy demoServices demoTwoSessions.1 demoTwoSessions.2.2
      1).2.redis.online (demoTwoSessions.2.2.heap 1).user_id_ = false :=
  ⟨by decide, (C12_every_close_sets_offline demoServices demoTwoSessions.1
    demoTwoSessions.2.2 1 (by decide)).2.1⟩

/-! ## Chat persistence: conversation-session rows -/

theorem session_key (db : ChatDB) (u p : Int) (r : SessionRow) (h : db.session u p = some r) :
    r.user_id = u ∧ r.peer_id = p := by
  unfold ChatDB.session at h
  have := List.find?_some h
  simpa using this

theorem session_UpsertSession (db : ChatDB) (u p : Int) (c : Str) (t : Int) (inc : Bool)
    (u2 p2 : Int) :
    (ChatServiceImpl.UpsertSession true db u p c t inc).session u2 p2 =
      if u2 = u ∧ p2 = p then
        some (SessionRow.mk u p c t (if inc = true then db.unread u p + 1 else 0))
      else db.session u2 p2 := by
  unfold ChatServiceImpl.UpsertSession
  simp only [Bool.true_eq_false, if_false]
  cases hs : db.session u p with
  | some r =>
    obtain ⟨hru, hrp⟩ := session_key db u p r hs
    simp only [Option.isSome_some, if_true]
    unfold ChatDB.session
    rw [List.find?_map]
    have hcomp : ((fun r => decide (r.user_id = u2 ∧ r.peer_id = p2)) ∘ fun r : SessionRow =>
        if r.user_id = u ∧ r.peer_id = p then
          SessionRow.mk r.user_id r.peer_id c t (if inc = true then r.unread_count + 1 else 0)
        else r) = fun r => decide (r.user_id = u2 ∧ r.peer_id = p2) := by
      funext x
      simp only [Function.comp]
      split <;> rfl
    rw [hcomp]
    by_cases hk : u2 = u ∧ p2 = p
    · obtain ⟨rfl, rfl⟩ := hk
      have hs2 : List.find? (fun r => decide (r.user_id = u2 ∧ r.peer_id = p2)) db.sessions
          = some r := hs
      have hun : db.unread u2 p2 = r.unread_count := by
        unfold ChatDB.unread
        rw [hs]
      rw [hs2]
      simp [hru, hrp, hun]
    · rw [if_neg hk]
      cases hs2 : List.find? (fun r => decide (r.user_id = u2 ∧ r.peer_id = p2)) db.sessions with
      | none => rfl
      | some r2 =>
        obtain ⟨h1, h2⟩ := session_key db u2 p2 r2 hs2
        have : ¬ (r2.user_id = u ∧ r2.peer_id = p) := by
          rw [h1, h2]; exact hk
        simp [this]
  | none =>
    simp only [Option.isSome_none, Bool.false_eq_true, if_false]
    unfold ChatDB.session
    rw [List.find?_append]
    by_cases hk : u2 = u ∧ p2 = p
    · obtain ⟨rfl, rfl⟩ := hk
      have hs2 : List.find? (fun r => decide (r.user_id = u2 ∧ r.peer_id = p2)) db.sessions
          = none := hs
      have hun : db.unread u2 p2 = 0 := by
        unfold ChatDB.unread
        rw [hs]
      rw [hs2]
      simp [hun]
    · rw [if_neg hk]
      have hk2 : ¬ (u = u2 ∧ p = p2) := fun h => hk ⟨h.1.symm, h.2.symm⟩
      cases hs2 : List.find? (fun r => decide (r.user_id = u2 ∧ r.peer_id = p2)) db.sessions with
      | none => simp [hk2]
      | some r2 => simp

theorem unread_UpsertSession (ok : Bool) (db : ChatDB) (u p : Int) (c : Str) (t : Int)
    (inc : Bool) (u2 p2 : Int) :
    (ChatServiceImpl.UpsertSession ok db u p c t inc).unread u2 p2 =
      if ok = true ∧ u2 = u ∧ p2 = p then (if inc = true then db.unread u p + 1 else 0)
      else db.unread u2 p2 := by
  cases ok with
  | false => simp [ChatServiceImpl.UpsertSession]
  | true =>
    unfold ChatDB.unread
    rw [session_UpsertSession]
    by_cases hk : u2 = u ∧ p2 = p
    · simp [hk, ChatDB.unread]
    · simp [hk]

theorem SaveMessage_unfold (ok2 ok3 : Bool) (db : ChatDB) (f t : Int) (c : Str) (ts : Int) :
    ChatServiceImpl.SaveMessage true ok2 ok3 db f t c ts =
      ({ success := true, msg_id := db.messages.length + 1, error_msg := [] },
        ChatServiceImpl.UpsertSession ok3
          (ChatServiceImpl.UpsertSession ok2
            { db with
              messages := db.messages ++
                [MessageRow.mk (db.messages.length + 1) f t c (ts.tdiv 1000)] }
            f t c ts false)
          t f c ts true) := by
  rfl

/-- C13, as stated, fails when sender and recipient are the same user: after a
first message of user 1 to itself the row `(1,1)` has `unread_count = 1`;
after a second one, saved with success, it is 1 again, so neither the
pre-call value plus 1 nor greater than before. -/
theorem C13_self_message_does_not_increase_unread :
    ((ChatServiceImpl.SaveMessage true true true ChatDB.empty 1 1 "a".toList 1000).2).unread 1 1
      = 1 ∧
    (ChatServiceImpl.SaveMessage true true true
      (ChatServiceImpl.SaveMessage true true true ChatDB.empty 1 1 "a".toList 1000).2
      1 1 "b".toList 2000).1.success = true ∧
    ((ChatServiceImpl.SaveMessage true true true
      (ChatServiceImpl.SaveMessage true true true ChatDB.empty 1 1 "a".toList 1000).2
      1 1 "b".toList 2000).2).unread 1 1 = 1 := by
  decide

/-- C13, amended: let `SaveMessage(from, to, content, ts)` apply its three
statements; it replies success. When `from` differs from `to`, the row
`(from,to)` is then exactly `(content, ts, unread_count = 0)` and the row
`(to,from)` is exactly `(content, ts, unread_count = pre-call value + 1)`,
with 0 as the pre-call value of an absent row, so strictly greater than
before. When `from = to`, the one row `(from,from)` is `(content, ts,
unread_count = 1)`, whatever its value before. -/
theorem C13_session_rows_after_SaveMessage (db : ChatDB) (f t : Int) (c : Str) (ts : Int) :
    (ChatServiceImpl.SaveMessage true true true db f t c ts).1.success = true ∧
    (f ≠ t →
      (ChatServiceImpl.SaveMessage true true true db f t c ts).2.session f t =
        some (SessionRow.mk f t c ts 0) ∧
      (ChatServiceImpl.SaveMessage true true true db f t c ts).2.session t f =
        some (SessionRow.mk t f c ts (db.unread t f + 1)) ∧
      (ChatServiceImpl.SaveMessage true true true db f t c ts).2.unread t f > db.unread t f) ∧
    (f = t →
      (ChatServiceImpl.SaveMessage true true true db f t c ts).2.session f f =
        some (SessionRow.mk f f c ts 1)) := by
  rw [SaveMessage_unfold]
  refine ⟨rfl, ?_, ?_⟩
  · intro hft
    have hne : ¬ (t = f ∧ f = t) := fun h => hft h.2
    have hne2 : ¬ (f = t ∧ t = f) := fun h => hft h.1
    have hmid : (ChatServiceImpl.UpsertSession true
        { db with
          messages := db.messages ++
            [MessageRow.mk (db.messages.length + 1) f t c (ts.tdiv 1000)] }
        f t c ts false).unread t f = db.unread t f := by
      rw [unread_UpsertSession]
      simp only [hne, and_false, if_false]
      rfl
    refine ⟨?_, ?_, ?_⟩
    · simp only []
      rw [session_UpsertSession, if_neg hne2, session_UpsertSession]
      simp
    · simp only []
      rw [session_UpsertSession, hmid]
      simp
    · simp only []
      rw [unread_UpsertSession, hmid]
      simp
  · intro hft
    subst hft
    simp only []
    rw [session_UpsertSession, unread_UpsertSession]
    simp

/-- C14, evaluated where the `INSERT` on `messages` is applied and the two
upserts on `sessions` fail: `SaveMessage(1, 2, "hi", 1000)` on empty tables
replies success with `msg_id = 1`, the message row is stored, and no
conversation-session row exists. -/
theorem C14_success_reported_without_session_rows :
    (ChatServiceImpl.SaveMessage true false false ChatDB.empty 1 2 "hi".toList 1000).1.success
      = true ∧
    (ChatServiceImpl.SaveMessage true false false ChatDB.empty 1 2 "hi".toList 1000).2.messages
      = [MessageRow.mk 1 1 2 "hi".toList 1] ∧
    (ChatServiceImpl.SaveMessage true false false ChatDB.empty 1 2 "hi".toList 1000).2.sessions
      = [] ∧
    (ChatServiceImpl.SaveMessage true true false ChatDB.empty 1 2 "hi".toList 1000).1.success
      = true ∧
    (ChatServiceImpl.SaveMessage true true false ChatDB.empty 1 2 "hi".toList 1000).2.sessions
      = [SessionRow.mk 1 2 "hi".toList 1000 0] := by
  decide

/-- Helper for C14: the reply says failure exactly when the `INSERT` on
`messages` was not applied, and then no table has changed. -/
theorem SaveMessage_failure_changes_nothing (ok1 ok2 ok3 : Bool) (db : ChatDB) (f t : Int)
    (c : Str) (ts : Int)
    (h : (ChatServiceImpl.SaveMessage ok1 ok2 ok3 db f t c ts).1.success = false) :
    ok1 = false ∧ (ChatServiceImpl.SaveMessage ok1 ok2 ok3 db f t c ts).2 = db := by
  cases ok1 with
  | false => exact ⟨rfl, rfl⟩
  | true =>
    rw [SaveMessage_unfold] at h
    cases h

/-! ## Chat persistence: unread counts over sequences of requests -/

theorem unread_apply_mono (db : ChatDB) (op : ChatOp) (u p : Int)
    (h : op.sendsFrom u p = false) : db.unread u p ≤ (op.apply db).unread u p := by
  cases op with
  | SaveMessage ok1 ok2 ok3 f t c ts =>
    have hk : ¬ (f = u ∧ t = p) := by simpa [ChatOp.sendsFrom] using h
    cases ok1 with
    | false => exact le_refl _
    | true =>
      simp only [ChatOp.apply]
      rw [SaveMessage_unfold]
      simp only []
      rw [unread_UpsertSession]
      have hbase : ∀ x y, ¬ (x = f ∧ y = t) → (ChatServiceImpl.UpsertSession ok2
          { db with
            messages := db.messages ++
              [MessageRow.mk (db.messages.length + 1) f t c (ts.tdiv 1000)] }
          f t c ts false).unread x y = db.unread x y := by
        intro x y hxy
        rw [unread_UpsertSession]
        simp only [hxy, and_false, if_false]
        rfl
      by_cases houter : ok3 = true ∧ u = t ∧ p = f
      · obtain ⟨_, rfl, rfl⟩ := houter
        have hx : ¬ (u = p ∧ p = u) := fun e => hk ⟨e.2, e.1⟩
        rw [if_pos ⟨by assumption, rfl, rfl⟩, hbase u p hx]
        simp
      · rw [if_neg houter, hbase u p (fun e => hk ⟨e.1.symm, e.2.symm⟩)]
  | GetHistory _ _ _ => exact le_refl _
  | GetRecentSessions _ => exact le_refl _
  | GetOfflineMessages _ => exact le_refl _

theorem chatRun_snoc (db : ChatDB) (ops : List ChatOp) (op : ChatOp) :
    chatRun db (ops ++ [op]) = op.apply (chatRun db ops) := by
  simp [chatRun, List.foldl_append]

/-- C15, as stated, fails: after user 2 has sent a message to user 1 the
unread count of `(1,2)` is 1; a `SaveMessage` from user 1 to user 2, which is
no `AckMessages`, then brings it down to 0. -/
theorem C15_reply_resets_unread :
    (chatRun ChatDB.empty
      [ChatOp.SaveMessage true true true 2 1 "a".toList 1000]).unread 1 2 = 1 ∧
    (chatRun ChatDB.empty
      [ChatOp.SaveMessage true true true 2 1 "a".toList 1000,
       ChatOp.SaveMessage true true true 1 2 "b".toList 2000]).unread 1 2 = 0 := by
  decide

/-- C15, amended: take any sequence of `SaveMessage` (whichever of its
statements are applied), `GetHistory`, `GetRecentSessions` and
`GetOfflineMessages` requests in which no `SaveMessage` is sent by `user` to
`peer`. Then the unread count of `(user, peer)` never decreases from one state
of the run to the next, and at the end it is at least what it was at the
start. A `SaveMessage` sent by `user` to `peer` whose statements are applied
sets the count, whatever it was, to 0 when `user` differs from `peer` and to 1
when `user` is `peer`. -/
theorem C15_unread_monotone (db : ChatDB) (ops : List ChatOp) (user peer : Int)
    (h : ∀ op ∈ ops, op.sendsFrom user peer = false) :
    (∀ n, (chatRun db (ops.take n)).unread user peer ≤
      (chatRun db (ops.take (n + 1))).unread user peer) ∧
    db.unread user peer ≤ (chatRun db ops).unread user peer ∧
    (∀ (db2 : ChatDB) (c : Str) (ts : Int),
      (ChatOp.apply db2 (ChatOp.SaveMessage true true true user peer c ts)).unread user peer
        = if user = peer then 1 else 0) := by
  have hstep : ∀ n, (chatRun db (ops.take n)).unread user peer ≤
      (chatRun db (ops.take (n + 1))).unread user peer := by
    intro n
    rw [List.take_succ]
    cases hn : ops[n]? with
    | none => simp
    | some op =>
      have hmem : op ∈ ops := List.getElem?_mem hn
      simp only [Option.toList]
      rw [chatRun_snoc]
      exact unread_apply_mono _ op user peer (h op hmem)
  refine ⟨hstep, ?_, ?_⟩
  · have hall : ∀ n, db.unread user peer ≤ (chatRun db (ops.take n)).unread user peer := by
      intro n
      induction n with
      | zero => simp [chatRun]
      | succ k ih => exact le_trans ih (hstep k)
    have := hall ops.length
    rwa [List.take_length] at this
  · intro db2 c ts
    simp only [ChatOp.apply]
    rw [SaveMessage_unfold]
    simp only []
    rw [unread_UpsertSession, unread_UpsertSession]
    by_cases hup : user = peer
    · subst hup
      simp
    · have hne : ¬ (true = true ∧ user = peer ∧ peer = user) := fun e => hup e.2.1
      rw [if_neg hne, if_neg hup, unread_UpsertSession]
      simp

theorem C15_unread_monotone_witness :
    (∀ op ∈ [ChatOp.SaveMessage true true true 2 1 "a".toList 1000,
        ChatOp.GetOfflineMessages 1, ChatOp.SaveMessage true true true 2 1 "b".toList 2000],
      op.sendsFrom 1 2 = false) ∧
    ChatDB.empty.unread 1 2 ≤
      (chatRun ChatDB.empty [ChatOp.SaveMessage true true true 2 1 "a".toList 1000,
        ChatOp.GetOfflineMessages 1,
        ChatOp.SaveMessage true true true 2 1 "b".toList 2000]).unread 1 2 :=
  ⟨by decide,
    (C15_unread_monotone ChatDB.empty [ChatOp.SaveMessage true true true 2 1 "a".toList 1000,
      ChatOp.GetOfflineMessages 1, ChatOp.SaveMessage true true true 2 1 "b".toList 2000]
      1 2 (by decide)).2.1⟩

/-! ## Chat persistence: the offline drain -/

theorem byCreatedDesc_sorted (l : List MessageRow) :
    (byCreatedDesc l).Sorted (fun a b => a.created_at ≥ b.created_at) :=
  List.sorted_insertionSort _ l

theorem mem_byCreatedDesc (l : List MessageRow) (x : MessageRow) :
    x ∈ byCreatedDesc l ↔ x ∈ l :=
  List.mem_insertionSort _

theorem unreadBlock_props (db : ChatDB) (U : Int) (r : SessionRow) :
    (db.unreadBlock U r).length =
      min r.unread_count.toNat (db.conversation U r.peer_id).length ∧
    (db.unreadBlock U r).Subperm (db.conversation U r.peer_id) ∧
    (∀ x ∈ db.unreadBlock U r, x ∈ db.messages ∧
      ((x.from_id = U ∧ x.to_id = r.peer_id) ∨ (x.from_id = r.peer_id ∧ x.to_id = U))) ∧
    (∀ x ∈ db.unreadBlock U r, ∀ y ∈ db.conversation U r.peer_id, y ∉ db.unreadBlock U r →
      y.created_at ≤ x.created_at) ∧
    (db.unreadBlock U r).Sorted (fun a b => a.created_at ≤ b.created_at) := by
  have hsorted := byCreatedDesc_sorted (db.conversation U r.peer_id)
  have hsplit := List.take_append_drop r.unread_count.toNat
    (byCreatedDesc (db.conversation U r.peer_id))
  rw [← hsplit] at hsorted
  obtain ⟨htake, _, hcross⟩ := List.pairwise_append.mp hsorted
  have hmemconv : ∀ x ∈ db.unreadBlock U r, x ∈ db.conversation U r.peer_id := by
    intro x hx
    unfold ChatDB.unreadBlock at hx
    exact (mem_byCreatedDesc _ x).mp (List.mem_of_mem_take (List.mem_reverse.mp hx))
  refine ⟨?_, ?_, ?_, ?_, ?_⟩
  · unfold ChatDB.unreadBlock byCreatedDesc
    simp [List.length_take, List.length_insertionSort]
  · unfold ChatDB.unreadBlock
    exact ((List.reverse_perm _).subperm).trans
      (((List.take_sublist _ _).subperm).trans
        (List.perm_insertionSort _ _).subperm)
  · intro x hx
    have hc := hmemconv x hx
    unfold ChatDB.conversation at hc
    have := List.mem_filter.mp hc
    exact ⟨this.1, by simpa using this.2⟩
  · intro x hx y hy hny
    have hx2 : x ∈ (byCreatedDesc (db.conversation U r.peer_id)).take r.unread_count.toNat :=
      List.mem_reverse.mp hx
    have hy2 : y ∈ byCreatedDesc (db.conversation U r.peer_id) := (mem_byCreatedDesc _ y).mpr hy
    rw [← hsplit] at hy2
    rcases List.mem_append.mp hy2 with hyt | hyd
    · exact absurd (List.mem_reverse.mpr hyt) hny
    · exact hcross x hx2 y hyd
  · unfold ChatDB.unreadBlock
    exact List.pairwise_reverse.mpr htake

/-- C16, as stated, fails: user 1 wrote to user 2 with timestamp 5000 ms, then
user 2 wrote to user 1 with timestamp 1000 ms, so `unread_count(1,2) = 1`.
`GetOfflineMessages(1)` returns one message: the one user 1 sent, whose
`to_user_id` is 2; the unread message of user 2 is not returned. -/
theorem C16_drain_returns_own_message :
    demoSkewDB.unread 1 2 = 1 ∧
    ChatServiceImpl.GetOfflineMessages demoSkewDB 1 =
      [ChatMessage.mk 1 1 2 "a".toList 5000] ∧
    demoSkewDB.messages =
      [MessageRow.mk 1 1 2 "a".toList 5, MessageRow.mk 2 2 1 "b".toList 1] := by
  decide

/-- C16, amended: in every state, `GetOfflineMessages(U)` returns, for each
row `(U, peer)` with `unread_count > 0` in table order, a block of messages of
the conversation between `U` and `peer`. The block holds `unread_count` of
them (all, when the conversation is shorter), each row of the table at most as
often as it is there; every message returned was exchanged between `U` and
`peer` in one direction or the other (`to_user_id` is `U` or `from_user_id`
is); and no message of the conversation left out has a later `created_at`
(whole seconds) than one returned. -/
theorem C16_drain_is_latest_by_created_at (db : ChatDB) (U : Int) :
    ChatServiceImpl.GetOfflineMessages db U =
      (db.unreadRows U).flatMap (fun r => (db.unreadBlock U r).map MessageRow.toMessage) ∧
    (∀ r ∈ db.unreadRows U, r ∈ db.sessions ∧ r.user_id = U ∧ r.unread_count > 0) ∧
    (∀ r : SessionRow,
      (db.unreadBlock U r).length =
        min r.unread_count.toNat (db.conversation U r.peer_id).length ∧
      (db.unreadBlock U r).Subperm (db.conversation U r.peer_id) ∧
      (∀ x ∈ db.unreadBlock U r, x ∈ db.messages ∧
        ((x.from_id = U ∧ x.to_id = r.peer_id) ∨ (x.from_id = r.peer_id ∧ x.to_id = U))) ∧
      (∀ x ∈ db.unreadBlock U r, ∀ y ∈ db.conversation U r.peer_id,
        y ∉ db.unreadBlock U r → y.created_at ≤ x.created_at)) ∧
    (∀ m ∈ ChatServiceImpl.GetOfflineMessages db U, m.from_id = U ∨ m.to_id = U) := by
  refine ⟨rfl, ?_, ?_, ?_⟩
  · intro r hr
    unfold ChatDB.unreadRows at hr
    have := List.mem_filter.mp hr
    exact ⟨this.1, by simpa using this.2⟩
  · intro r
    obtain ⟨h1, h2, h3, h4, _⟩ := unreadBlock_props db U r
    exact ⟨h1, h2, h3, h4⟩
  · intro m hm
    unfold ChatServiceImpl.GetOfflineMessages at hm
    obtain ⟨r, _, hmr⟩ := List.mem_flatMap.mp hm
    obtain ⟨x, hx, rfl⟩ := List.mem_map.mp hmr
    rcases ((unreadBlock_props db U r).2.2.1 x hx).2 with h | h
    · exact Or.inl h.1
    · exact Or.inr h.2

theorem toMessage_sorted (l : List MessageRow)
    (h : l.Sorted (fun a b => a.created_at ≤ b.created_at)) :
    (l.map MessageRow.toMessage).Sorted (fun a b => a.timestamp ≤ b.timestamp) := by
  unfold List.Sorted at *
  rw [List.pairwise_map]
  refine h.imp ?_
  intro a b hab
  simp only [MessageRow.toMessage]
  omega

/-- C17, as stated, fails: user 1 has two unread messages of user 2 (1000 ms
and 9000 ms) and one of user 3 (5000 ms). `GetOfflineMessages(1)` returns the
two of user 2 first and then the one of user 3: the timestamps of the list are
1000, 9000, 5000. -/
theorem C17_drain_not_sorted_across_conversations :
    (ChatServiceImpl.GetOfflineMessages demoTwoPeersDB 1).map (fun m => m.timestamp)
      = [1000, 9000, 5000] ∧
    (ChatServiceImpl.GetOfflineMessages demoTwoPeersDB 1).map (fun m => m.msg_id)
      = [1, 3, 2] ∧
    ¬ (ChatServiceImpl.GetOfflineMessages demoTwoPeersDB 1).Sorted
      (fun a b => a.timestamp ≤ b.timestamp) := by
  decide

/-- C17, amended: the list `GetOfflineMessages(U)` returns is the
concatenation, in the table order of the rows `(U, peer)` with
`unread_count > 0`, of one block per conversation, and each block is in
ascending order of timestamp (whole seconds). When `U` has the session `s` on
the edge, the drain pushes one CHAT_PUSH per message on the queue of `s`, in
the order of the list. -/
theorem C17_drain_sorted_within_conversation (db : ChatDB) (U : Int) :
    ChatServiceImpl.GetOfflineMessages db U =
      (db.unreadRows U).flatMap (fun r => (db.unreadBlock U r).map MessageRow.toMessage) ∧
    (∀ r : SessionRow, ((db.unreadBlock U r).map MessageRow.toMessage).Sorted
      (fun a b => a.timestamp ≤ b.timestamp)) ∧
    (∀ (ser : GatewayMessage → Str) (sm : SessionManager) (env : Env) (s : Nat),
      sm.sessions_ U = some s →
      (((ChatServiceImpl.GetOfflineMessages db U).foldl
        (fun e msg => sm.send_to_user ser e U (offlinePush msg)) env).heap s).queue_ =
        (env.heap s).queue_ ++
          (ChatServiceImpl.GetOfflineMessages db U).map (fun msg => ser (offlinePush msg))) := by
  refine ⟨rfl, ?_, ?_⟩
  · intro r
    exact toMessage_sorted _ (unreadBlock_props db U r).2.2.2.2
  · intro ser sm env s hs
    rw [(drainLoop_effect ser sm U s hs (ChatServiceImpl.GetOfflineMessages db U) env).2.2 s]
    simp

/-- C18: `GetOfflineMessages` changes no row: the tables after the request are
the tables before it (the `messages` table, every conversation-session row and
so every `unread_count`), a second call right after the first returns the same
list, and so does a call after any number of `GetOfflineMessages` requests. -/
theorem C18_GetOfflineMessages_read_only (db : ChatDB) (U : Int) :
    (ChatOp.GetOfflineMessages U).apply db = db ∧
    ((ChatOp.GetOfflineMessages U).apply db).messages = db.messages ∧
    ((ChatOp.GetOfflineMessages U).apply db).sessions = db.sessions ∧
    (∀ u p, ((ChatOp.GetOfflineMessages U).apply db).unread u p = db.unread u p) ∧
    ChatServiceImpl.GetOfflineMessages ((ChatOp.GetOfflineMessages U).apply db) U =
      ChatServiceImpl.GetOfflineMessages db U ∧
    (∀ V n, ChatServiceImpl.GetOfflineMessages
        (chatRun db (List.replicate n (ChatOp.GetOfflineMessages V))) U =
      ChatServiceImpl.GetOfflineMessages db U) := by
  refine ⟨rfl, rfl, rfl, fun _ _ => rfl, rfl, ?_⟩
  intro V n
  have : chatRun db (List.replicate n (ChatOp.GetOfflineMessages V)) = db := by
    induction n with
    | zero => rfl
    | succ k ih =>
      rw [List.replicate_succ']
      rw [chatRun_snoc, ih]
      rfl
  rw [this]

/-! ## Chat persistence: acknowledging messages -/

theorem GetRecentSessions_AckMessages (db : ChatDB) (user peer u : Int) :
    ChatServiceImpl.GetRecentSessions (ChatServiceImpl.AckMessages db user peer).2 u =
      if u = user then (ChatServiceImpl.GetRecentSessions db u).map (Session.acked peer)
      else ChatServiceImpl.GetRecentSessions db u := by
  unfold ChatServiceImpl.GetRecentSessions ChatServiceImpl.AckMessages
  simp only []
  rw [List.filter_map]
  have hcomp : ((fun r : SessionRow => decide (r.user_id = u)) ∘ fun r : SessionRow =>
      if r.user_id = user ∧ r.peer_id = peer then
        SessionRow.mk r.user_id r.peer_id r.last_msg_content r.last_msg_timestamp 0
      else r) = fun r => decide (r.user_id = u) := by
    funext x
    simp only [Function.comp]
    split <;> rfl
  rw [hcomp, ← List.map_insertionSort
    (fun a b : SessionRow => a.last_msg_timestamp ≥ b.last_msg_timestamp)
    (fun a b : SessionRow => a.last_msg_timestamp ≥ b.last_msg_timestamp)]
  · rw [List.map_map]
    by_cases hu : u = user
    · subst hu
      rw [if_pos rfl, List.map_map]
      apply List.map_congr_left
      intro r hr
      have hru : r.user_id = u := by
        have := (List.mem_filter.mp ((List.mem_insertionSort _).mp hr)).2
        simpa using this
      simp only [Function.comp, Session.acked, SessionRow.toSession, hru, true_and]
      split <;> rfl
    · rw [if_neg hu]
      apply List.map_congr_left
      intro r hr
      have hru : r.user_id = u := by
        have := (List.mem_filter.mp ((List.mem_insertionSort _).mp hr)).2
        simpa using this
      have hne : ¬ (r.user_id = user ∧ r.peer_id = peer) := fun h => hu (hru ▸ h.1)
      simp [Function.comp, hne]
  · intro a _ b _
    have ha : ∀ x : SessionRow, (if x.user_id = user ∧ x.peer_id = peer then
        SessionRow.mk x.user_id x.peer_id x.last_msg_content x.last_msg_timestamp 0
        else x).last_msg_timestamp = x.last_msg_timestamp := by
      intro x
      split <;> rfl
    rw [ha a, ha b]

/-- C19, on the method as the spec describes it: for every state and every
pair `(user, peer)` that has a conversation-session row, `AckMessages(user,
peer)` replies success, and afterwards `GetRecentSessions(user)` is the list
it was before with the unread count of the entry of `peer` set to 0: that
entry is there, its `last_msg_content` and `last_msg_timestamp` and all other
entries are unchanged. The replies for other users and the `messages` table
are unchanged too. -/
theorem C19_AckMessages_resets_unread (db : ChatDB) (user peer : Int)
    (h : (db.session user peer).isSome = true) :
    (ChatServiceImpl.AckMessages db user peer).1 = true ∧
    ChatServiceImpl.GetRecentSessions (ChatServiceImpl.AckMessages db user peer).2 user =
      (ChatServiceImpl.GetRecentSessions db user).map (Session.acked peer) ∧
    (∃ s ∈ ChatServiceImpl.GetRecentSessions (ChatServiceImpl.AckMessages db user peer).2 user,
      s.peer_id = peer) ∧
    (∀ s ∈ ChatServiceImpl.GetRecentSessions (ChatServiceImpl.AckMessages db user peer).2 user,
      s.peer_id = peer → s.unread_count = 0) ∧
    (∀ u, u ≠ user →
      ChatServiceImpl.GetRecentSessions (ChatServiceImpl.AckMessages db user peer).2 u =
        ChatServiceImpl.GetRecentSessions db u) ∧
    (ChatServiceImpl.AckMessages db user peer).2.messages = db.messages := by
  have hmain := GetRecentSessions_AckMessages db user peer user
  rw [if_pos rfl] at hmain
  refine ⟨rfl, hmain, ?_, ?_, ?_, rfl⟩
  · obtain ⟨r, hr⟩ := Option.isSome_iff_exists.mp h
    obtain ⟨hru, hrp⟩ := session_key db user peer r hr
    have hmem : r ∈ db.sessions := by
      unfold ChatDB.session at hr
      exact List.mem_of_find?_eq_some hr
    rw [hmain]
    refine ⟨Session.acked peer r.toSession, ?_, ?_⟩
    · apply List.mem_map_of_mem
      unfold ChatServiceImpl.GetRecentSessions
      apply List.mem_map_of_mem
      apply (List.mem_insertionSort _).mpr
      exact List.mem_filter.mpr ⟨hmem, by simpa using hru⟩
    · simp [Session.acked, SessionRow.toSession, hrp]
  · intro s hs hp
    rw [hmain] at hs
    obtain ⟨s0, _, rfl⟩ := List.mem_map.mp hs
    unfold Session.acked at hp ⊢
    split
    · rfl
    · rename_i hne
      rw [if_neg hne] at hp
      exact absurd hp hne
  · intro u hu
    have := GetRecentSessions_AckMessages db user peer u
    rwa [if_neg hu] at this

theorem C19_AckMessages_resets_unread_witness :
    (demoTwoPeersDB.session 1 2).isSome = true ∧
    ChatServiceImpl.GetRecentSessions (ChatServiceImpl.AckMessages demoTwoPeersDB 1 2).2 1 =
      (ChatServiceImpl.GetRecentSessions demoTwoPeersDB 1).map (Session.acked 2) :=
  ⟨by decide, (C19_AckMessages_resets_unread demoTwoPeersDB 1 2 (by decide)).2.1⟩

/-! ## The gateway: handling CHAT_SEND -/

/-- C20, as stated, fails: the CHAT_ACK does not carry the `msg_id`. Session 1
of user 5 receives a CHAT_SEND with request id `"r7"` for user 9; whether
persistence assigns `msg_id` 41 or 42, the one frame pushed on the sender's
queue is the same CHAT_ACK, whose `chat_data` is unset; the `msg_id` goes only
into the CHAT_PUSH published for user 9. -/
theorem C20_ack_has_no_msg_id :
    ((websocket_session.handle_message demoServices (fun _ _ _ _ => some 42) demoEdge
      demoSenderEnv 1 demoSend).heap 1).queue_ = [demoSer (chatAck demoSend)] ∧
    ((websocket_session.handle_message demoServices (fun _ _ _ _ => some 41) demoEdge
      demoSenderEnv 1 demoSend).heap 1).queue_ = [demoSer (chatAck demoSend)] ∧
    chatAck demoSend = GatewayMessage.mk MessageType.CHAT_ACK "r7".toList [] none none ∧
    (websocket_session.handle_message demoServices (fun _ _ _ _ => some 42) demoEdge
      demoSenderEnv 1 demoSend).redis.published =
      [("gateway_2".toList, pub_msg 9 (demoSer (chatPush 42 5 9 "hi".toList 1000)))] := by
  decide

/-- C20, amended: let a session of user `uid` receive a CHAT_SEND frame with
`chat_data` and let `SaveMessage` return true with `msg_id = m`. Then
`handle_message` calls `SaveMessage` once (sender `uid`, the recipient and
content of the frame, the edge's clock as timestamp), pushes on the sender's
queue exactly one CHAT_ACK, which carries the request id of the frame and
nothing else (no `msg_id`), and then routes exactly one CHAT_PUSH with
`msg_id = m`, `from = uid`, the recipient, the content and the timestamp
through `send_to_user`. The sender's queue gets the CHAT_PUSH too only when
the recipient's session on this edge is the sender's own. Had `SaveMessage`
returned false, the only frame pushed would be the error reply: no CHAT_ACK. -/
theorem C20_handle_chat_send (sv : Services) (SaveMessage : Int → Int → Str → Int → Option Int)
    (sm : SessionManager) (env : Env) (self : Nat) (msg : GatewayMessage) (cd : ChatData)
    (m : Int) (htype : msg.type = MessageType.CHAT_SEND) (hcd : msg.chat_data = some cd)
    (hsave : SaveMessage (env.heap self).user_id_ cd.to_user_id cd.content sv.now = some m) :
    websocket_session.handle_message sv SaveMessage sm env self msg =
      sm.send_to_user sv.ser
        (websocket_session.send_message sv.ser
          { env with rpc := env.rpc ++
            [Rpc.SaveMessage (env.heap self).user_id_ cd.to_user_id cd.content sv.now] }
          self (chatAck msg))
        cd.to_user_id
        (chatPush m (env.heap self).user_id_ cd.to_user_id cd.content sv.now) ∧
    chatAck msg = GatewayMessage.mk MessageType.CHAT_ACK msg.request_id [] none none ∧
    chatPush m (env.heap self).user_id_ cd.to_user_id cd.content sv.now =
      GatewayMessage.mk MessageType.CHAT_PUSH [] []
        (some (ChatData.mk m (env.heap self).user_id_ cd.to_user_id cd.content sv.now)) none ∧
    ((websocket_session.handle_message sv SaveMessage sm env self msg).heap self).queue_ =
      (env.heap self).queue_ ++ sv.ser (chatAck msg) ::
        (if sm.sessions_ cd.to_user_id = some self then
          [sv.ser (chatPush m (env.heap self).user_id_ cd.to_user_id cd.content sv.now)]
         else []) ∧
    (websocket_session.handle_message sv SaveMessage sm env self msg).rpc =
      env.rpc ++ [Rpc.SaveMessage (env.heap self).user_id_ cd.to_user_id cd.content sv.now] ∧
    (websocket_session.handle_message sv SaveMessage sm env self msg).redis.published =
      env.redis.published ++
        (sm.relay sv.ser env.redis
          (chatPush m (env.heap self).user_id_ cd.to_user_id cd.content sv.now)
          cd.to_user_id).toList ∧
    (∀ SaveMessage2 : Int → Int → Str → Int → Option Int,
      SaveMessage2 (env.heap self).user_id_ cd.to_user_id cd.content sv.now = none →
      ((websocket_session.handle_message sv SaveMessage2 sm env self msg).heap self).queue_ =
        (env.heap self).queue_ ++ [sv.ser (saveError msg)]) := by
  have hmain : websocket_session.handle_message sv SaveMessage sm env self msg =
      sm.send_to_user sv.ser
        (websocket_session.send_message sv.ser
          { env with rpc := env.rpc ++
            [Rpc.SaveMessage (env.heap self).user_id_ cd.to_user_id cd.content sv.now] }
          self (chatAck msg))
        cd.to_user_id
        (chatPush m (env.heap self).user_id_ cd.to_user_id cd.content sv.now) := by
    unfold websocket_session.handle_message
    simp [htype, hcd, hsave]
  obtain ⟨_, _, hr, hp, hq⟩ := send_to_user_effect sv.ser sm
    (websocket_session.send_message sv.ser
      { env with rpc := env.rpc ++
        [Rpc.SaveMessage (env.heap self).user_id_ cd.to_user_id cd.content sv.now] }
      self (chatAck msg))
    cd.to_user_id (chatPush m (env.heap self).user_id_ cd.to_user_id cd.content sv.now)
  refine ⟨hmain, rfl, rfl, ?_, ?_, ?_, ?_⟩
  · rw [hmain, hq self]
    by_cases hs : sm.sessions_ cd.to_user_id = some self
    · simp [hs, websocket_session.send_message]
    · simp [hs, websocket_session.send_message]
  · rw [hmain, hr]
    rfl
  · rw [hmain, hp]
    rfl
  · intro SaveMessage2 hnone
    unfold websocket_session.handle_message
    simp [htype, hcd, hnone, websocket_session.send_message]

theorem C20_handle_chat_send_witness :
    demoSend.type = MessageType.CHAT_SEND ∧
    demoSend.chat_data = some (ChatData.mk 0 0 9 "hi".toList 0) ∧
    ((websocket_session.handle_message demoServices (fun _ _ _ _ => some 42) demoEdge
      demoSenderEnv 1 demoSend).heap 1).queue_ =
      (demoSenderEnv.heap 1).queue_ ++ demoServices.ser (chatAck demoSend) ::
        (if demoEdge.sessions_ (ChatData.mk 0 0 9 "hi".toList 0).to_user_id = some 1 then
          [demoServices.ser (chatPush 42 (demoSenderEnv.heap 1).user_id_
            (ChatData.mk 0 0 9 "hi".toList 0).to_user_id
            (ChatData.mk 0 0 9 "hi".toList 0).content demoServices.now)]
         else []) :=
  ⟨by decide, by decide,
    (C20_handle_chat_send demoServices (fun _ _ _ _ => some 42) demoEdge demoSenderEnv 1
      demoSend (ChatData.mk 0 0 9 "hi".toList 0) 42 (by decide) (by decide) rfl).2.2.2.1⟩

/-- C21: let a session receive a CHAT_SEND frame with `chat_data` and let
`ChatClient::SaveMessage` return false (the store reports failure or the call
fails). Then `handle_message` pushes exactly one frame on the sender's queue:
type UNKNOWN, the request id of the frame, and the error text `"Failed to save
message"`, which is not empty. It is no CHAT_ACK, no other session object
changes and no Redis command is issued, so no CHAT_PUSH is enqueued or
published for anybody. -/
theorem C21_failed_save_sends_error_only (sv : Services)
    (SaveMessage : Int → Int → Str → Int → Option Int) (sm : SessionManager) (env : Env)
    (self : Nat) (msg : GatewayMessage) (cd : ChatData)
    (htype : msg.type = MessageType.CHAT_SEND) (hcd : msg.chat_data = some cd)
    (hfail : SaveMessage (env.heap self).user_id_ cd.to_user_id cd.content sv.now = none) :
    ((websocket_session.handle_message sv SaveMessage sm env self msg).heap self).queue_ =
      (env.heap self).queue_ ++ [sv.ser (saveError msg)] ∧
    (∀ s, s ≠ self →
      (websocket_session.handle_message sv SaveMessage sm env self msg).heap s = env.heap s) ∧
    (websocket_session.handle_message sv SaveMessage sm env self msg).redis = env.redis ∧
    (websocket_session.handle_message sv SaveMessage sm env self msg).rpc =
      env.rpc ++ [Rpc.SaveMessage (env.heap self).user_id_ cd.to_user_id cd.content sv.now] ∧
    (saveError msg).type = MessageType.UNKNOWN ∧
    (saveError msg).request_id = msg.request_id ∧
    (saveError msg).error ≠ [] ∧
    (saveError msg).chat_data = none ∧
    saveError msg ≠ chatAck msg := by
  have hmain : websocket_session.handle_message sv SaveMessage sm env self msg =
      websocket_session.send_message sv.ser
        { env with rpc := env.rpc ++
          [Rpc.SaveMessage (env.heap self).user_id_ cd.to_user_id cd.content sv.now] }
        self (saveError msg) := by
    unfold websocket_session.handle_message
    simp [htype, hcd, hfail]
  rw [hmain]
  refine ⟨by simp [websocket_session.send_message], ?_, rfl, rfl, rfl, rfl,
    by simp [saveError], rfl, ?_⟩
  · intro s hs
    simp [websocket_session.send_message, Function.update_noteq hs]
  · intro h
    have := congrArg GatewayMessage.type h
    simp [saveError, chatAck] at this

theorem C21_failed_save_sends_error_only_witness :
    demoSend.type = MessageType.CHAT_SEND ∧
    demoSend.chat_data = some (ChatData.mk 0 0 9 "hi".toList 0) ∧
    ((websocket_session.handle_message demoServices (fun _ _ _ _ => none) demoEdge
      demoSenderEnv 1 demoSend).heap 1).queue_ =
      (demoSenderEnv.heap 1).queue_ ++ [demoServices.ser (saveError demoSend)] :=
  ⟨by decide, by decide,
    (C21_failed_save_sends_error_only demoServices (fun _ _ _ _ => none) demoEdge demoSenderEnv 1
      demoSend (ChatData.mk 0 0 9 "hi".toList 0) (by decide) (by decide) rfl).1⟩

/-- C29: let two frames of the same type and request id be handled on the same
session in the same state, both carrying `chat_data` with the same recipient
and content; the other fields of `chat_data` (`from_user_id`, `msg_id`,
`timestamp`) may differ. Then `handle_message` does the same for both: the same
`SaveMessage` call, whose sender is the `user_id_` of the session, the same
frames pushed and published, the CHAT_PUSH having `from_user_id = user_id_`.
And `user_id_` is the user id `VerifyToken` returned when `run` accepted the
token. -/
theorem C29_sender_is_session_user (sv : Services)
    (SaveMessage : Int → Int → Str → Int → Option Int) (sm : SessionManager) (env : Env)
    (self : Nat) (msg1 msg2 : GatewayMessage) (cd1 cd2 : ChatData)
    (htype : msg1.type = msg2.type) (hreq : msg1.request_id = msg2.request_id)
    (h1 : msg1.chat_data = some cd1) (h2 : msg2.chat_data = some cd2)
    (hto : cd1.to_user_id = cd2.to_user_id) (hcontent : cd1.content = cd2.content) :
    websocket_session.handle_message sv SaveMessage sm env self msg1 =
      websocket_session.handle_message sv SaveMessage sm env self msg2 ∧
    (msg1.type = MessageType.CHAT_SEND →
      (websocket_session.handle_message sv SaveMessage sm env self msg1).rpc =
        env.rpc ++
          [Rpc.SaveMessage (env.heap self).user_id_ cd1.to_user_id cd1.content sv.now] ∧
      (∀ m, SaveMessage (env.heap self).user_id_ cd1.to_user_id cd1.content sv.now = some m →
        websocket_session.handle_message sv SaveMessage sm env self msg1 =
          sm.send_to_user sv.ser
            (websocket_session.send_message sv.ser
              { env with rpc := env.rpc ++
                [Rpc.SaveMessage (env.heap self).user_id_ cd1.to_user_id cd1.content sv.now] }
              self (chatAck msg1))
            cd1.to_user_id
            (GatewayMessage.mk MessageType.CHAT_PUSH [] []
              (some (ChatData.mk m (env.heap self).user_id_ cd1.to_user_id cd1.content sv.now))
              none))) ∧
    (∀ (env0 : Env) (target : Str) (uid : Int), extractToken target ≠ [] →
      sv.VerifyToken (extractToken target) = some uid →
      ((websocket_session.run sv.VerifyToken env0 self target).heap self).user_id_ = uid) := by
  refine ⟨?_, ?_, ?_⟩
  · unfold websocket_session.handle_message
    simp only [htype, h1, h2, Option.isSome_some, Option.getD_some, hto, hcontent,
      chatAck, saveError, hreq]
  · intro hsend
    constructor
    · unfold websocket_session.handle_message
      cases hs : SaveMessage (env.heap self).user_id_ cd1.to_user_id cd1.content sv.now with
      | none => simp [hsend, h1, hs, websocket_session.send_message]
      | some m =>
        simp only [hsend, h1, Option.isSome_some, Option.getD_some, hs, and_self, if_true]
        exact (send_to_user_effect sv.ser sm _ _ _).2.2.1
    · intro m hs
      unfold websocket_session.handle_message
      simp [hsend, h1, hs, chatPush]
  · intro env0 target uid htok hver
    rw [run_of_good_token sv.VerifyToken env0 self target uid htok hver]
    simp

theorem C29_sender_is_session_user_witness :
    demoSend.type = demoSendForged.type ∧ demoSend.request_id = demoSendForged.request_id ∧
    websocket_session.handle_message demoServices (fun _ _ _ _ => some 42) demoEdge
        demoSenderEnv 1 demoSend =
      websocket_session.handle_message demoServices (fun _ _ _ _ => some 42) demoEdge
        demoSenderEnv 1 demoSendForged :=
  ⟨by decide, by decide,
    (C29_sender_is_session_user demoServices (fun _ _ _ _ => some 42) demoEdge demoSenderEnv 1
      demoSend demoSendForged (ChatData.mk 0 0 9 "hi".toList 0)
      (ChatData.mk 77 6 9 "hi".toList 123) (by decide) (by decide) (by decide) (by decide)
      (by decide) (by decide)).1⟩

/-! ## The token of an upgrade request -/

/-- Helper for C27: when `token=` first occurs where the parameter starts and
the value runs to the end of the target, `run` takes exactly the value. -/
theorem extractToken_last_parameter (pre T : Str)
    (h : findStr "token=".toList (pre ++ "token=".toList ++ T) = some pre.length) :
    extractToken (pre ++ "token=".toList ++ T) = T := by
  unfold extractToken
  rw [h]
  simp [List.append_assoc]

/-- C27, evaluated at targets with a second parameter: for
`/ws?token=abc&x=1` the token `run` gives to `VerifyToken` is `abc&x=1`, not
`abc`, while `parse_query` of the HTTP handlers returns `abc` for the same
target; for `/ws?xtoken=zzz&token=abc` it is `zzz&token=abc`. With the token
as the only parameter it is `abc`. -/
theorem C27_token_runs_to_end_of_target :
    extractToken "/ws?token=abc&x=1".toList = "abc&x=1".toList ∧
    (websocket_session.run demoServices.VerifyToken Env.init 1 "/ws?token=abc&x=1".toList).rpc
      = [Rpc.VerifyToken "abc&x=1".toList] ∧
    parse_query "/ws?token=abc&x=1".toList "token".toList = "abc".toList ∧
    extractToken "/ws?xtoken=zzz&token=abc".toList = "zzz&token=abc".toList ∧
    extractToken "/ws?token=abc".toList = "abc".toList := by
  decide

/-! ## Teardown of a displaced session -/

theorem Logout_hash (ser : GatewayMessage → Str) (GF : Int → List Int) (r : Redis) (u : Int) :
    (StatusServiceImpl.Logout ser GF r u).2.hash = r.hash := by
  unfold StatusServiceImpl.Logout
  exact (friendLoop_keys ser u 0 (GF u) _).2.1

theorem logoutTask_hash (sv : Services) (sm : SessionManager) (env : Env) (uid : Int) :
    (websocket_session.logoutTask sv sm env uid).redis.hash = env.redis.hash := by
  rw [logoutTask_unfold]
  obtain ⟨_, hh, _, _, _⟩ := relayLoop_effect sv.ser sm (statusUpdate uid 0 sv.now)
    (StatusServiceImpl.Logout sv.ser sv.GetFriendIds env.redis uid).1.online_friend_ids
    { heap := env.heap,
      redis := (StatusServiceImpl.Logout sv.ser sv.GetFriendIds env.redis uid).2,
      rpc := env.rpc ++ [Rpc.StatusLogout uid []] }
  exact hh.trans (Logout_hash sv.ser sv.GetFriendIds env.redis uid)

/-- C28, as stated, fails: user 5 connects to edge `"1"` with session 1 and
then with session 2, which takes its place in the table. When session 1 is
destroyed, user 5 has no registered session left, its directory entry is gone,
and a frame sent to user 5 is pushed on no queue. -/
theorem C28_teardown_unregisters_successor :
    demoDisplaced.1.sessions_ 5 = some 2 ∧
    demoDisplaced.2.redis.directory 5 = some "1".toList ∧
    (websocket_session.destroy demoServices demoDisplaced.1 demoDisplaced.2 1).1.sessions_ 5
      = none ∧
    (websocket_session.destroy demoServices demoDisplaced.1 demoDisplaced.2
      1).2.redis.directory 5 = none ∧
    (((websocket_session.destroy demoServices demoDisplaced.1 demoDisplaced.2
      1).1.send_to_user demoSer
        (websocket_session.destroy demoServices demoDisplaced.1 demoDisplaced.2 1).2
        5 demoFrame).heap 2).queue_ =
      ((websocket_session.destroy demoServices demoDisplaced.1 demoDisplaced.2 1).2.heap
        2).queue_ := by
  decide

/-- C28, amended: after `join(u, s1)` and `join(u, s2)` on one edge, the
destructor of `s1` (a session of user `u`) runs `leave(u)`, which removes the
table entry of `u`, now `s2`, and the directory entry of `u`. Afterwards `u`
has no registered session on the edge, `user_gateway[u]` is absent, and with
that table and directory `send_to_user(u, m)` changes no session object and
publishes nothing: the frame does not reach `s2`. -/
theorem C28_teardown_of_displaced_session (sv : Services) (sm : SessionManager) (env : Env)
    (u : Int) (s1 s2 : Nat) (hid : (env.heap s1).user_id_ = u) (hu : u ≠ 0) :
    ((sm.join env u s1).1.join (sm.join env u s1).2 u s2).1.sessions_ u = some s2 ∧
    (websocket_session.destroy sv ((sm.join env u s1).1.join (sm.join env u s1).2 u s2).1
      ((sm.join env u s1).1.join (sm.join env u s1).2 u s2).2 s1).1.sessions_ u = none ∧
    (websocket_session.destroy sv ((sm.join env u s1).1.join (sm.join env u s1).2 u s2).1
      ((sm.join env u s1).1.join (sm.join env u s1).2 u s2).2 s1).2.redis.directory u = none ∧
    (∀ (e : Env) (m : GatewayMessage), e.redis.directory u = none →
      ((websocket_session.destroy sv ((sm.join env u s1).1.join (sm.join env u s1).2 u s2).1
        ((sm.join env u s1).1.join (sm.join env u s1).2 u s2).2 s1).1.send_to_user sv.ser e u
          m).heap = e.heap ∧
      ((websocket_session.destroy sv ((sm.join env u s1).1.join (sm.join env u s1).2 u s2).1
        ((sm.join env u s1).1.join (sm.join env u s1).2 u s2).2 s1).1.send_to_user sv.ser e u
          m).redis.published = e.redis.published) := by
  have hheap : (((sm.join env u s1).1.join (sm.join env u s1).2 u s2).2.heap s1).user_id_ = u :=
    hid
  have hd : websocket_session.destroy sv ((sm.join env u s1).1.join (sm.join env u s1).2 u s2).1
      ((sm.join env u s1).1.join (sm.join env u s1).2 u s2).2 s1 =
      ((((sm.join env u s1).1.join (sm.join env u s1).2 u s2).1.leave
          ((sm.join env u s1).1.join (sm.join env u s1).2 u s2).2 u).1,
        websocket_session.logoutTask sv
          (((sm.join env u s1).1.join (sm.join env u s1).2 u s2).1.leave
            ((sm.join env u s1).1.join (sm.join env u s1).2 u s2).2 u).1
          (((sm.join env u s1).1.join (sm.join env u s1).2 u s2).1.leave
            ((sm.join env u s1).1.join (sm.join env u s1).2 u s2).2 u).2 u) := by
    unfold websocket_session.destroy
    simp [hheap, hu]
  have hnone : (websocket_session.destroy sv
      ((sm.join env u s1).1.join (sm.join env u s1).2 u s2).1
      ((sm.join env u s1).1.join (sm.join env u s1).2 u s2).2 s1).1.sessions_ u = none := by
    rw [hd]
    simp [SessionManager.leave]
  refine ⟨by simp [SessionManager.join], hnone, ?_, ?_⟩
  · rw [hd]
    simp only []
    unfold Redis.directory
    rw [logoutTask_hash]
    have := directory_HDel ((sm.join env u s1).1.join (sm.join env u s1).2 u s2).2.redis u u
    simp only [if_true] at this
    exact this
  · intro e m hdir
    have hg : e.redis.hash user_gateway (to_string u) = none := hdir
    simp [SessionManager.send_to_user, hnone, Redis.HGet, hg, Redis.published,
      List.filterMap_append]

theorem C28_teardown_of_displaced_session_witness :
    (demoSenderEnv.heap 1).user_id_ = 5 ∧ (5 : Int) ≠ 0 ∧
    (websocket_session.destroy demoServices
      ((demoEdgeEmpty.join demoSenderEnv 5 1).1.join (demoEdgeEmpty.join demoSenderEnv 5 1).2
        5 2).1
      ((demoEdgeEmpty.join demoSenderEnv 5 1).1.join (demoEdgeEmpty.join demoSenderEnv 5 1).2
        5 2).2 1).1.sessions_ 5 = none :=
  ⟨by decide, by decide,
    (C28_teardown_of_displaced_session demoServices demoEdgeEmpty demoSenderEnv 5 1 2
      (by decide) (by decide)).2.1⟩

/-! ## The write pump -/

theorem WriteQueue.runFrom_snoc (q : WriteQueue) (steps : List QStep) (s : QStep) :
    WriteQueue.runFrom q (steps ++ [s]) = (WriteQueue.runFrom q steps).step s := by
  simp [WriteQueue.runFrom, List.foldl_append]

theorem QStep.enqueued_snoc (steps : List QStep) (s : QStep) :
    QStep.enqueued (steps ++ [s]) = QStep.enqueued steps ++ QStep.enqueued [s] := by
  simp [QStep.enqueued, List.filterMap_append]

/-- What one step preserves, whether writes fail or not: the frames passed to
the socket followed by the frames waiting behind the front of the deque are
the frames enqueued, and a write is outstanding only for a non-empty deque, one
at most. -/
theorem WriteQueue.step_safe (q : WriteQueue) (s : QStep) (enq : List Str)
    (h1 : q.written ++ q.queue_.tail = enq) (h2 : q.inflight ≤ 1)
    (h3 : q.inflight = 1 → q.queue_ ≠ []) :
    (q.step s).written ++ (q.step s).queue_.tail = enq ++ QStep.enqueued [s] ∧
    (q.step s).inflight ≤ 1 ∧ ((q.step s).inflight = 1 → (q.step s).queue_ ≠ []) := by
  obtain ⟨queue, written, inflight⟩ := q
  simp only at h1 h2 h3
  cases s with
  | on_send m =>
    cases queue with
    | nil =>
      have h0 : inflight = 0 := by
        rcases Nat.le_one_iff_eq_zero_or_eq_one.mp h2 with h | h
        · exact h
        · exact absurd rfl (h3 h)
      subst h0
      simp [WriteQueue.step, WriteQueue.on_send, WriteQueue.do_write, QStep.enqueued] at h1 ⊢
      exact h1
    | cons a t =>
      simp [WriteQueue.step, WriteQueue.on_send, QStep.enqueued] at h1 ⊢
      exact ⟨by rw [← h1]; simp, h2⟩
  | on_write ec =>
    by_cases hin : inflight = 0
    · subst hin
      simp [WriteQueue.step, QStep.enqueued]
      exact h1
    · have hone : inflight = 1 := by omega
      subst hone
      cases queue with
      | nil => exact absurd rfl (h3 rfl)
      | cons a t =>
        cases ec with
        | true =>
          simp [WriteQueue.step, WriteQueue.on_write, QStep.enqueued] at h1 ⊢
          exact h1
        | false =>
          cases t with
          | nil =>
            simp [WriteQueue.step, WriteQueue.on_write, QStep.enqueued] at h1 ⊢
            exact h1
          | cons b t2 =>
            simp [WriteQueue.step, WriteQueue.on_write, WriteQueue.do_write,
              QStep.enqueued] at h1 ⊢
            exact h1

theorem WriteQueue.run_safe (steps : List QStep) :
    (WriteQueue.run steps).written ++ (WriteQueue.run steps).queue_.tail
      = QStep.enqueued steps ∧
    (WriteQueue.run steps).inflight ≤ 1 ∧
    ((WriteQueue.run steps).inflight = 1 → (WriteQueue.run steps).queue_ ≠ []) := by
  induction steps using List.reverseRecOn with
  | nil => simp [WriteQueue.run, WriteQueue.runFrom, QStep.enqueued]
  | append_singleton xs x ih =>
    obtain ⟨h1, h2, h3⟩ := ih
    have := WriteQueue.step_safe (WriteQueue.run xs) x (QStep.enqueued xs) h1 h2 h3
    unfold WriteQueue.run at this ⊢
    rw [WriteQueue.runFrom_snoc, QStep.enqueued_snoc]
    exact this

/-- While no write fails, a write is outstanding whenever the deque is not
empty. -/
theorem WriteQueue.step_busy (q : WriteQueue) (s : QStep) (hs : s ≠ QStep.on_write true)
    (h2 : q.inflight ≤ 1) (h3 : q.queue_ ≠ [] → q.inflight = 1)
    (h4 : q.inflight = 1 → q.queue_ ≠ []) :
    (q.step s).queue_ ≠ [] → (q.step s).inflight = 1 := by
  obtain ⟨queue, written, inflight⟩ := q
  simp only at h2 h3 h4
  cases s with
  | on_send m =>
    cases queue with
    | nil =>
      have h0 : inflight = 0 ∨ inflight = 1 := Nat.le_one_iff_eq_zero_or_eq_one.mp h2
      rcases h0 with h | h
      · subst h
        simp [WriteQueue.step, WriteQueue.on_send, WriteQueue.do_write]
      · exact absurd rfl (h4 h)
    | cons a t =>
      have := h3 (by simp)
      subst this
      simp [WriteQueue.step, WriteQueue.on_send]
  | on_write ec =>
    cases ec with
    | true => exact absurd rfl hs
    | false =>
      cases queue with
      | nil =>
        by_cases hin : inflight = 0
        · simp [WriteQueue.step, hin]
        · simp [WriteQueue.step, hin, WriteQueue.on_write]
      | cons a t =>
        have := h3 (by simp)
        subst this
        cases t with
        | nil => simp [WriteQueue.step, WriteQueue.on_write]
        | cons b t2 => simp [WriteQueue.step, WriteQueue.on_write, WriteQueue.do_write]

theorem WriteQueue.run_busy (steps : List QStep) (hok : ∀ s ∈ steps, s ≠ QStep.on_write true) :
    (WriteQueue.run steps).queue_ ≠ [] → (WriteQueue.run steps).inflight = 1 := by
  induction steps using List.reverseRecOn with
  | nil => simp [WriteQueue.run, WriteQueue.runFrom]
  | append_singleton xs x ih =>
    have ih2 := ih (fun s hs => hok s (List.mem_append_left _ hs))
    have hx := hok x (by simp)
    have := WriteQueue.step_busy (WriteQueue.run xs) x hx (WriteQueue.run_safe xs).2.1 ih2
      (WriteQueue.run_safe xs).2.2
    unfold WriteQueue.run at this ⊢
    rw [WriteQueue.runFrom_snoc]
    exact this

/-- From a state with a write outstanding for a non-empty deque, as many
successful completions as the deque has frames write all of them, in order,
and leave the deque empty with no write outstanding. -/
theorem WriteQueue.drain (n : Nat) : ∀ (q : WriteQueue), q.queue_.length = n →
    (q.queue_ ≠ [] → q.inflight = 1) → (q.queue_ = [] → q.inflight = 0) →
    (WriteQueue.runFrom q (List.replicate n (QStep.on_write false))).queue_ = [] ∧
    (WriteQueue.runFrom q (List.replicate n (QStep.on_write false))).written
      = q.written ++ q.queue_.tail ∧
    (WriteQueue.runFrom q (List.replicate n (QStep.on_write false))).inflight = 0 := by
  induction n with
  | zero =>
    intro q hlen _ h0
    have hq : q.queue_ = [] := List.length_eq_zero.mp hlen
    simp [WriteQueue.runFrom, hq, h0 hq]
  | succ k ih =>
    intro q hlen h1 _
    obtain ⟨queue, written, inflight⟩ := q
    simp only at hlen h1
    cases queue with
    | nil => simp at hlen
    | cons a t =>
      have hin := h1 (by simp)
      subst hin
      have hk : t.length = k := by simpa using hlen
      cases t with
      | nil =>
        subst hk
        simp [WriteQueue.runFrom, WriteQueue.step, WriteQueue.on_write]
      | cons b t2 =>
        have := ih (WriteQueue.mk (b :: t2) (written ++ [b]) 1) hk (by simp) (by simp)
        simp only [List.replicate_succ, WriteQueue.runFrom, List.foldl_cons] at this ⊢
        have hstep : WriteQueue.step (WriteQueue.mk (a :: b :: t2) written 1)
            (QStep.on_write false) = WriteQueue.mk (b :: t2) (written ++ [b]) 1 := by
          simp [WriteQueue.step, WriteQueue.on_write, WriteQueue.do_write]
        rw [hstep]
        simpa using this

/-- C22: per-session FIFO of the write pump. For every sequence of `on_send`
and `on_write` steps, failed writes included, at most one write is outstanding
and the frames passed to the socket, followed by the frames waiting behind the
front of the deque, are the frames enqueued, in order, each once. When no
write fails, a write is outstanding exactly while the deque is non-empty, and
after as many further completions as the deque holds frames the frames passed
to the socket are exactly the frames enqueued and nothing is outstanding. -/
theorem C22_write_queue_fifo (steps : List QStep) :
    (WriteQueue.run steps).inflight ≤ 1 ∧
    (WriteQueue.run steps).written ++ (WriteQueue.run steps).queue_.tail
      = QStep.enqueued steps ∧
    ((∀ s ∈ steps, s ≠ QStep.on_write true) →
      ((WriteQueue.run steps).inflight = 1 ↔ (WriteQueue.run steps).queue_ ≠ []) ∧
      ((WriteQueue.run steps).queue_.length ≤ 1 →
        (WriteQueue.run steps).written = QStep.enqueued steps) ∧
      (WriteQueue.run (steps ++ List.replicate (WriteQueue.run steps).queue_.length
        (QStep.on_write false))).written = QStep.enqueued steps ∧
      (WriteQueue.run (steps ++ List.replicate (WriteQueue.run steps).queue_.length
        (QStep.on_write false))).queue_ = [] ∧
      (WriteQueue.run (steps ++ List.replicate (WriteQueue.run steps).queue_.length
        (QStep.on_write false))).inflight = 0) := by
  obtain ⟨h1, h2, h3⟩ := WriteQueue.run_safe steps
  refine ⟨h2, h1, ?_⟩
  intro hok
  have hb := WriteQueue.run_busy steps hok
  have hsplit : ∀ n, WriteQueue.run (steps ++ List.replicate n (QStep.on_write false))
      = WriteQueue.runFrom (WriteQueue.run steps) (List.replicate n (QStep.on_write false)) := by
    intro n
    simp [WriteQueue.run, WriteQueue.runFrom, List.foldl_append]
  have hzero : (WriteQueue.run steps).queue_ = [] → (WriteQueue.run steps).inflight = 0 := by
    intro hq
    rcases Nat.le_one_iff_eq_zero_or_eq_one.mp h2 with h | h
    · exact h
    · exact absurd hq (h3 h)
  obtain ⟨d1, d2, d3⟩ := WriteQueue.drain (WriteQueue.run steps).queue_.length
    (WriteQueue.run steps) rfl hb hzero
  refine ⟨⟨h3, hb⟩, ?_, ?_, ?_, ?_⟩
  · intro hlen
    have ht : (WriteQueue.run steps).queue_.tail = [] := by
      cases hq : (WriteQueue.run steps).queue_ with
      | nil => rfl
      | cons a t =>
        rw [hq] at hlen
        have : t.length = 0 := by simpa using hlen
        simpa using List.length_eq_zero.mp this
    rw [ht, List.append_nil] at h1
    exact h1
  · rw [hsplit, d2, h1]
  · rw [hsplit, d1]
  · rw [hsplit, d3]

theorem C22_write_queue_fifo_witness :
    (∀ s ∈ [QStep.on_send "a".toList, QStep.on_send "b".toList, QStep.on_write false,
      QStep.on_send "c".toList], s ≠ QStep.on_write true) ∧
    (WriteQueue.run [QStep.on_send "a".toList, QStep.on_send "b".toList, QStep.on_write false,
      QStep.on_send "c".toList]).queue_ = ["b".toList, "c".toList] ∧
    (WriteQueue.run [QStep.on_send "a".toList, QStep.on_send "b".toList, QStep.on_write false,
      QStep.on_send "c".toList]).written = ["a".toList, "b".toList] ∧
    (WriteQueue.run ([QStep.on_send "a".toList, QStep.on_send "b".toList, QStep.on_write false,
      QStep.on_send "c".toList] ++ List.replicate (WriteQueue.run [QStep.on_send "a".toList,
        QStep.on_send "b".toList, QStep.on_write false,
        QStep.on_send "c".toList]).queue_.length (QStep.on_write false))).written
      = QStep.enqueued [QStep.on_send "a".toList, QStep.on_send "b".toList,
          QStep.on_write false, QStep.on_send "c".toList] :=
  ⟨by decide, by decide, by decide,
    ((C22_write_queue_fifo [QStep.on_send "a".toList, QStep.on_send "b".toList,
      QStep.on_write false, QStep.on_send "c".toList]).2.2 (by decide)).2.2.1⟩

/-! ## ACK order and the worker pool -/

theorem Pool.run_then_step (workers : Nat) (steps : List PoolStep) (s : PoolStep) :
    Pool.run workers (steps ++ [s]) = (Pool.run workers steps).step workers s := by
  simp [Pool.run, List.foldl_append]

/-- With one thread, a step keeps the CHAT_SEND frames in order of arrival
across the three stages. -/
theorem Pool.step_single (p : Pool) (s : PoolStep) (rcv : List GatewayMessage)
    (h1 : p.running.length ≤ 1)
    (h2 : p.handled.filter GatewayMessage.isChatSend ++ p.running ++ p.pending
      = rcv.filter GatewayMessage.isChatSend) :
    (p.step 1 s).running.length ≤ 1 ∧
    (p.step 1 s).handled.filter GatewayMessage.isChatSend ++ (p.step 1 s).running
      ++ (p.step 1 s).pending
      = (rcv ++ PoolStep.received [s]).filter GatewayMessage.isChatSend := by
  obtain ⟨pending, running, handled⟩ := p
  simp only at h1 h2
  rw [List.filter_append, ← h2]
  cases s with
  | recv msg =>
    by_cases hc : msg.isChatSend = true
    · simp [Pool.step, hc, PoolStep.received, h1]
    · simp [Pool.step, hc, PoolStep.received, h1]
  | start =>
    cases pending with
    | nil => simp [Pool.step, PoolStep.received, h1]
    | cons m rest =>
      cases running with
      | nil => simp [Pool.step, PoolStep.received]
      | cons r rs =>
        have hrs : rs = [] := by
          have : rs.length = 0 := by simpa using h1
          exact List.length_eq_zero.mp this
        subst hrs
        simp [Pool.step, PoolStep.received]
  | finish k =>
    cases running with
    | nil => simp [Pool.step, PoolStep.received]
    | cons r rs =>
      have hrs : rs = [] := by
        have : rs.length = 0 := by simpa using h1
        exact List.length_eq_zero.mp this
      subst hrs
      have hmem : r ∈ rcv.filter GatewayMessage.isChatSend := by
        rw [← h2]
        simp
      have hc : r.isChatSend = true := (List.mem_filter.mp hmem).2
      cases k with
      | zero => simp [Pool.step, PoolStep.received, List.filter_cons, hc]
      | succ j => simp [Pool.step, PoolStep.received]

theorem Pool.run_single (steps : List PoolStep) :
    (Pool.run 1 steps).running.length ≤ 1 ∧
    (Pool.run 1 steps).handled.filter GatewayMessage.isChatSend ++ (Pool.run 1 steps).running
      ++ (Pool.run 1 steps).pending
      = (PoolStep.received steps).filter GatewayMessage.isChatSend := by
  induction steps using List.reverseRecOn with
  | nil => simp [Pool.run, PoolStep.received]
  | append_singleton xs x ih =>
    have := Pool.step_single (Pool.run 1 xs) x (PoolStep.received xs) ih.1 ih.2
    rw [Pool.run_then_step]
    have hr : PoolStep.received (xs ++ [x]) = PoolStep.received xs ++ PoolStep.received [x] := by
      simp [PoolStep.received, List.filterMap_append]
    rw [hr]
    exact this

/-- Every frame in the pool or handled was received, for every number of
threads. -/
theorem Pool.run_mem (workers : Nat) (steps : List PoolStep) :
    ∀ m, m ∈ (Pool.run workers steps).handled ∨ m ∈ (Pool.run workers steps).running ∨
      m ∈ (Pool.run workers steps).pending → m ∈ PoolStep.received steps := by
  induction steps using List.reverseRecOn with
  | nil => simp [Pool.run]
  | append_singleton xs x ih =>
    intro m
    rw [Pool.run_then_step]
    have hr : PoolStep.received (xs ++ [x]) = PoolStep.received xs ++ PoolStep.received [x] := by
      simp [PoolStep.received, List.filterMap_append]
    rw [hr, List.mem_append]
    generalize Pool.run workers xs = p at ih
    obtain ⟨pending, running, handled⟩ := p
    have ih1 : m ∈ handled → m ∈ PoolStep.received xs := fun h => ih m (Or.inl h)
    have ih2 : m ∈ running → m ∈ PoolStep.received xs := fun h => ih m (Or.inr (Or.inl h))
    have ih3 : m ∈ pending → m ∈ PoolStep.received xs := fun h => ih m (Or.inr (Or.inr h))
    cases x with
    | recv msg =>
      have hs : PoolStep.received [PoolStep.recv msg] = [msg] := rfl
      rw [hs]
      by_cases hc : msg.isChatSend = true
      · simp [Pool.step, hc]
        rintro (h | h | h | h)
        · exact Or.inl (ih1 h)
        · exact Or.inl (ih2 h)
        · exact Or.inl (ih3 h)
        · exact Or.inr h
      · simp [Pool.step, hc]
        rintro ((h | h) | h | h)
        · exact Or.inl (ih1 h)
        · exact Or.inr h
        · exact Or.inl (ih2 h)
        · exact Or.inl (ih3 h)
    | start =>
      intro h
      left
      cases pending with
      | nil =>
        simp [Pool.step] at h
        rcases h with h | h
        · exact ih1 h
        · exact ih2 h
      | cons a rest =>
        by_cases hw : running.length < workers
        · simp [Pool.step, hw] at h
          rcases h with h | (h | h) | h
          · exact ih1 h
          · exact ih2 h
          · exact ih3 (by simp [h])
          · exact ih3 (List.mem_cons_of_mem _ h)
        · simp [Pool.step, hw] at h
          rcases h with h | h | h | h
          · exact ih1 h
          · exact ih2 h
          · exact ih3 (by simp [h])
          · exact ih3 (List.mem_cons_of_mem _ h)
    | finish k =>
      intro h
      left
      cases hk : running[k]? with
      | none =>
        simp [Pool.step, hk] at h
        rcases h with h | h | h
        · exact ih1 h
        · exact ih2 h
        · exact ih3 h
      | some msg =>
        simp [Pool.step, hk] at h
        rcases h with (h | h) | h | h
        · exact ih1 h
        · exact ih2 (h ▸ List.getElem?_mem hk)
        · exact ih2 (List.mem_of_mem_eraseIdx h)
        · exact ih3 h

/-- A saved CHAT_SEND frame leaves the user of the sending session as it is and
puts the frames `ackFrames` on its queue. -/
theorem handle_chat_effect (sv : Services) (ids : Int → Int → Str → Int → Int)
    (sm : SessionManager) (env : Env) (self : Nat) (msg : GatewayMessage)
    (hc : msg.isChatSend = true) :
    ((websocket_session.handle_message sv (fun a b c d => some (ids a b c d)) sm env self
      msg).heap self).user_id_ = (env.heap self).user_id_ ∧
    ((websocket_session.handle_message sv (fun a b c d => some (ids a b c d)) sm env self
      msg).heap self).queue_ = (env.heap self).queue_ ++
        ackFrames sv ids sm (env.heap self).user_id_ self msg := by
  have hc2 : msg.type = MessageType.CHAT_SEND ∧ msg.chat_data.isSome = true := by
    simpa [GatewayMessage.isChatSend] using hc
  unfold websocket_session.handle_message
  rw [if_pos hc2]
  simp only []
  obtain ⟨_, _, _, _, hheap⟩ := send_to_user_effect sv.ser sm
    (websocket_session.send_message sv.ser
      { env with rpc := env.rpc ++ [Rpc.SaveMessage (env.heap self).user_id_
          (msg.chat_data.getD {}).to_user_id (msg.chat_data.getD {}).content sv.now] }
      self (chatAck msg))
    (msg.chat_data.getD {}).to_user_id
    (chatPush (ids (env.heap self).user_id_ (msg.chat_data.getD {}).to_user_id
        (msg.chat_data.getD {}).content sv.now)
      (env.heap self).user_id_ (msg.chat_data.getD {}).to_user_id
      (msg.chat_data.getD {}).content sv.now)
  rw [hheap self]
  unfold ackFrames
  by_cases hs : sm.sessions_ (msg.chat_data.getD {}).to_user_id = some self
  · simp [hs, websocket_session.send_message]
  · simp [hs, websocket_session.send_message]

theorem handle_chat_fold (sv : Services) (ids : Int → Int → Str → Int → Int)
    (sm : SessionManager) (self : Nat) (msgs : List GatewayMessage) :
    ∀ (env : Env), (∀ m ∈ msgs, GatewayMessage.isChatSend m = true) →
    ((msgs.foldl (fun e msg => websocket_session.handle_message sv
      (fun a b c d => some (ids a b c d)) sm e self msg) env).heap self).user_id_
        = (env.heap self).user_id_ ∧
    ((msgs.foldl (fun e msg => websocket_session.handle_message sv
      (fun a b c d => some (ids a b c d)) sm e self msg) env).heap self).queue_
        = (env.heap self).queue_ ++
          msgs.flatMap (ackFrames sv ids sm (env.heap self).user_id_ self) := by
  induction msgs with
  | nil => intro env _; simp
  | cons m rest ih =>
    intro env hall
    obtain ⟨e1, e2⟩ := handle_chat_effect sv ids sm env self m (hall m (by simp))
    obtain ⟨i1, i2⟩ := ih (websocket_session.handle_message sv
      (fun a b c d => some (ids a b c d)) sm env self m)
      (fun x hx => hall x (List.mem_cons_of_mem _ hx))
    simp only [List.foldl_cons, List.flatMap_cons]
    rw [i1, i2, e1, e2, List.append_assoc]
    exact ⟨rfl, rfl⟩

/-- C23, as stated, fails for the pool of 4 threads: the session of user 5
sends the frames `r7` and `r8`, two threads take the two tasks, and the
`SaveMessage` call for `r8` returns first. Both are saved; the ACK for `r8` is
enqueued before the ACK for `r7`. -/
theorem C23_ack_order_pool_of_four :
    PoolStep.received [PoolStep.recv demoSend, PoolStep.recv demoSendNext, PoolStep.start,
      PoolStep.start, PoolStep.finish 1, PoolStep.finish 0] = [demoSend, demoSendNext] ∧
    (Pool.run 4 [PoolStep.recv demoSend, PoolStep.recv demoSendNext, PoolStep.start,
      PoolStep.start, PoolStep.finish 1, PoolStep.finish 0])
      = { pending := [], running := [], handled := [demoSendNext, demoSend] } ∧
    ((Pool.env demoServices (fun _ _ _ _ => some 42) demoEdge demoSenderEnv 1
      (Pool.run 4 [PoolStep.recv demoSend, PoolStep.recv demoSendNext, PoolStep.start,
        PoolStep.start, PoolStep.finish 1, PoolStep.finish 0])).heap 1).queue_
      = [demoSer (chatAck demoSendNext), demoSer (chatAck demoSend)] ∧
    demoSer (chatAck demoSend) = "Xr7".toList ∧
    demoSer (chatAck demoSendNext) = "Xr8".toList := by
  decide

/-- C23, amended: with a single worker thread the CHAT_SEND frames pass
through the pool in order of arrival, for every sequence of events: at most
one `SaveMessage` call is running, and the frames handled, running and waiting
are, in this order, the frames received. When all received frames are
CHAT_SEND frames, all are saved and the pool is idle again, the frames enqueued
on the sending session are the ACKs in the order `r1, r2, ...` of the frames
(each followed by its push when the recipient's session is this one). With
more threads the ACKs are enqueued in the order in which the `SaveMessage`
calls return. -/
theorem C23_ack_order_single_worker (sv : Services) (ids : Int → Int → Str → Int → Int)
    (sm : SessionManager) (env : Env) (self : Nat) (steps : List PoolStep) :
    (Pool.run 1 steps).running.length ≤ 1 ∧
    (Pool.run 1 steps).handled.filter GatewayMessage.isChatSend ++ (Pool.run 1 steps).running
      ++ (Pool.run 1 steps).pending
      = (PoolStep.received steps).filter GatewayMessage.isChatSend ∧
    ((∀ m ∈ PoolStep.received steps, GatewayMessage.isChatSend m = true) →
      (Pool.run 1 steps).pending = [] → (Pool.run 1 steps).running = [] →
      (Pool.run 1 steps).handled = PoolStep.received steps ∧
      ((Pool.env sv (fun a b c d => some (ids a b c d)) sm env self
          (Pool.run 1 steps)).heap self).queue_
        = (env.heap self).queue_ ++
          (PoolStep.received steps).flatMap (ackFrames sv ids sm (env.heap self).user_id_ self))
    := by
  obtain ⟨h1, h2⟩ := Pool.run_single steps
  refine ⟨h1, h2, ?_⟩
  intro hall hp hr
  have hrec : (PoolStep.received steps).filter GatewayMessage.isChatSend
      = PoolStep.received steps := List.filter_eq_self.mpr hall
  rw [hp, hr, List.append_nil, List.append_nil, hrec] at h2
  have hh : (Pool.run 1 steps).handled = PoolStep.received steps := by
    have hsub : ∀ m ∈ (Pool.run 1 steps).handled, GatewayMessage.isChatSend m = true :=
      fun m hm => hall m (Pool.run_mem 1 steps m (Or.inl hm))
    rw [← h2]
    exact (List.filter_eq_self.mpr hsub).symm
  refine ⟨hh, ?_⟩
  unfold Pool.env
  rw [hh]
  exact (handle_chat_fold sv ids sm self (PoolStep.received steps) env hall).2


theorem C23_ack_order_single_worker_witness :
    (∀ m ∈ PoolStep.received demoPoolSteps, GatewayMessage.isChatSend m = true) ∧
    (Pool.run 1 demoPoolSteps).pending = [] ∧ (Pool.run 1 demoPoolSteps).running = [] ∧
    ((Pool.env demoServices (fun a b c d => some ((fun _ _ _ _ => 42) a b c d)) demoEdge
        demoSenderEnv 1 (Pool.run 1 demoPoolSteps)).heap 1).queue_
      = (demoSenderEnv.heap 1).queue_ ++
        (PoolStep.received demoPoolSteps).flatMap
          (ackFrames demoServices (fun _ _ _ _ => 42) demoEdge (demoSenderEnv.heap 1).user_id_ 1) :=
  ⟨by decide, by decide, by decide,
    ((C23_ack_order_single_worker demoServices (fun _ _ _ _ => 42) demoEdge demoSenderEnv 1
      demoPoolSteps).2.2 (by decide) (by decide) (by decide)).2⟩

/-! ## The list of recent sessions -/

theorem session_none_of_no_rows (db : ChatDB) (B p : Int)
    (h : ∀ r ∈ db.sessions, r.user_id ≠ B) : db.session B p = none := by
  unfold ChatDB.session
  rw [List.find?_eq_none]
  intro r hr
  simp [h r hr]

theorem filter_none_of_no_rows (l : List SessionRow) (B : Int)
    (h : ∀ r ∈ l, r.user_id ≠ B) : l.filter (fun r => decide (r.user_id = B)) = [] := by
  rw [List.filter_eq_nil_iff]
  intro r hr
  simp [h r hr]

/-- An upsert for a user without rows adds one row. -/
theorem UpsertSession_first_row (db : ChatDB) (B p : Int) (c : Str) (t : Int) (inc : Bool)
    (h : ∀ r ∈ db.sessions, r.user_id ≠ B) :
    (ChatServiceImpl.UpsertSession true db B p c t inc).sessions =
      db.sessions ++ [SessionRow.mk B p c t (if inc = true then 1 else 0)] ∧
    (ChatServiceImpl.UpsertSession true db B p c t inc).messages = db.messages := by
  unfold ChatServiceImpl.UpsertSession
  simp [session_none_of_no_rows db B p h]

/-- An upsert on an existing key rewrites the rows with that key. -/
theorem UpsertSession_existing (db : ChatDB) (u p : Int) (c : Str) (t : Int) (inc : Bool)
    (h : (db.session u p).isSome = true) :
    (ChatServiceImpl.UpsertSession true db u p c t inc).sessions =
      db.sessions.map (fun r => if r.user_id = u ∧ r.peer_id = p then
        SessionRow.mk r.user_id r.peer_id c t (if inc = true then r.unread_count + 1 else 0)
        else r) := by
  unfold ChatServiceImpl.UpsertSession
  simp [h]

/-- An upsert for another user leaves a user without rows without rows. -/
theorem UpsertSession_other_rows (ok : Bool) (db : ChatDB) (u p B : Int) (c : Str) (t : Int)
    (inc : Bool) (hu : u ≠ B) (h : ∀ r ∈ db.sessions, r.user_id ≠ B) :
    ∀ r ∈ (ChatServiceImpl.UpsertSession ok db u p c t inc).sessions, r.user_id ≠ B := by
  unfold ChatServiceImpl.UpsertSession
  intro r hr
  split at hr
  · exact h r hr
  · split at hr
    · simp only [List.mem_map] at hr
      obtain ⟨r0, hr0, he⟩ := hr
      split at he
      · rw [← he]
        exact h r0 hr0
      · rw [← he]
        exact h r0 hr0
    · simp only [List.mem_append, List.mem_singleton] at hr
      rcases hr with hr | hr
      · exact h r hr
      · rw [hr]
        exact hu

/-- What holds of `GetRecentSessions`: the reply is built from the rows of
`sessions` owned by the user, each as often as the table holds it, ordered by
`last_msg_timestamp` non-increasing. When B owns no row and the three
statements of `SaveMessage(A, B, c, t)` are applied, the call reports success
and `GetRecentSessions(B)` is exactly one session, with `peer_id = A`,
`last_msg_timestamp = t`, `unread_count = 1` and as content the bytes of `c`
before its first zero byte. -/
theorem GetRecentSessions_after_SaveMessage (db : ChatDB) (user A B : Int) (c : Str) (t : Int)
    (hB : ∀ r ∈ db.sessions, r.user_id ≠ B) :
    (ChatServiceImpl.GetRecentSessions db user).Perm
      ((db.sessions.filter fun r => decide (r.user_id = user)).map SessionRow.toSession) ∧
    (ChatServiceImpl.GetRecentSessions db user).Sorted
      (fun a b => a.last_msg_timestamp ≥ b.last_msg_timestamp) ∧
    (ChatServiceImpl.SaveMessage true true true db A B c t).1.success = true ∧
    (ChatServiceImpl.SaveMessage true true true db A B c t).1.msg_id > 0 ∧
    ChatServiceImpl.GetRecentSessions (ChatServiceImpl.SaveMessage true true true db A B c t).2 B
      = [Session.mk A (FetchResults.cell c) t 1] := by
  refine ⟨?_, ?_, ?_, ?_, ?_⟩
  · unfold ChatServiceImpl.GetRecentSessions
    exact (List.perm_insertionSort _ _).map _
  · unfold ChatServiceImpl.GetRecentSessions List.Sorted
    rw [List.pairwise_map]
    exact List.sorted_insertionSort
      (fun a b : SessionRow => a.last_msg_timestamp ≥ b.last_msg_timestamp) _
  · rw [SaveMessage_unfold]
  · rw [SaveMessage_unfold]
    simp only []
    omega
  · rw [SaveMessage_unfold]
    simp only []
    unfold ChatServiceImpl.GetRecentSessions
    by_cases hAB : A = B
    · subst hAB
      obtain ⟨h1, _⟩ := UpsertSession_first_row
        { db with messages := db.messages ++
            [MessageRow.mk (db.messages.length + 1) A A c (t.tdiv 1000)] } A A c t false hB
      have hs := session_UpsertSession
        { db with messages := db.messages ++
            [MessageRow.mk (db.messages.length + 1) A A c (t.tdiv 1000)] } A A c t false A A
      simp only [and_self, if_true] at hs
      have hmap : ∀ l : List SessionRow, (∀ r ∈ l, r.user_id ≠ A) →
          l.map (fun r => if r.user_id = A ∧ r.peer_id = A then
            SessionRow.mk r.user_id r.peer_id c t (if true = true then r.unread_count + 1 else 0)
            else r) = l := by
        intro l hl
        conv => rhs; rw [← List.map_id l]
        apply List.map_congr_left
        intro r hr
        simp [hl r hr]
      have hsess : (ChatServiceImpl.UpsertSession true
          (ChatServiceImpl.UpsertSession true
            { db with messages := db.messages ++
                [MessageRow.mk (db.messages.length + 1) A A c (t.tdiv 1000)] } A A c t false)
          A A c t true).sessions = db.sessions ++ [SessionRow.mk A A c t 1] := by
        rw [UpsertSession_existing _ A A c t true (by rw [hs]; rfl), h1, List.map_append,
          hmap db.sessions hB]
        simp
      rw [hsess, List.filter_append, filter_none_of_no_rows db.sessions A hB]
      simp [SessionRow.toSession]
    · have h2 := UpsertSession_other_rows true
        { db with messages := db.messages ++
            [MessageRow.mk (db.messages.length + 1) A B c (t.tdiv 1000)] } A B B c t false hAB hB
      obtain ⟨h3, _⟩ := UpsertSession_first_row
        (ChatServiceImpl.UpsertSession true
          { db with messages := db.messages ++
              [MessageRow.mk (db.messages.length + 1) A B c (t.tdiv 1000)] } A B c t false)
        B A c t true h2
      rw [h3, List.filter_append, filter_none_of_no_rows _ B h2]
      simp [SessionRow.toSession]

/-- C24, evaluated at a content with a zero byte: `SaveMessage(1, 2, c, 1234)`
with `c` the bytes `a`, zero, `b` on empty tables, all statements applied,
reports success and stores `c` whole in the session row of user 2, but
`GetRecentSessions(2)` returns `last_msg_content = "a"`, not `c`. For a content
without a zero byte (`"hi"`) the reply carries the content. And when the upsert
for the recipient is not applied, `SaveMessage` still reports success and
`GetRecentSessions(2)` is empty. -/
theorem C24_content_cut_at_zero_byte :
    (ChatServiceImpl.SaveMessage true true true ChatDB.empty 1 2 ['a', NUL, 'b']
      1234).1.success = true ∧
    (ChatServiceImpl.SaveMessage true true true ChatDB.empty 1 2 ['a', NUL, 'b']
      1234).2.session 2 1 = some (SessionRow.mk 2 1 ['a', NUL, 'b'] 1234 1) ∧
    ChatServiceImpl.GetRecentSessions
      (ChatServiceImpl.SaveMessage true true true ChatDB.empty 1 2 ['a', NUL, 'b'] 1234).2 2
      = [Session.mk 1 ['a'] 1234 1] ∧
    ChatServiceImpl.GetRecentSessions
      (ChatServiceImpl.SaveMessage true true true ChatDB.empty 1 2 ['a', NUL, 'b'] 1234).2 2
      ≠ [Session.mk 1 ['a', NUL, 'b'] 1234 1] ∧
    ChatServiceImpl.GetRecentSessions
      (ChatServiceImpl.SaveMessage true true true ChatDB.empty 1 2 "hi".toList 1234).2 2
      = [Session.mk 1 "hi".toList 1234 1] ∧
    (ChatServiceImpl.SaveMessage true true false ChatDB.empty 1 2 "hi".toList
      1234).1.success = true ∧
    ChatServiceImpl.GetRecentSessions
      (ChatServiceImpl.SaveMessage true true false ChatDB.empty 1 2 "hi".toList 1234).2 2
      = [] := by
  decide

/-! ## Timestamps of stored messages -/

theorem UpsertSession_messages (ok : Bool) (db : ChatDB) (u p : Int) (c : Str) (t : Int)
    (inc : Bool) : (ChatServiceImpl.UpsertSession ok db u p c t inc).messages = db.messages := by
  unfold ChatServiceImpl.UpsertSession
  split
  · rfl
  · split <;> rfl

theorem SaveMessage_messages (ok2 ok3 : Bool) (db : ChatDB) (A B : Int) (c : Str) (ts : Int) :
    (ChatServiceImpl.SaveMessage true ok2 ok3 db A B c ts).2.messages =
      db.messages ++ [MessageRow.mk (db.messages.length + 1) A B c (ts.tdiv 1000)] := by
  rw [SaveMessage_unfold]
  simp only []
  rw [UpsertSession_messages, UpsertSession_messages]

theorem GetHistory_rows (db : ChatDB) (u p limit : Int) (m : ChatMessage)
    (h : m ∈ ChatServiceImpl.GetHistory db u p limit) :
    ∃ r ∈ db.messages, m = r.toMessage := by
  unfold ChatServiceImpl.GetHistory at h
  split at h
  · simp at h
  · obtain ⟨r, hr, he⟩ := List.mem_map.mp h
    have h1 : r ∈ db.conversation u p :=
      (List.mem_insertionSort _).mp (List.mem_of_mem_take hr)
    exact ⟨r, (List.mem_filter.mp h1).1, he.symm⟩

theorem GetOfflineMessages_rows (db : ChatDB) (u : Int) (m : ChatMessage)
    (h : m ∈ ChatServiceImpl.GetOfflineMessages db u) :
    ∃ r ∈ db.messages, m = r.toMessage := by
  unfold ChatServiceImpl.GetOfflineMessages at h
  obtain ⟨sr, _, hm⟩ := List.mem_flatMap.mp h
  obtain ⟨r, hr, he⟩ := List.mem_map.mp hm
  exact ⟨r, ((unreadBlock_props db u sr).2.2.1 r hr).1, he.symm⟩

theorem GetHistory_complete (db : ChatDB) (u p limit : Int) (r : MessageRow)
    (hr : r ∈ db.messages)
    (hk : (r.from_id = u ∧ r.to_id = p) ∨ (r.from_id = p ∧ r.to_id = u))
    (hl : (db.messages.length : Int) ≤ limit) :
    r.toMessage ∈ ChatServiceImpl.GetHistory db u p limit := by
  unfold ChatServiceImpl.GetHistory
  have hn : ¬ limit < 0 := by omega
  rw [if_neg hn]
  have hlen : (byCreatedAsc (db.conversation u p)).length ≤ limit.toNat := by
    unfold byCreatedAsc ChatDB.conversation
    rw [List.length_insertionSort]
    have := List.length_filter_le (fun m : MessageRow =>
      decide ((m.from_id = u ∧ m.to_id = p) ∨ (m.from_id = p ∧ m.to_id = u))) db.messages
    omega
  rw [List.take_of_length_le hlen]
  apply List.mem_map_of_mem
  unfold byCreatedAsc
  rw [List.mem_insertionSort]
  unfold ChatDB.conversation
  exact List.mem_filter.mpr ⟨hr, by simpa using hk⟩

/-- C30: a message saved with timestamp `ts ≥ 0` (all three statements
applied) is stored as a row with `created_at = ts / 1000`; every message
`GetHistory` or `GetOfflineMessages` returns is a row of `messages` with its
timestamp `created_at * 1000` (and its content as `FetchResults` returns it),
so the saved message comes back with timestamp `(ts / 1000) * 1000`: it is in the history of the two users for every limit
that covers the table, and in `GetOfflineMessages` of the recipient when it is
the first message between the two. The two session rows carry
`last_msg_timestamp = ts`. The returned timestamp is at most `ts` and equals
`ts` exactly when `ts` is a multiple of 1000. -/
theorem C30_timestamps_truncated (db : ChatDB) (A B : Int) (c : Str) (ts : Int)
    (hts : 0 ≤ ts) :
    (ChatServiceImpl.SaveMessage true true true db A B c ts).2.messages =
      db.messages ++ [MessageRow.mk (db.messages.length + 1) A B c (ts / 1000)] ∧
    (MessageRow.mk (db.messages.length + 1) A B c (ts / 1000)).toMessage =
      ChatMessage.mk (db.messages.length + 1) A B (FetchResults.cell c) (ts / 1000 * 1000) ∧
    (∀ u p limit m, m ∈ ChatServiceImpl.GetHistory
        (ChatServiceImpl.SaveMessage true true true db A B c ts).2 u p limit →
      ∃ r ∈ (ChatServiceImpl.SaveMessage true true true db A B c ts).2.messages,
        m = r.toMessage) ∧
    (∀ u m, m ∈ ChatServiceImpl.GetOfflineMessages
        (ChatServiceImpl.SaveMessage true true true db A B c ts).2 u →
      ∃ r ∈ (ChatServiceImpl.SaveMessage true true true db A B c ts).2.messages,
        m = r.toMessage) ∧
    (∀ limit : Int, (db.messages.length : Int) + 1 ≤ limit →
      ChatMessage.mk (db.messages.length + 1) A B (FetchResults.cell c) (ts / 1000 * 1000) ∈
        ChatServiceImpl.GetHistory (ChatServiceImpl.SaveMessage true true true db A B c ts).2
          A B limit ∧
      ChatMessage.mk (db.messages.length + 1) A B (FetchResults.cell c) (ts / 1000 * 1000) ∈
        ChatServiceImpl.GetHistory (ChatServiceImpl.SaveMessage true true true db A B c ts).2
          B A limit) ∧
    (db.conversation B A = [] → 0 ≤ db.unread B A →
      ChatMessage.mk (db.messages.length + 1) A B (FetchResults.cell c) (ts / 1000 * 1000) ∈
        ChatServiceImpl.GetOfflineMessages
          (ChatServiceImpl.SaveMessage true true true db A B c ts).2 B) ∧
    ((ChatServiceImpl.SaveMessage true true true db A B c ts).2.session A B).map
      SessionRow.last_msg_timestamp = some ts ∧
    ((ChatServiceImpl.SaveMessage true true true db A B c ts).2.session B A).map
      SessionRow.last_msg_timestamp = some ts ∧
    ts / 1000 * 1000 ≤ ts ∧
    (ts / 1000 * 1000 = ts ↔ ts % 1000 = 0) := by
  have hdiv : ts.tdiv 1000 = ts / 1000 := Int.tdiv_eq_ediv hts (by decide)
  have hmsgs := SaveMessage_messages true true db A B c ts
  rw [hdiv] at hmsgs
  have hrow : MessageRow.mk (db.messages.length + 1) A B c (ts / 1000) ∈
      (ChatServiceImpl.SaveMessage true true true db A B c ts).2.messages := by
    rw [hmsgs]
    simp
  have hsB : (ChatServiceImpl.SaveMessage true true true db A B c ts).2.session B A =
      some (SessionRow.mk B A c ts
        ((ChatServiceImpl.UpsertSession true
          { db with messages := db.messages ++
              [MessageRow.mk (db.messages.length + 1) A B c (ts.tdiv 1000)] }
          A B c ts false).unread B A + 1)) := by
    rw [SaveMessage_unfold]
    simp only []
    rw [session_UpsertSession]
    simp
  refine ⟨hmsgs, rfl, ?_, ?_, ?_, ?_, ?_, ?_, by omega, by omega⟩
  · intro u p limit m hm
    exact GetHistory_rows _ u p limit m hm
  · intro u m hm
    exact GetOfflineMessages_rows _ u m hm
  · intro limit hl
    have hlen : (((ChatServiceImpl.SaveMessage true true true db A B c ts).2.messages.length :
        Nat) : Int) ≤ limit := by
      rw [hmsgs]
      simp only [List.length_append, List.length_singleton]
      push_cast
      exact hl
    exact ⟨GetHistory_complete _ A B limit _ hrow (Or.inl ⟨rfl, rfl⟩) hlen,
      GetHistory_complete _ B A limit _ hrow (Or.inr ⟨rfl, rfl⟩) hlen⟩
  · intro hconv hun
    have hunread : 0 ≤ (ChatServiceImpl.UpsertSession true
        { db with messages := db.messages ++
            [MessageRow.mk (db.messages.length + 1) A B c (ts.tdiv 1000)] }
        A B c ts false).unread B A := by
      rw [unread_UpsertSession]
      by_cases h : true = true ∧ B = A ∧ A = B
      · rw [if_pos h]
        simp
      · rw [if_neg h]
        exact hun
    obtain ⟨n, hn0, hsn⟩ : ∃ n : Int, 0 ≤ n ∧
        (ChatServiceImpl.SaveMessage true true true db A B c ts).2.session B A =
          some (SessionRow.mk B A c ts (n + 1)) := ⟨_, hunread, hsB⟩
    have hmemS := List.mem_of_find?_eq_some hsn
    unfold ChatServiceImpl.GetOfflineMessages
    rw [List.mem_flatMap]
    refine ⟨SessionRow.mk B A c ts (n + 1), ?_, ?_⟩
    · unfold ChatDB.unreadRows
      refine List.mem_filter.mpr ⟨hmemS, ?_⟩
      have hpos : n + 1 > 0 := by omega
      simp [hpos]
    · have hc : (ChatServiceImpl.SaveMessage true true true db A B c ts).2.conversation B A =
          [MessageRow.mk (db.messages.length + 1) A B c (ts / 1000)] := by
        unfold ChatDB.conversation at hconv ⊢
        rw [hmsgs, List.filter_append, hconv]
        simp
      unfold ChatDB.unreadBlock
      simp only [hc]
      have h1 : (1 : Nat) ≤ (n + 1).toNat := by omega
      have h2 : byCreatedDesc [MessageRow.mk (db.messages.length + 1) A B c (ts / 1000)] =
          [MessageRow.mk (db.messages.length + 1) A B c (ts / 1000)] := rfl
      rw [h2, List.take_of_length_le (by simpa using h1)]
      simp [MessageRow.toMessage]
  · rw [SaveMessage_unfold]
    simp only []
    rw [session_UpsertSession, session_UpsertSession]
    by_cases h : A = B ∧ B = A
    · rw [if_pos h]
      rfl
    · rw [if_neg h, if_pos ⟨rfl, rfl⟩]
      rfl
  · rw [hsB]
    rfl

theorem C30_timestamps_truncated_witness :
    (0 : Int) ≤ 1234 ∧
    ChatServiceImpl.GetOfflineMessages
      (ChatServiceImpl.SaveMessage true true true ChatDB.empty 1 2 "hi".toList 1234).2 2
      = [ChatMessage.mk 1 1 2 "hi".toList 1000] ∧
    ChatServiceImpl.GetHistory
      (ChatServiceImpl.SaveMessage true true true ChatDB.empty 1 2 "hi".toList 1234).2 2 1 50
      = [ChatMessage.mk 1 1 2 "hi".toList 1000] ∧
    ((ChatServiceImpl.SaveMessage true true true ChatDB.empty 1 2 "hi".toList 1234).2.session
      2 1).map SessionRow.last_msg_timestamp = some 1234 :=
  ⟨by decide, by decide, by decide,
    (C30_timestamps_truncated ChatDB.empty 1 2 "hi".toList 1234 (by decide)).2.2.2.2.2.2.2.1⟩

/-! ## Register, Login, VerifyToken -/

theorem GenerateToken_length (dis : Nat → Fin 62) : (GenerateToken dis).length = 32 := by
  simp [GenerateToken]

/-- C25: for a user name that no row of `users` carries, any password and any
salt, with the `INSERT` and `SETEX` applied: `Register` succeeds with
`user_id > 0`; `Login` with the same name and password on the tables after it
succeeds with a token of 32 characters and the same `user_id`; and
`VerifyToken` on that token, on the Redis server after `Login`, answers valid
with the same `user_id`. The id is taken to fit a `long long`. -/
theorem C25_register_login_verify (Hash : Str → Str → Str) (salt : Str) (dis : Nat → Fin 62)
    (db : AuthDB) (r : Redis) (username password : Str)
    (hnew : ∀ u ∈ db.users, u.username ≠ username)
    (hfit : (db.users.length : Int) + 1 ≤ LLONG_MAX) :
    (AuthServiceImpl.Register Hash salt true db username password).1.success = true ∧
    (AuthServiceImpl.Register Hash salt true db username password).1.user_id > 0 ∧
    (AuthServiceImpl.Login Hash dis true
      (AuthServiceImpl.Register Hash salt true db username password).2 r username
      password).1.success = true ∧
    (AuthServiceImpl.Login Hash dis true
      (AuthServiceImpl.Register Hash salt true db username password).2 r username
      password).1.token ≠ [] ∧
    (AuthServiceImpl.Login Hash dis true
      (AuthServiceImpl.Register Hash salt true db username password).2 r username
      password).1.token.length = 32 ∧
    (AuthServiceImpl.Login Hash dis true
      (AuthServiceImpl.Register Hash salt true db username password).2 r username
      password).1.user_id
      = (AuthServiceImpl.Register Hash salt true db username password).1.user_id ∧
    (AuthServiceImpl.VerifyToken
      (AuthServiceImpl.Login Hash dis true
        (AuthServiceImpl.Register Hash salt true db username password).2 r username password).2
      (AuthServiceImpl.Login Hash dis true
        (AuthServiceImpl.Register Hash salt true db username password).2 r username
        password).1.token).1
      = some { valid := true,
               user_id := (AuthServiceImpl.Register Hash salt true db username
                 password).1.user_id } := by
  have hfil : (db.users.filter fun u => decide (u.username = username)) = [] := by
    rw [List.filter_eq_nil_iff]
    intro u hu
    simp [hnew u hu]
  have hreg : AuthServiceImpl.Register Hash salt true db username password =
      ({ success := true, user_id := db.users.length + 1, error_msg := [] },
        { db with users := db.users ++
            [UserRow.mk (db.users.length + 1) username (Hash password salt) salt] }) := by
    unfold AuthServiceImpl.Register
    simp [hfil]
  have hlog : AuthServiceImpl.Login Hash dis true
      (AuthServiceImpl.Register Hash salt true db username password).2 r username password =
      ({ success := true, user_id := db.users.length + 1, token := GenerateToken dis,
         error_msg := [] },
        r.SetEx ("token:".toList ++ GenerateToken dis) (to_string ((db.users.length : Int) + 1))
          86400) := by
    rw [hreg]
    unfold AuthServiceImpl.Login
    simp only [List.filter_append, hfil, List.nil_append]
    simp
  have hlen := GenerateToken_length dis
  rw [hlog, hreg]
  refine ⟨rfl, ?_, rfl, ?_, hlen, rfl, ?_⟩
  · simp only []
    omega
  · intro h
    simp only [] at h
    rw [h] at hlen
    simp at hlen
  · simp only [AuthServiceImpl.VerifyToken, Redis.Get, Redis.SetEx, Function.update_same]
    rw [stoll_to_string _ (by unfold LLONG_MIN; omega) hfit]
    rfl

theorem C25_register_login_verify_witness :
    (∀ u ∈ AuthDB.empty.users, u.username ≠ "alice".toList) ∧
    ((AuthDB.empty.users.length : Int) + 1 ≤ LLONG_MAX) ∧
    (AuthServiceImpl.Register demoHash "5a17".toList true AuthDB.empty "alice".toList
      "pw".toList).1.user_id = 1 ∧
    (AuthServiceImpl.VerifyToken
      (AuthServiceImpl.Login demoHash demoDis true
        (AuthServiceImpl.Register demoHash "5a17".toList true AuthDB.empty "alice".toList
          "pw".toList).2 Redis.empty "alice".toList "pw".toList).2
      (AuthServiceImpl.Login demoHash demoDis true
        (AuthServiceImpl.Register demoHash "5a17".toList true AuthDB.empty "alice".toList
          "pw".toList).2 Redis.empty "alice".toList "pw".toList).1.token).1
      = some { valid := true,
               user_id := (AuthServiceImpl.Register demoHash "5a17".toList true AuthDB.empty
                 "alice".toList "pw".toList).1.user_id } :=
  ⟨by decide, by decide, by decide,
    (C25_register_login_verify demoHash "5a17".toList demoDis AuthDB.empty Redis.empty
      "alice".toList "pw".toList (by decide) (by decide)).2.2.2.2.2.2⟩

/-! ## The friend relation -/

end TinyIM
